import Mathlib

/-!
Verification of the Babipoly game simulation engine (babipoly_sim.py).

The engine is embedded shallowly: Python's mutable objects become explicit
state passing on a `Game` record, the global random stream becomes an
oracle function `Nat → Nat` together with a consumption counter `k`
carried in the state, and every fallible/iterative construct is made
total (fuel for the bounded loops, list recursion for the `for` loops).
Money is `Int` (Python ints), board positions are `Nat`.
-/

namespace Babipoly

-- ══════════════════════ GAME CONSTANTS ══════════════════════

def STARTING_MONEY : Int := 250000
def GO_REWARD : Int := 10000
def JAIL_BAIL : Int := 5000
def MAX_ROUNDS : Nat := 10000
def BOARD_SIZE : Nat := 40
def JAIL_POS : Nat := 10

/-- `int(starting_money * BUY_RESERVE_RATIO)` with `BUY_RESERVE_RATIO = 0.10`;
Python truncates the float toward zero, which for the integer inputs in use
equals truncated division by 10 (`Int.tdiv` also truncates toward zero). -/
def buyReserve (sm : Int) : Int := Int.tdiv (sm * 10) 100

/-- `int(starting_money * BUILD_RESERVE_RATIO)` with ratio `0.15`. -/
def buildReserve (sm : Int) : Int := Int.tdiv (sm * 15) 100

/-- `int(starting_money * BAIL_RICH_RATIO)` with ratio `0.40`. -/
def bailRich (sm : Int) : Int := Int.tdiv (sm * 40) 100

-- ══════════════════════ BOARD DATA ══════════════════════

inductive SqType where
  | go | property | station | utility | chance | community | tax | jail | goToJail | freeParking
deriving DecidableEq, Repr

inductive GroupId where
  | yellow | red | orange | brown | green | lightBlue | darkBlue | purple
deriving DecidableEq, Repr

/-- One BOARD entry.  Only the fields the engine reads are kept (names are
presentation only).  `group` is meaningful only for `property` squares,
`amount` only for the tax square, mirroring the source's per-kind fields. -/
structure Square where
  type : SqType
  group : GroupId := GroupId.yellow
  price : Int := 0
  mortgage : Int := 0
  rent : List Int := []
  amount : Int := 0
deriving DecidableEq, Repr

def GROUP_LIST : List GroupId :=
  [.yellow, .red, .orange, .brown, .green, .lightBlue, .darkBlue, .purple]

def groupPositions : GroupId → List Nat
  | .yellow => [1, 3]
  | .red => [6, 8, 9]
  | .orange => [13, 15, 16]
  | .brown => [18, 19]
  | .green => [21, 23, 24]
  | .lightBlue => [26, 27, 29]
  | .darkBlue => [31, 33, 34]
  | .purple => [37, 39]

def houseCost : GroupId → Int
  | .yellow => 1000
  | .red => 2000
  | .orange => 3000
  | .brown => 4000
  | .green => 5000
  | .lightBlue => 6000
  | .darkBlue => 7000
  | .purple => 10000

def STATION_POS : List Nat := [5, 14, 25, 35]
def UTILITY_POS : List Nat := [4, 11, 12, 28]

def board : Nat → Square
  | 0 => {type := .go}
  | 2 => {type := .community}
  | 7 => {type := .chance}
  | 10 => {type := .jail}
  | 17 => {type := .chance}
  | 20 => {type := .freeParking}
  | 22 => {type := .community}
  | 30 => {type := .goToJail}
  | 32 => {type := .community}
  | 36 => {type := .chance}
  | 38 => {type := .tax, amount := 5000}
  | 1 => {type := .property, group := .yellow, price := 3000, mortgage := 1000,
          rent := [1000, 2000, 4000, 6000, 8000, 10000]}
  | 3 => {type := .property, group := .yellow, price := 3000, mortgage := 1000,
          rent := [1000, 2000, 4000, 6000, 8000, 10000]}
  | 6 => {type := .property, group := .red, price := 5000, mortgage := 2000,
          rent := [1000, 3000, 6000, 9000, 12000, 15000]}
  | 8 => {type := .property, group := .red, price := 6000, mortgage := 3000,
          rent := [1000, 3000, 7000, 10000, 14000, 18000]}
  | 9 => {type := .property, group := .red, price := 5000, mortgage := 2000,
          rent := [1000, 3000, 6000, 9000, 12000, 15000]}
  | 13 => {type := .property, group := .orange, price := 7000, mortgage := 3000,
           rent := [2000, 4000, 8000, 12000, 17000, 23000]}
  | 15 => {type := .property, group := .orange, price := 8000, mortgage := 4000,
           rent := [2000, 5000, 9000, 14000, 19000, 26000]}
  | 16 => {type := .property, group := .orange, price := 5000, mortgage := 2000,
           rent := [1000, 3000, 6000, 10000, 14000, 19000]}
  | 18 => {type := .property, group := .brown, price := 9000, mortgage := 4000,
           rent := [2000, 5000, 10000, 15000, 21000, 28000]}
  | 19 => {type := .property, group := .brown, price := 10000, mortgage := 5000,
           rent := [2000, 6000, 11000, 17000, 23000, 31000]}
  | 21 => {type := .property, group := .green, price := 11000, mortgage := 5000,
           rent := [2000, 6000, 12000, 17000, 24000, 33000]}
  | 23 => {type := .property, group := .green, price := 11000, mortgage := 5000,
           rent := [2000, 6000, 12000, 17000, 24000, 33000]}
  | 24 => {type := .property, group := .green, price := 12000, mortgage := 6000,
           rent := [2000, 7000, 13000, 19000, 26000, 36000]}
  | 26 => {type := .property, group := .lightBlue, price := 13000, mortgage := 6000,
           rent := [2000, 7000, 14000, 21000, 28000, 39000]}
  | 27 => {type := .property, group := .lightBlue, price := 13000, mortgage := 6000,
           rent := [2000, 7000, 14000, 21000, 28000, 39000]}
  | 29 => {type := .property, group := .lightBlue, price := 14000, mortgage := 7000,
           rent := [2000, 8000, 15000, 23000, 31000, 43000]}
  | 31 => {type := .property, group := .darkBlue, price := 5000, mortgage := 2000,
           rent := [1000, 3000, 6000, 10000, 14000, 19000]}
  | 33 => {type := .property, group := .darkBlue, price := 15000, mortgage := 7000,
           rent := [2000, 8000, 16000, 23000, 31000, 43000]}
  | 34 => {type := .property, group := .darkBlue, price := 16000, mortgage := 8000,
           rent := [2000, 9000, 17000, 25000, 34000, 46000]}
  | 37 => {type := .property, group := .purple, price := 17500, mortgage := 9000,
           rent := [2000, 10000, 18000, 27000, 37000, 50000]}
  | 39 => {type := .property, group := .purple, price := 20000, mortgage := 10000,
           rent := [2000, 11000, 21000, 31000, 42000, 58000]}
  | 5 => {type := .station, price := 10000, mortgage := 5000,
          rent := [3000, 6000, 12000, 24000]}
  | 14 => {type := .station, price := 10000, mortgage := 5000,
           rent := [3000, 6000, 12000, 24000]}
  | 25 => {type := .station, price := 10000, mortgage := 5000,
           rent := [3000, 6000, 12000, 24000]}
  | 35 => {type := .station, price := 10000, mortgage := 5000,
           rent := [3000, 6000, 12000, 24000]}
  | 4 => {type := .utility, price := 10000, mortgage := 5000}
  | 11 => {type := .utility, price := 10000, mortgage := 5000}
  | 12 => {type := .utility, price := 7500, mortgage := 4000}
  | 28 => {type := .utility, price := 7500, mortgage := 4000}
  | _ => {type := .freeParking}

/-- A square's ownership record exists in the source exactly when its type is
property / station / utility. -/
def Purchasable (pos : Nat) : Prop :=
  (board pos).type = SqType.property ∨ (board pos).type = SqType.station ∨
    (board pos).type = SqType.utility

instance : DecidablePred Purchasable := fun _ => by unfold Purchasable; infer_instance

-- ══════════════════════ CARD DECKS ══════════════════════

inductive CardEff where
  | moveTo (target : Nat)
  | moveBack (n : Nat)
  | nearestStation
  | goToJail
  | getOutOfJail
  | receive (v : Int)
  | pay (v : Int)
  | payEach (v : Int)
  | receiveFromEach (v : Int)
  | repairs (houseFee hotelFee : Int)
deriving DecidableEq, Repr

def CHANCE_CARDS : List CardEff :=
  [.moveTo 0, .moveTo 39, .moveTo 3, .moveTo 35, .moveTo 25, .nearestStation,
   .moveTo 5, .receive 2500, .getOutOfJail, .moveBack 3, .goToJail,
   .repairs 1250 5000, .pay 750, .payEach 2500, .receive 7500, .moveTo 21]

def COMMUNITY_CARDS : List CardEff :=
  [.moveTo 0, .receive 10000, .pay 2500, .receive 2500, .getOutOfJail,
   .goToJail, .receiveFromEach 500, .receive 1000, .receive 5000, .receive 5000,
   .pay 7500, .pay 5000, .receive 500, .receive 12500, .repairs 2000 5750,
   .receive 1250]

def isGetOut : CardEff → Bool
  | .getOutOfJail => true
  | _ => false

-- ══════════════════════ STATE ══════════════════════

structure Player where
  money : Int
  position : Nat
  inJail : Bool
  jailTurns : Nat
  getOutCards : Nat
  bankrupt : Bool
  properties : List Nat
  consecDoubles : Nat
deriving DecidableEq, Repr

def initPlayer (sm : Int) : Player :=
  { money := sm, position := 0, inJail := false, jailTurns := 0,
    getOutCards := 0, bankrupt := false, properties := [], consecDoubles := 0 }

structure OwnRec where
  owner : Option Nat
  buildings : Nat
  mortgaged : Bool
deriving DecidableEq, Repr

def emptyOwn : OwnRec := { owner := none, buildings := 0, mortgaged := false }

/-- Full mutable game state.  The Python object's random stream is the oracle
`rng` with consumption counter `k`; the per-player stat arrays are total
functions (zero outside the seat range, as the Python lists are only indexed
by live seat ids). -/
structure Game where
  numPlayers : Nat
  startingMoney : Int
  players : Nat → Player
  ownership : Nat → OwnRec
  chanceDeck : List CardEff
  communityDeck : List CardEff
  turnCount : Nat
  rng : Nat → Nat
  k : Nat
  bankruptOrder : List Nat
  peakCash : Nat → Int
  propsBought : Nat → Int
  rentPaid : Nat → Int
  rentReceived : Nat → Int
  goRewards : Nat → Int
  totalTaxPaid : Nat → Int

def setP (g : Game) (i : Nat) (f : Player → Player) : Game :=
  { g with players := fun j => if j = i then f (g.players i) else g.players j }

def setOwn (g : Game) (pos : Nat) (f : OwnRec → OwnRec) : Game :=
  { g with ownership := fun q => if q = pos then f (g.ownership pos) else g.ownership q }

-- ══════════════════════ DECK OPERATIONS ══════════════════════

/-- Remove and return the n-th element (`none` when out of range). -/
def drawNth : List α → Nat → Option (α × List α)
  | [], _ => none
  | a :: rest, 0 => some (a, rest)
  | a :: rest, n + 1 =>
      match drawNth rest n with
      | some (b, rest') => some (b, a :: rest')
      | none => none

/-- Oracle-driven Fisher–Yates style shuffle modelling `random.shuffle`:
each step removes the element at oracle-chosen index (mod remaining length).
Every permutation of the input is obtainable for a suitable oracle, and the
output is always a permutation of the input.  Returns the new counter. -/
def shuffleAux (rng : Nat → Nat) : Nat → Nat → List α → List α × Nat
  | _, k, [] => ([], k)
  | 0, k, _ :: _ => ([], k)
  | fuel + 1, k, l@(_ :: _) =>
      match drawNth l (rng k % l.length) with
      | some (a, rest) =>
          let s := shuffleAux rng fuel (k + 1) rest
          (a :: s.1, s.2)
      | none => ([], k)

def shuffleWith (rng : Nat → Nat) (k : Nat) (l : List α) : List α × Nat :=
  shuffleAux rng l.length k l

/-- `_make_deck`: shuffle the non-"get out of jail" cards, then append the
"get out of jail" cards at the bottom. -/
def makeDeck (rng : Nat → Nat) (k : Nat) (cards : List CardEff) : List CardEff × Nat :=
  let s := shuffleWith rng k (cards.filter fun c => !isGetOut c)
  (s.1 ++ cards.filter isGetOut, s.2)

/-- `_draw_chance`: pop the head; rebuild the deck first when it is empty. -/
def drawChance (g : Game) : CardEff × Game :=
  match g.chanceDeck with
  | c :: rest => (c, { g with chanceDeck := rest })
  | [] =>
      let s := makeDeck g.rng g.k CHANCE_CARDS
      match s.1 with
      | c :: rest => (c, { g with chanceDeck := rest, k := s.2 })
      | [] => (.receive 0, { g with chanceDeck := [], k := s.2 })

def drawCommunity (g : Game) : CardEff × Game :=
  match g.communityDeck with
  | c :: rest => (c, { g with communityDeck := rest })
  | [] =>
      let s := makeDeck g.rng g.k COMMUNITY_CARDS
      match s.1 with
      | c :: rest => (c, { g with communityDeck := rest, k := s.2 })
      | [] => (.receive 0, { g with communityDeck := [], k := s.2 })

-- ══════════════════════ DICE / MOVEMENT / MONEY ══════════════════════

/-- `random.randint(1,6)` twice, driven by the oracle. -/
def roll (g : Game) : (Nat × Nat) × Game :=
  ((g.rng g.k % 6 + 1, g.rng (g.k + 1) % 6 + 1), { g with k := g.k + 2 })

def sendToJail (g : Game) (i : Nat) : Game :=
  setP g i fun p => { p with position := JAIL_POS, inJail := true,
                             jailTurns := 0, consecDoubles := 0 }

/-- `_credit`: unconditional cash increase, GO tagging, peak-cash watermark. -/
def creditM (g : Game) (i : Nat) (amount : Int) (isGo : Bool) : Game :=
  let g := setP g i fun p => { p with money := p.money + amount }
  let g := if isGo then
      { g with goRewards := fun j => if j = i then g.goRewards i + amount else g.goRewards j }
    else g
  if g.peakCash i < (g.players i).money then
    { g with peakCash := fun j => if j = i then (g.players i).money else g.peakCash j }
  else g

/-- `_move_steps`: forward move mod 40; the wrap bonus is paid only when
passing, landing exactly on GO being left to `_apply_square`'s go branch. -/
def moveSteps (g : Game) (i : Nat) (steps : Nat) : Game :=
  let old := (g.players i).position
  let np := (old + steps) % BOARD_SIZE
  let g := if (np < old ∨ (np = 0 ∧ 0 < steps)) ∧ np ≠ 0 then creditM g i GO_REWARD true else g
  setP g i fun p => { p with position := np }

/-- `_move_to`: teleport; wrap bonus iff the target is strictly behind. -/
def moveTo (g : Game) (i : Nat) (target : Nat) : Game :=
  let g := if target < (g.players i).position then creditM g i GO_REWARD true else g
  setP g i fun p => { p with position := target }

-- ══════════════════════ LIQUIDATION / BANKRUPTCY ══════════════════════

/-- Step 1 of `_raise_funds`: sell all buildings of each owned property
(50% refund), stopping once cash covers the need. -/
def sellBuildings (i : Nat) (needed : Int) : Game → List Nat → Game
  | g, [] => g
  | g, pos :: rest =>
      if needed ≤ (g.players i).money then g
      else
        let sq := board pos
        let ow := g.ownership pos
        let g :=
          if sq.type = SqType.property ∧ 0 < ow.buildings then
            let refund := Int.tdiv ((ow.buildings : Int) * houseCost sq.group) 2
            let g := setP g i fun p => { p with money := p.money + refund }
            setOwn g pos fun o => { o with buildings := 0 }
          else g
        sellBuildings i needed g rest

/-- Step 2 of `_raise_funds`: mortgage unmortgaged building-free squares,
stopping once cash covers the need. -/
def mortgageProps (i : Nat) (needed : Int) : Game → List Nat → Game
  | g, [] => g
  | g, pos :: rest =>
      if needed ≤ (g.players i).money then g
      else
        let sq := board pos
        let ow := g.ownership pos
        let g :=
          if ow.mortgaged = false ∧ ow.buildings = 0 then
            let g := setP g i fun p => { p with money := p.money + sq.mortgage }
            setOwn g pos fun o => { o with mortgaged := true }
          else g
        mortgageProps i needed g rest

def raiseFunds (g : Game) (i : Nat) (needed : Int) : Game :=
  let g := sellBuildings i needed g (g.players i).properties
  mortgageProps i needed g (g.players i).properties

/-- Creditor branch of `_bankrupt`: transfer each square, flagged mortgaged. -/
def transferAll (c : Nat) : Game → List Nat → Game
  | g, [] => g
  | g, pos :: rest =>
      let g := setOwn g pos fun o => { o with mortgaged := true, owner := some c }
      let g := setP g c fun p => { p with properties := p.properties ++ [pos] }
      transferAll c g rest

/-- Bank branch of `_bankrupt`: owner cleared, buildings reset, mortgage cleared. -/
def returnAll : Game → List Nat → Game
  | g, [] => g
  | g, pos :: rest =>
      let g := setOwn g pos fun _ => emptyOwn
      returnAll g rest

def doBankrupt (g : Game) (i : Nat) (copt : Option Nat) : Game :=
  let g := setP g i fun p => { p with bankrupt := true }
  let g := { g with bankruptOrder := g.bankruptOrder ++ [i] }
  let g :=
    match copt with
    | some c =>
        if (g.players c).bankrupt = false then
          let g := setP g c fun p => { p with money := p.money + (g.players i).money }
          transferAll c g (g.players i).properties
        else returnAll g (g.players i).properties
    | none => returnAll g (g.players i).properties
  let g := setP g i fun p => { p with properties := [] }
  setP g i fun p => { p with money := 0 }

/-- `_charge`: liquidate on shortfall, then either pay (crediting a
non-bankrupt creditor) or go bankrupt.  Returns success. -/
def chargeM (g : Game) (i : Nat) (amount : Int) (copt : Option Nat) : Game × Bool :=
  let g := if (g.players i).money < amount then raiseFunds g i amount else g
  if amount ≤ (g.players i).money then
    let g := setP g i fun p => { p with money := p.money - amount }
    let g :=
      match copt with
      | some c =>
          if (g.players c).bankrupt = false then
            let g := { g with rentReceived := fun j => if j = c then g.rentReceived c + amount else g.rentReceived j }
            let g := setP g c fun p => { p with money := p.money + amount }
            if g.peakCash c < (g.players c).money then
              { g with peakCash := fun j => if j = c then (g.players c).money else g.peakCash j }
            else g
          else g
      | none => g
    (g, true)
  else
    (doBankrupt g i copt, false)

-- ══════════════════════ OWNERSHIP HELPERS / RENT ══════════════════════

def ownsGroup (g : Game) (i : Nat) (grp : GroupId) : Bool :=
  (groupPositions grp).all fun p =>
    (g.ownership p).owner == some i && !(g.ownership p).mortgaged

def stationsOwned (g : Game) (i : Nat) : Nat :=
  (STATION_POS.filter fun p =>
    (g.ownership p).owner == some i && !(g.ownership p).mortgaged).length

def utilitiesOwned (g : Game) (i : Nat) : Nat :=
  (UTILITY_POS.filter fun p =>
    (g.ownership p).owner == some i && !(g.ownership p).mortgaged).length

/-- `_rent`. -/
def rentOf (g : Game) (pos : Nat) (dice : Nat) (doubleStation : Bool) : Int :=
  let sq := board pos
  let ow := g.ownership pos
  match ow.owner with
  | none => 0
  | some o =>
      if ow.mortgaged then 0
      else
        match sq.type with
        | .property =>
            let b := ow.buildings
            let r := sq.rent.getD b 0
            if b = 0 ∧ ownsGroup g o sq.group then r * 2 else r
        | .station =>
            let count := stationsOwned g o
            let mult : Int := if doubleStation then 2 else 1
            sq.rent.getD (count - 1) 0 * mult
        | .utility =>
            let count := utilitiesOwned g o
            let mult : Int := if 2 ≤ count then 10 else 4
            (dice : Int) * mult
        | _ => 0

-- ══════════════════════ AI: BUILD / BUY ══════════════════════

def minBuildings (g : Game) : List Nat → Nat
  | [] => 0
  | p :: rest => (rest.map fun q => (g.ownership q).buildings).foldl min (g.ownership p).buildings

/-- One `for pos in positions` pass of `_try_build`'s inner loop; the Bool is
the `improved` flag (reset to False and the pass aborted on the first
unaffordable placement). -/
def buildPass (i : Nat) (minB : Nat) (hc reserve : Int) : Game → Bool → List Nat → Game × Bool
  | g, imp, [] => (g, imp)
  | g, imp, pos :: rest =>
      let ow := g.ownership pos
      if ow.buildings = minB ∧ ow.buildings < 5 then
        if reserve ≤ (g.players i).money - hc then
          let g := setP g i fun p => { p with money := p.money - hc }
          let g := setOwn g pos fun o => { o with buildings := o.buildings + 1 }
          buildPass i minB hc reserve g true rest
        else (g, false)
      else buildPass i minB hc reserve g imp rest

/-- The `while improved` loop of `_try_build`; fuel 16 covers the at most
15 improving passes (≤ 5 buildings on ≤ 3 squares) plus the final pass. -/
def buildLoop (i : Nat) (ps : List Nat) (hc reserve : Int) : Nat → Game → Game
  | 0, g => g
  | fuel + 1, g =>
      let minB := minBuildings g ps
      if 5 ≤ minB then g
      else
        let s := buildPass i minB hc reserve g false ps
        if s.2 then buildLoop i ps hc reserve fuel s.1 else s.1

def tryBuild (g : Game) (i : Nat) : Game :=
  let reserve := buildReserve g.startingMoney
  GROUP_LIST.foldl
    (fun g grp =>
      if ownsGroup g i grp then buildLoop i (groupPositions grp) (houseCost grp) reserve 16 g
      else g)
    g

def shouldBuy (g : Game) (i : Nat) (price : Int) : Bool :=
  decide (buyReserve g.startingMoney ≤ (g.players i).money - price)

-- ══════════════════════ CARD / SQUARE RESOLUTION ══════════════════════

/-- Forward cyclic distance `(s - pos) % 40` with Python's sign convention. -/
def cycDist (s pos : Nat) : Int := ((s : Int) - (pos : Int)) % 40

/-- `min(STATION_POS, key=...)`: first station of minimal forward distance. -/
def nearestStationPos (pos : Nat) : Nat :=
  match STATION_POS with
  | [] => 0
  | s :: rest =>
      rest.foldl (fun best q => if cycDist q pos < cycDist best pos then q else best) s

def activeOthers (g : Game) (i : Nat) : List Nat :=
  (List.range g.numPlayers).filter fun j => (g.players j).bankrupt = false && j ≠ i

/-- The `pay_each` loop: pay each active other up to the card value, truncated
to the payer's available cash; no bankruptcy is triggered here. -/
def payEachLoop (i : Nat) (v : Int) : Game → List Nat → Game
  | g, [] => g
  | g, j :: rest =>
      if (g.players i).bankrupt = true then g
      else
        let amt := min v (g.players i).money
        let g := setP g i fun p => { p with money := p.money - amt }
        let g := setP g j fun p => { p with money := p.money + amt }
        payEachLoop i v g rest

/-- The `receive_from_each` loop: each payer is capped at their own cash. -/
def receiveFromEachLoop (i : Nat) (v : Int) : Game → List Nat → Game
  | g, [] => g
  | g, j :: rest =>
      let give := min v (g.players j).money
      let g := setP g j fun p => { p with money := p.money - give }
      let g := setP g i fun p => { p with money := p.money + give }
      receiveFromEachLoop i v g rest

def repairsTotal (g : Game) (i : Nat) (houseFee hotelFee : Int) : Int :=
  ((g.players i).properties.map fun pos =>
    if (board pos).type = SqType.property then
      if (g.ownership pos).buildings = 5 then hotelFee
      else ((g.ownership pos).buildings : Int) * houseFee
    else 0).foldl (· + ·) 0

def addRentPaid (g : Game) (i : Nat) (amt : Int) : Game :=
  { g with rentPaid := fun j => if j = i then g.rentPaid i + amt else g.rentPaid j }

def addTaxPaid (g : Game) (i : Nat) (amt : Int) : Game :=
  { g with totalTaxPaid := fun j => if j = i then g.totalTaxPaid i + amt else g.totalTaxPaid j }

/-- `_apply_card`, parametric in the square resolver used for cards that
relocate the player (the source's mutual recursion between `_apply_card` and
`_apply_square`, cut at this higher-order argument). -/
def applyCardWith (applySq : Game → Nat → Nat → Game) (g : Game) (i : Nat)
    (card : CardEff) (dice : Nat) : Game :=
  match card with
  | .moveTo target =>
      let g := moveTo g i target
      if (g.players i).bankrupt = false then applySq g i dice else g
  | .moveBack n =>
      let np := ((((g.players i).position : Int) - (n : Int)) % 40).toNat
      let g := setP g i fun p => { p with position := np }
      if (g.players i).bankrupt = false then applySq g i dice else g
  | .nearestStation =>
      let nearest := nearestStationPos (g.players i).position
      let g := moveTo g i nearest
      let ow := g.ownership nearest
      match ow.owner with
      | some o =>
          if o ≠ i ∧ ow.mortgaged = false then
            let rent := rentOf g nearest dice true
            if rent ≠ 0 then
              let g := addRentPaid g i rent
              (chargeM g i rent (some o)).1
            else g
          else g
      | none => g
  | .goToJail => sendToJail g i
  | .getOutOfJail => setP g i fun p => { p with getOutCards := p.getOutCards + 1 }
  | .receive v => creditM g i v false
  | .pay v =>
      let g := addTaxPaid g i v
      (chargeM g i v none).1
  | .payEach v => payEachLoop i v g (activeOthers g i)
  | .receiveFromEach v => receiveFromEachLoop i v g (activeOthers g i)
  | .repairs houseFee hotelFee =>
      let total := repairsTotal g i houseFee hotelFee
      if 0 < total then
        let g := addTaxPaid g i total
        (chargeM g i total none).1
      else g

/-- The purchase / rent branch of `_apply_square` for property, station and
utility squares. -/
def resolveOwnable (g : Game) (i : Nat) (pos : Nat) (dice : Nat) : Game :=
  let sq := board pos
  let ow := g.ownership pos
  match ow.owner with
  | none =>
      if shouldBuy g i sq.price then
        let g := setP g i fun p => { p with money := p.money - sq.price,
                                            properties := p.properties ++ [pos] }
        let g := setOwn g pos fun o => { o with owner := some i }
        { g with propsBought := fun j => if j = i then g.propsBought i + 1 else g.propsBought j }
      else g
  | some o =>
      if o ≠ i ∧ ow.mortgaged = false then
        if (g.players o).bankrupt = false then
          let rent := rentOf g pos dice false
          if 0 < rent then
            let g := addRentPaid g i rent
            (chargeM g i rent (some o)).1
          else g
        else g
      else g

/-- `_apply_square`, fuel-indexed for the card → square → card nesting
(each drawn relocation card re-resolves a square; on this board the nesting
depth is at most 2, and the engine enters with fuel 4). -/
def applySquareF : Nat → Game → Nat → Nat → Game
  | 0, g, _, _ => g
  | fuel + 1, g, i, dice =>
      if (g.players i).bankrupt = true then g
      else
        let pos := (g.players i).position
        let sq := board pos
        match sq.type with
        | .go => creditM g i GO_REWARD true
        | .goToJail => sendToJail g i
        | .tax =>
            let g := addTaxPaid g i sq.amount
            (chargeM g i sq.amount none).1
        | .chance =>
            let s := drawChance g
            applyCardWith (applySquareF fuel) s.2 i s.1 dice
        | .community =>
            let s := drawCommunity g
            applyCardWith (applySquareF fuel) s.2 i s.1 dice
        | .property => resolveOwnable g i pos dice
        | .station => resolveOwnable g i pos dice
        | .utility => resolveOwnable g i pos dice
        | .jail => g
        | .freeParking => g

def applySquare (g : Game) (i : Nat) (dice : Nat) : Game :=
  applySquareF 4 g i dice

def applyCard (g : Game) (i : Nat) (card : CardEff) (dice : Nat) : Game :=
  applyCardWith (applySquareF 4) g i card dice

-- ══════════════════════ JAIL / TURN ══════════════════════

/-- `_jail_turn`: returns the dice when the player gets out this turn. -/
def jailTurn (g : Game) (i : Nat) : Game × Option (Nat × Nat) :=
  let g := setP g i fun p => { p with jailTurns := p.jailTurns + 1 }
  let p := g.players i
  if 0 < p.getOutCards then
    let g := setP g i fun q => { q with getOutCards := q.getOutCards - 1,
                                        inJail := false, jailTurns := 0 }
    let s := roll g
    (s.2, some s.1)
  else if (3 ≤ p.jailTurns ∨ bailRich g.startingMoney < p.money) ∧ JAIL_BAIL ≤ p.money then
    let g := setP g i fun q => { q with money := q.money - JAIL_BAIL,
                                        inJail := false, jailTurns := 0 }
    let s := roll g
    (s.2, some s.1)
  else
    let s := roll g
    if s.1.1 = s.1.2 then
      let g := setP s.2 i fun q => { q with inJail := false, jailTurns := 0 }
      (g, some s.1)
    else (s.2, none)

/-- Tail of one iteration of `_play_turn`'s while loop, after the doubles
bookkeeping: move, resolve the square, build, and either stop or roll again
(`again` is the loop with one unit of fuel consumed). -/
def turnRest (again : Game → Nat → Game) (g : Game) (i : Nat) (dice : Nat)
    (dbl : Bool) : Game :=
  let g := if (g.players i).inJail = false then moveSteps g i dice else g
  let g := applySquare g i dice
  if (g.players i).bankrupt = true then g
  else
    let g := tryBuild g i
    if dbl = false ∨ (g.players i).inJail = true then g
    else again g i

/-- Doubles bookkeeping of one loop iteration (three consecutive doubles send
the player to jail, cancelling the move). -/
def turnBody (again : Game → Nat → Game) (g : Game) (i : Nat) (d1 d2 : Nat) : Game :=
  let dice := d1 + d2
  let dbl := d1 = d2
  if dbl ∧ (g.players i).inJail = false then
    let g := setP g i fun p => { p with consecDoubles := p.consecDoubles + 1 }
    if (g.players i).consecDoubles = 3 then sendToJail g i
    else turnRest again g i dice (decide dbl)
  else turnRest again g i dice (decide dbl)

/-- The while loop of `_play_turn`; one fuel unit per iteration (at most three
doubles re-rolls can occur, so fuel 4 at entry is never exhausted). -/
def turnLoop : Nat → Game → Nat → Game
  | 0, g, _ => g
  | fuel + 1, g, i =>
      if (g.players i).inJail = true then
        match jailTurn g i with
        | (g', none) => g'
        | (g', some d) => turnBody (turnLoop fuel) g' i d.1 d.2
      else
        let s := roll g
        turnBody (turnLoop fuel) s.2 i s.1.1 s.1.2

/-- `_play_turn`. -/
def playTurn (g : Game) (i : Nat) : Game :=
  if (g.players i).bankrupt = true then g
  else
    let g := setP g i fun p => { p with consecDoubles := 0 }
    let g := turnLoop 4 g i
    { g with turnCount := g.turnCount + 1 }

-- ══════════════════════ GAME LOOP ══════════════════════

def playRound (g : Game) : Game :=
  (List.range g.numPlayers).foldl
    (fun g i => if (g.players i).bankrupt = false then playTurn g i else g) g

def activeIds (g : Game) : List Nat :=
  (List.range g.numPlayers).filter fun i => (g.players i).bankrupt = false

/-- `net_worth`: cash plus liquidation value of held assets. -/
def netWorth (g : Game) (i : Nat) : Int :=
  ((g.players i).properties.map fun pos =>
    let sq := board pos
    let ow := g.ownership pos
    if ow.mortgaged then sq.mortgage
    else
      sq.price +
        (if 0 < ow.buildings ∧ sq.type = SqType.property then
          Int.tdiv ((ow.buildings : Int) * houseCost sq.group) 2
         else 0)).foldl (· + ·) (g.players i).money

/-- `max(active, key=net_worth)` keeps the first maximum (Python `max`). -/
def timeoutWinner (g : Game) : List Nat → Nat
  | [] => 0
  | a :: rest => rest.foldl (fun best i => if netWorth g best < netWorth g i then i else best) a

/-- The outcome of `run`: final state, winner id (or -1), timeout flag and
the recorded round count (`stats["rounds"]`). -/
structure RunOut where
  g : Game
  winner : Int
  timedOut : Bool
  rounds : Nat

/-- The while loop of `run`, with the round counter as an argument; called
with fuel `MAX_ROUNDS`, which the ceiling check keeps from running out. -/
def runAux : Nat → Nat → Game → RunOut
  | 0, rc, g => ⟨g, -1, false, rc⟩
  | fuel + 1, rc, g =>
      let rc := rc + 1
      let g := playRound g
      let act := activeIds g
      if act.length ≤ 1 then
        ⟨g, (match act with | [] => (-1 : Int) | i :: _ => (i : Int)), false, rc⟩
      else if MAX_ROUNDS ≤ rc then
        ⟨g, (timeoutWinner g act : Int), true, rc⟩
      else runAux fuel rc g

/-- `BabopolyGame.run`. -/
def run (g : Game) : RunOut := runAux MAX_ROUNDS 0 g

/-- `BabopolyGame.__init__` (plus the oracle threading): note the source
performs no validation of either argument. -/
def initGame (n : Nat) (sm : Int) (rng : Nat → Nat) : Game :=
  let s1 := makeDeck rng 0 CHANCE_CARDS
  let s2 := makeDeck rng s1.2 COMMUNITY_CARDS
  { numPlayers := n, startingMoney := sm,
    players := fun _ => initPlayer sm,
    ownership := fun _ => emptyOwn,
    chanceDeck := s1.1, communityDeck := s2.1,
    turnCount := 0, rng := rng, k := s2.2, bankruptOrder := [],
    peakCash := fun _ => 0, propsBought := fun _ => 0, rentPaid := fun _ => 0,
    rentReceived := fun _ => 0, goRewards := fun _ => 0, totalTaxPaid := fun _ => 0 }

-- ══════════════════════ BASIC STATE LEMMAS ══════════════════════

theorem setP_players (g : Game) (i : Nat) (f : Player → Player) (j : Nat) :
    (setP g i f).players j = if j = i then f (g.players i) else g.players j := rfl

theorem setP_players_self (g : Game) (i : Nat) (f : Player → Player) :
    (setP g i f).players i = f (g.players i) := by simp [setP]

theorem setP_players_other (g : Game) (i : Nat) (f : Player → Player) (j : Nat)
    (h : j ≠ i) : (setP g i f).players j = g.players j := by simp [setP, h]

theorem setP_ownership (g : Game) (i : Nat) (f : Player → Player) :
    (setP g i f).ownership = g.ownership := rfl

theorem setOwn_players (g : Game) (pos : Nat) (f : OwnRec → OwnRec) :
    (setOwn g pos f).players = g.players := rfl

theorem setOwn_ownership (g : Game) (pos : Nat) (f : OwnRec → OwnRec) (q : Nat) :
    (setOwn g pos f).ownership q = if q = pos then f (g.ownership pos) else g.ownership q := rfl

@[simp] theorem setP_numPlayers (g : Game) (i : Nat) (f : Player → Player) :
    (setP g i f).numPlayers = g.numPlayers := rfl

@[simp] theorem setP_startingMoney (g : Game) (i : Nat) (f : Player → Player) :
    (setP g i f).startingMoney = g.startingMoney := rfl

@[simp] theorem setP_ownership_eq (g : Game) (i : Nat) (f : Player → Player) :
    (setP g i f).ownership = g.ownership := rfl

@[simp] theorem setP_chanceDeck (g : Game) (i : Nat) (f : Player → Player) :
    (setP g i f).chanceDeck = g.chanceDeck := rfl

@[simp] theorem setP_communityDeck (g : Game) (i : Nat) (f : Player → Player) :
    (setP g i f).communityDeck = g.communityDeck := rfl

@[simp] theorem setP_turnCount (g : Game) (i : Nat) (f : Player → Player) :
    (setP g i f).turnCount = g.turnCount := rfl

@[simp] theorem setP_rng (g : Game) (i : Nat) (f : Player → Player) :
    (setP g i f).rng = g.rng := rfl

@[simp] theorem setP_k (g : Game) (i : Nat) (f : Player → Player) :
    (setP g i f).k = g.k := rfl

@[simp] theorem setP_bankruptOrder (g : Game) (i : Nat) (f : Player → Player) :
    (setP g i f).bankruptOrder = g.bankruptOrder := rfl

@[simp] theorem setP_peakCash (g : Game) (i : Nat) (f : Player → Player) :
    (setP g i f).peakCash = g.peakCash := rfl

@[simp] theorem setP_propsBought (g : Game) (i : Nat) (f : Player → Player) :
    (setP g i f).propsBought = g.propsBought := rfl

@[simp] theorem setP_rentPaid (g : Game) (i : Nat) (f : Player → Player) :
    (setP g i f).rentPaid = g.rentPaid := rfl

@[simp] theorem setP_rentReceived (g : Game) (i : Nat) (f : Player → Player) :
    (setP g i f).rentReceived = g.rentReceived := rfl

@[simp] theorem setP_goRewards (g : Game) (i : Nat) (f : Player → Player) :
    (setP g i f).goRewards = g.goRewards := rfl

@[simp] theorem setP_totalTaxPaid (g : Game) (i : Nat) (f : Player → Player) :
    (setP g i f).totalTaxPaid = g.totalTaxPaid := rfl

@[simp] theorem setOwn_numPlayers (g : Game) (pos : Nat) (f : OwnRec → OwnRec) :
    (setOwn g pos f).numPlayers = g.numPlayers := rfl

@[simp] theorem setOwn_startingMoney (g : Game) (pos : Nat) (f : OwnRec → OwnRec) :
    (setOwn g pos f).startingMoney = g.startingMoney := rfl

@[simp] theorem setOwn_players_eq (g : Game) (pos : Nat) (f : OwnRec → OwnRec) :
    (setOwn g pos f).players = g.players := rfl

@[simp] theorem setOwn_chanceDeck (g : Game) (pos : Nat) (f : OwnRec → OwnRec) :
    (setOwn g pos f).chanceDeck = g.chanceDeck := rfl

@[simp] theorem setOwn_communityDeck (g : Game) (pos : Nat) (f : OwnRec → OwnRec) :
    (setOwn g pos f).communityDeck = g.communityDeck := rfl

@[simp] theorem setOwn_turnCount (g : Game) (pos : Nat) (f : OwnRec → OwnRec) :
    (setOwn g pos f).turnCount = g.turnCount := rfl

@[simp] theorem setOwn_rng (g : Game) (pos : Nat) (f : OwnRec → OwnRec) :
    (setOwn g pos f).rng = g.rng := rfl

@[simp] theorem setOwn_k (g : Game) (pos : Nat) (f : OwnRec → OwnRec) :
    (setOwn g pos f).k = g.k := rfl

@[simp] theorem setOwn_bankruptOrder (g : Game) (pos : Nat) (f : OwnRec → OwnRec) :
    (setOwn g pos f).bankruptOrder = g.bankruptOrder := rfl

@[simp] theorem setOwn_peakCash (g : Game) (pos : Nat) (f : OwnRec → OwnRec) :
    (setOwn g pos f).peakCash = g.peakCash := rfl

@[simp] theorem setOwn_propsBought (g : Game) (pos : Nat) (f : OwnRec → OwnRec) :
    (setOwn g pos f).propsBought = g.propsBought := rfl

@[simp] theorem setOwn_rentPaid (g : Game) (pos : Nat) (f : OwnRec → OwnRec) :
    (setOwn g pos f).rentPaid = g.rentPaid := rfl

@[simp] theorem setOwn_rentReceived (g : Game) (pos : Nat) (f : OwnRec → OwnRec) :
    (setOwn g pos f).rentReceived = g.rentReceived := rfl

@[simp] theorem setOwn_goRewards (g : Game) (pos : Nat) (f : OwnRec → OwnRec) :
    (setOwn g pos f).goRewards = g.goRewards := rfl

@[simp] theorem setOwn_totalTaxPaid (g : Game) (pos : Nat) (f : OwnRec → OwnRec) :
    (setOwn g pos f).totalTaxPaid = g.totalTaxPaid := rfl

-- ══════════════════════ BANKRUPTCY SETTLEMENT (C2) ══════════════════════

theorem transferAll_players (c : Nat) (L : List Nat) (g : Game) (j : Nat) :
    (transferAll c g L).players j =
      if j = c then { g.players c with properties := (g.players c).properties ++ L }
      else g.players j := by
  induction L generalizing g with
  | nil => by_cases h : j = c <;> simp [transferAll, h]
  | cons p rest ih =>
      simp only [transferAll, ih, setP, setOwn]
      by_cases h : j = c <;> simp [h]

theorem transferAll_ownership (c : Nat) (L : List Nat) (g : Game) (pos : Nat) :
    (transferAll c g L).ownership pos =
      if pos ∈ L then { g.ownership pos with owner := some c, mortgaged := true }
      else g.ownership pos := by
  induction L generalizing g with
  | nil => simp [transferAll]
  | cons p rest ih =>
      simp only [transferAll, ih, setP, setOwn]
      by_cases h : pos ∈ rest
      · by_cases h2 : pos = p <;> simp [h, h2]
      · by_cases h2 : pos = p <;> simp [h, h2]

theorem returnAll_players (L : List Nat) (g : Game) :
    (returnAll g L).players = g.players := by
  induction L generalizing g with
  | nil => rfl
  | cons p rest ih => simp [returnAll, ih, setOwn]

theorem returnAll_ownership (L : List Nat) (g : Game) (pos : Nat) :
    (returnAll g L).ownership pos = if pos ∈ L then emptyOwn else g.ownership pos := by
  induction L generalizing g with
  | nil => simp [returnAll]
  | cons p rest ih =>
      simp only [returnAll, ih, setOwn]
      by_cases h : pos ∈ rest
      · simp [h]
      · by_cases h2 : pos = p <;> simp [h, h2]

-- ══════════════════════ CONCRETE STATES FOR SCENARIOS ══════════════════════

def rng0 : Nat → Nat := fun _ => 0

/-- The spec's bankruptcy scenario state: player 0 has cash 1,000 and owns
exactly square 8 (mortgage value 3,000, building-free, unmortgaged, no other
assets); player 1 is solvent with cash 5,000. -/
def scenarioGame : Game :=
  let g := initGame 2 250000 rng0
  let g := setP g 0 fun p => { p with money := 1000, properties := [8] }
  let g := setP g 1 fun p => { p with money := 5000 }
  setOwn g 8 fun o => { o with owner := some 0 }

-- ══════════════════════ CLAIM C2 ══════════════════════

/-- C2: on bankruptcy, a solvent creditor receives the bankrupt player's
remaining cash and inherits every owned square flagged mortgaged; with no
creditor every owned square returns to the bank cleared; and in both cases
the bankrupt player ends with no squares and cash exactly 0. -/
theorem claim_C2 (g : Game) (i c : Nat) :
    (c ≠ i → (g.players c).bankrupt = false →
      ((doBankrupt g i (some c)).players c).money
          = (g.players c).money + (g.players i).money ∧
      ((doBankrupt g i (some c)).players c).properties
          = (g.players c).properties ++ (g.players i).properties ∧
      ∀ pos ∈ (g.players i).properties,
        ((doBankrupt g i (some c)).ownership pos).owner = some c ∧
        ((doBankrupt g i (some c)).ownership pos).mortgaged = true ∧
        pos ∈ ((doBankrupt g i (some c)).players c).properties) ∧
    (∀ pos ∈ (g.players i).properties,
        ((doBankrupt g i none).ownership pos).owner = none ∧
        ((doBankrupt g i none).ownership pos).buildings = 0 ∧
        ((doBankrupt g i none).ownership pos).mortgaged = false) ∧
    (∀ copt : Option Nat,
        ((doBankrupt g i copt).players i).properties = [] ∧
        ((doBankrupt g i copt).players i).money = 0 ∧
        ((doBankrupt g i copt).players i).bankrupt = true) := by
  refine ⟨?_, ?_, ?_⟩
  · intro hic hcb
    refine ⟨?_, ?_, ?_⟩
    · simp [doBankrupt, setP_players, transferAll_players, hic, Ne.symm hic, hcb]
    · simp [doBankrupt, setP_players, transferAll_players, hic, Ne.symm hic, hcb]
    · intro pos hpos
      refine ⟨?_, ?_, ?_⟩
      · simp [doBankrupt, setP_players, setP_ownership, transferAll_ownership,
              hic, Ne.symm hic, hcb, hpos]
      · simp [doBankrupt, setP_players, setP_ownership, transferAll_ownership,
              hic, Ne.symm hic, hcb, hpos]
      · simp [doBankrupt, setP_players, transferAll_players, hic, Ne.symm hic, hcb, hpos]
  · intro pos hpos
    simp [doBankrupt, setP_players, setP_ownership, returnAll_ownership, hpos, emptyOwn]
  · intro copt
    match copt with
    | none =>
        refine ⟨?_, ?_, ?_⟩ <;>
          simp [doBankrupt, setP_players, returnAll_players]
    | some c =>
        by_cases hci : c = i
        · subst hci
          refine ⟨?_, ?_, ?_⟩ <;>
            simp [doBankrupt, setP_players, returnAll_players]
        · by_cases hcb : (g.players c).bankrupt = false
          · refine ⟨?_, ?_, ?_⟩ <;>
              simp [doBankrupt, setP_players, transferAll_players, returnAll_players,
                    hci, Ne.symm hci, hcb]
          · refine ⟨?_, ?_, ?_⟩ <;>
              simp [doBankrupt, setP_players, transferAll_players, returnAll_players,
                    hci, Ne.symm hci, hcb]

/-- Witness for C2 at the concrete scenario state. -/
theorem claim_C2_witness :
    ((doBankrupt scenarioGame 0 (some 1)).players 1).money
        = (scenarioGame.players 1).money + (scenarioGame.players 0).money ∧
    8 ∈ ((doBankrupt scenarioGame 0 (some 1)).players 1).properties ∧
    ((doBankrupt scenarioGame 0 (some 1)).players 0).money = 0 := by
  have h := claim_C2 scenarioGame 0 1
  have h1 := h.1 (by decide) (by decide)
  exact ⟨h1.1, (h1.2.2 8 (by decide)).2.2, (h.2.2 (some 1)).2.1⟩

-- ══════════════════════ CLAIM C3 ══════════════════════

/-- C3: charging rent 6,000 to a player with cash 1,000 whose only asset is
building-free unmortgaged square 8 (mortgage value 3,000), owed to a solvent
creditor, ends with the player at cash 0 and bankrupt, the square
transferred to the creditor flagged mortgaged, the bankruptcy recorded, and
the creditor's cash up by exactly 4,000 = 1,000 + 3,000 (not 6,000). -/
theorem claim_C3 :
    ((chargeM scenarioGame 0 6000 (some 1)).1.players 0).money = 0 ∧
    ((chargeM scenarioGame 0 6000 (some 1)).1.players 0).bankrupt = true ∧
    ((chargeM scenarioGame 0 6000 (some 1)).1.players 0).properties = [] ∧
    ((chargeM scenarioGame 0 6000 (some 1)).1.ownership 8).owner = some 1 ∧
    ((chargeM scenarioGame 0 6000 (some 1)).1.ownership 8).mortgaged = true ∧
    (chargeM scenarioGame 0 6000 (some 1)).1.bankruptOrder = [0] ∧
    8 ∈ ((chargeM scenarioGame 0 6000 (some 1)).1.players 1).properties ∧
    ((chargeM scenarioGame 0 6000 (some 1)).1.players 1).money
        = (scenarioGame.players 1).money + 4000 ∧
    (chargeM scenarioGame 0 6000 (some 1)).2 = false := by
  decide

-- ══════════════════════ CLAIM C5 ══════════════════════

/-- C5 counterexample: the constructor performs no validation, so an invalid
configuration (1 player, negative starting money) is accepted rather than
rejected — it even produces a game that `run` completes normally. -/
theorem claim_C5_counterexample :
    (initGame 1 (-5) rng0).numPlayers = 1 ∧
    ((initGame 1 (-5) rng0).players 0).money = -5 ∧
    (run (initGame 1 (-5) rng0)).winner = 0 ∧
    (run (initGame 1 (-5) rng0)).rounds = 1 ∧
    (run (initGame 1 (-5) rng0)).timedOut = false := by
  decide

/-- C5 amended: construction never rejects anything — every player count and
every starting money yields a game with exactly the requested parameters
(hence in particular every count in 2..8 with positive money succeeds). -/
theorem claim_C5_amended (n : Nat) (sm : Int) (rng : Nat → Nat) :
    (initGame n sm rng).numPlayers = n ∧
    (initGame n sm rng).startingMoney = sm ∧
    (∀ i, (initGame n sm rng).players i = initPlayer sm) ∧
    (∀ pos, (initGame n sm rng).ownership pos = emptyOwn) :=
  ⟨rfl, rfl, fun _ => rfl, fun _ => rfl⟩

-- ══════════════════════ CLAIM C6 ══════════════════════

def goCardGame : Game := setP (initGame 2 250000 rng0) 0 fun p => { p with position := 5 }

def goDiceGame : Game := setP (initGame 2 250000 rng0) 0 fun p => { p with position := 35 }

def goPassGame : Game := setP (initGame 2 250000 rng0) 0 fun p => { p with position := 39 }

/-- C6: a dice move that passes GO, or lands exactly on it, credits the bonus
once — but a move-to card targeting GO from a position it is strictly behind
credits the bonus twice (once in `_move_to`'s wrap check and once again in
`_apply_square`'s go branch), contradicting the claim's "exactly once". -/
theorem claim_C6_bug :
    ((moveSteps goPassGame 0 7).players 0).money = 250000 + GO_REWARD ∧
    ((applySquare (moveSteps goDiceGame 0 5) 0 5).players 0).money
        = 250000 + GO_REWARD ∧
    ((applyCard goCardGame 0 (.moveTo 0) 7).players 0).money
        = 250000 + 2 * GO_REWARD := by
  decide

-- ══════════════════════ CLAIM C7 ══════════════════════

theorem addRentPaid_players (g : Game) (i : Nat) (amt : Int) :
    (addRentPaid g i amt).players = g.players := rfl

theorem chargeM_money_self (g : Game) (i : Nat) (amount : Int) (copt : Option Nat)
    (h : amount ≤ (g.players i).money) (hco : ∀ c, copt = some c → c ≠ i) :
    ((chargeM g i amount copt).1.players i).money = (g.players i).money - amount := by
  have hlt : ¬ ((g.players i).money < amount) := not_lt.mpr h
  match copt with
  | none => simp [chargeM, hlt, h, setP_players]
  | some c =>
      have hci : c ≠ i := hco c rfl
      simp [chargeM, hlt, h, setP_players, hci, Ne.symm hci,
            apply_ite (fun gg : Game => (gg.players i).money)]

/-- C7: rent on an owned, unmortgaged utility is `dice × 4` when the owner
holds exactly one utility and `dice × 10` when two; the dice sum is the one
threaded through the current movement, also when the square was entered via
a card (the resolver receives the same `dice` argument and charges exactly
`rentOf` of it). -/
theorem claim_C7 (g : Game) (pos o dice : Nat) (ds : Bool)
    (ht : (board pos).type = SqType.utility)
    (ho : (g.ownership pos).owner = some o)
    (hm : (g.ownership pos).mortgaged = false) :
    (utilitiesOwned g o = 1 → rentOf g pos dice ds = (dice : Int) * 4) ∧
    (utilitiesOwned g o = 2 → rentOf g pos dice ds = (dice : Int) * 10) ∧
    (∀ fuel i, (g.players i).bankrupt = false → (g.players i).position = pos →
      o ≠ i → (g.players o).bankrupt = false →
      0 < rentOf g pos dice false → rentOf g pos dice false ≤ (g.players i).money →
      ((applySquareF (fuel + 1) g i dice).players i).money
          = (g.players i).money - rentOf g pos dice false) := by
  refine ⟨?_, ?_, ?_⟩
  · intro hc; simp [rentOf, ho, hm, ht, hc]
  · intro hc; simp [rentOf, ho, hm, ht, hc]
  · intro fuel i hbk hpos hoi hob hrpos hrle
    have hmain : applySquareF (fuel + 1) g i dice = resolveOwnable g i pos dice := by
      simp [applySquareF, hbk, hpos, ht]
    rw [hmain]
    have hres : resolveOwnable g i pos dice
        = (chargeM (addRentPaid g i (rentOf g pos dice false)) i
            (rentOf g pos dice false) (some o)).1 := by
      simp [resolveOwnable, ho, hm, hoi, Ne.symm hoi, hob, hrpos]
    rw [hres]
    rw [chargeM_money_self]
    · rfl
    · exact hrle
    · intro c hc; injection hc with hc; exact hc ▸ hoi

def utilGame : Game :=
  setOwn (initGame 2 250000 rng0) 4 fun o => { o with owner := some 1 }

/-- Witness for C7: one owned utility, dice sum 7 gives rent 28. -/
theorem claim_C7_witness : rentOf utilGame 4 7 false = (7 : Int) * 4 :=
  (claim_C7 utilGame 4 1 7 false (by decide) (by decide) (by decide)).1 (by decide)

-- ══════════════════════ CLAIM C9 ══════════════════════

theorem drawNth_isSome {l : List α} {n : Nat} (h : n < l.length) :
    ∃ a rest, drawNth l n = some (a, rest) := by
  induction l generalizing n with
  | nil => simp at h
  | cons x xs ih =>
      match n with
      | 0 => exact ⟨x, xs, rfl⟩
      | n + 1 =>
          obtain ⟨a, rest, hr⟩ := ih (Nat.lt_of_succ_lt_succ h)
          exact ⟨a, x :: rest, by simp [drawNth, hr]⟩

theorem drawNth_perm {l : List α} {n : Nat} {a : α} {rest : List α}
    (h : drawNth l n = some (a, rest)) : l.Perm (a :: rest) := by
  induction l generalizing n a rest with
  | nil => simp [drawNth] at h
  | cons x xs ih =>
      match n with
      | 0 =>
          simp only [drawNth, Option.some.injEq, Prod.mk.injEq] at h
          rw [← h.1, ← h.2]
      | n + 1 =>
          simp only [drawNth] at h
          match hr : drawNth xs n with
          | some (b, rest') =>
              rw [hr] at h
              simp only [Option.some.injEq, Prod.mk.injEq] at h
              obtain ⟨hb, hrest⟩ := h
              rw [← hb, ← hrest]
              exact ((ih hr).cons x).trans (List.Perm.swap b x rest')
          | none => rw [hr] at h; simp at h

theorem drawNth_length {l rest : List α} {n : Nat} {a : α}
    (h : drawNth l n = some (a, rest)) : rest.length + 1 = l.length :=
  ((drawNth_perm h).length_eq).symm

theorem shuffleAux_perm (rng : Nat → Nat) :
    ∀ (fuel k : Nat) (l : List α), l.length ≤ fuel →
      ((shuffleAux rng fuel k l).1).Perm l := by
  intro fuel
  induction fuel with
  | zero =>
      intro k l hl
      have : l = [] := List.length_eq_zero.mp (Nat.le_zero.mp hl)
      subst this; simp [shuffleAux]
  | succ fuel ih =>
      intro k l hl
      match l with
      | [] => simp [shuffleAux]
      | x :: xs =>
          have hlen : rng k % (x :: xs).length < (x :: xs).length :=
            Nat.mod_lt _ (by simp)
          obtain ⟨a, rest, hr⟩ := drawNth_isSome hlen
          have hrl : rest.length ≤ fuel := by
            have hdl := drawNth_length hr
            simp only [List.length_cons] at hdl hl
            omega
          simp only [shuffleAux, hr]
          exact ((ih (k + 1) rest hrl).cons a).trans (drawNth_perm hr).symm

theorem shuffleWith_perm (rng : Nat → Nat) (k : Nat) (l : List α) :
    ((shuffleWith rng k l).1).Perm l :=
  shuffleAux_perm rng l.length k l le_rfl

/-- C9: drawing pops the first card; an empty deck is rebuilt as
shuffle(non-jail cards) ++ jail cards before popping; in any rebuilt deck the
shuffled part is exactly a permutation of the non-jail cards and every
"get out of jail" card sits at an index past all of them, so a jail card is
never drawn before the rest of its shuffle cycle. -/
theorem claim_C9 :
    (∀ g c rest, g.chanceDeck = c :: rest →
        drawChance g = (c, { g with chanceDeck := rest })) ∧
    (∀ g, g.chanceDeck = [] → ∃ c rest,
        (makeDeck g.rng g.k CHANCE_CARDS).1 = c :: rest ∧
        drawChance g = (c, { g with chanceDeck := rest,
                                    k := (makeDeck g.rng g.k CHANCE_CARDS).2 })) ∧
    (∀ rng k cards,
        ((makeDeck rng k cards).1.take
            (cards.filter fun c => !isGetOut c).length).Perm
          (cards.filter fun c => !isGetOut c) ∧
        (makeDeck rng k cards).1.drop (cards.filter fun c => !isGetOut c).length
          = cards.filter isGetOut) ∧
    (∀ rng k cards j, j < (makeDeck rng k cards).1.length →
        isGetOut ((makeDeck rng k cards).1.getD j (.receive 0)) = true →
        (cards.filter fun c => !isGetOut c).length ≤ j) := by
  have hsplit : ∀ (rng : Nat → Nat) (k : Nat) (cards : List CardEff),
      (makeDeck rng k cards).1
        = (shuffleWith rng k (cards.filter fun c => !isGetOut c)).1
            ++ cards.filter isGetOut := fun _ _ _ => rfl
  have hlen : ∀ (rng : Nat → Nat) (k : Nat) (cards : List CardEff),
      (shuffleWith rng k (cards.filter fun c => !isGetOut c)).1.length
        = (cards.filter fun c => !isGetOut c).length :=
    fun rng k cards => (shuffleWith_perm rng k _).length_eq
  refine ⟨?_, ?_, ?_, ?_⟩
  · intro g c rest h
    simp [drawChance, h]
  · intro g h
    have h16 : (makeDeck g.rng g.k CHANCE_CARDS).1.length = 16 := by
      rw [hsplit, List.length_append, hlen]
      decide
    match hd : (makeDeck g.rng g.k CHANCE_CARDS).1 with
    | [] => rw [hd] at h16; simp at h16
    | c :: rest =>
        refine ⟨c, rest, rfl, ?_⟩
        simp [drawChance, h, hd]
  · intro rng k cards
    constructor
    · rw [hsplit, ← hlen rng k cards, List.take_left]
      exact shuffleWith_perm rng k _
    · rw [hsplit, ← hlen rng k cards, List.drop_left]
  · intro rng k cards j hj hget
    by_contra hlt
    push_neg at hlt
    have hjs : j < (shuffleWith rng k (cards.filter fun c => !isGetOut c)).1.length := by
      rw [hlen]; exact hlt
    rw [hsplit, List.getD_eq_getElem _ _ (by rw [List.length_append]; omega)] at hget
    rw [List.getElem_append_left hjs] at hget
    have hmem := List.getElem_mem hjs
    have := (shuffleWith_perm rng k (cards.filter fun c => !isGetOut c)).mem_iff.mp hmem
    have := List.of_mem_filter this
    simp [hget] at this

def chanceRest : List CardEff :=
  [.moveTo 39, .moveTo 3, .moveTo 35, .moveTo 25, .nearestStation,
   .moveTo 5, .receive 2500, .moveBack 3, .goToJail,
   .repairs 1250 5000, .pay 750, .payEach 2500, .receive 7500, .moveTo 21,
   .getOutOfJail]

/-- Witness for C9: a concrete draw pops the head of the deck. -/
theorem claim_C9_witness :
    drawChance (initGame 2 250000 rng0)
      = (CardEff.moveTo 0,
         { initGame 2 250000 rng0 with chanceDeck := chanceRest }) :=
  claim_C9.1 (initGame 2 250000 rng0) (CardEff.moveTo 0) chanceRest (by decide)

-- ══════════════════════ THE REACHABLE-STATE INVARIANT ══════════════════════

/-- The state invariant maintained by every engine operation: solvent players
have non-negative cash, bankrupt players are fully settled, the ownership
ledger and the per-player owned lists index each other, buildings exclude
mortgages and exist only on properties, mortgages imply an owner, decks only
hold catalog cards, and positions stay on the board. -/
structure Inv (g : Game) : Prop where
  smPos : 0 < g.startingMoney
  moneyOk : ∀ i < g.numPlayers, (g.players i).bankrupt = false → 0 ≤ (g.players i).money
  bankruptOk : ∀ i < g.numPlayers, (g.players i).bankrupt = true →
    (g.players i).money = 0 ∧ (g.players i).properties = []
  posOk : ∀ i < g.numPlayers, (g.players i).position < 40
  ownerOk : ∀ pos o, (g.ownership pos).owner = some o →
    o < g.numPlayers ∧ (g.players o).bankrupt = false ∧ pos ∈ (g.players o).properties
  propsOk : ∀ i < g.numPlayers, ∀ pos ∈ (g.players i).properties,
    pos < 40 ∧ Purchasable pos ∧ (g.ownership pos).owner = some i
  buildOk : ∀ pos, 0 < (g.ownership pos).buildings →
    (g.ownership pos).mortgaged = false ∧ (board pos).type = SqType.property
  mortOk : ∀ pos, (g.ownership pos).mortgaged = true → (g.ownership pos).owner ≠ none
  chanceSub : ∀ c ∈ g.chanceDeck, c ∈ CHANCE_CARDS
  communitySub : ∀ c ∈ g.communityDeck, c ∈ COMMUNITY_CARDS

/-- The invariant ignores the statistics fields: any game agreeing on the
core fields inherits it. -/
theorem Inv.of_core {g g' : Game} (h : Inv g)
    (hn : g'.numPlayers = g.numPlayers) (hs : g'.startingMoney = g.startingMoney)
    (hp : g'.players = g.players) (ho : g'.ownership = g.ownership)
    (hc : g'.chanceDeck = g.chanceDeck) (hm : g'.communityDeck = g.communityDeck) :
    Inv g' := by
  refine ⟨?_, ?_, ?_, ?_, ?_, ?_, ?_, ?_, ?_, ?_⟩ <;>
    simp only [hn, hs, hp, ho, hc, hm]
  exacts [h.smPos, h.moneyOk, h.bankruptOk, h.posOk, h.ownerOk, h.propsOk,
          h.buildOk, h.mortOk, h.chanceSub, h.communitySub]

-- ══════════════════════ BOARD AND CARD FACTS ══════════════════════

theorem rent_entries_nonneg : ∀ pos < 40, ∀ x ∈ (board pos).rent, (0 : Int) ≤ x := by
  decide

theorem mortgage_nonneg : ∀ pos < 40, (0 : Int) ≤ (board pos).mortgage := by decide

theorem price_nonneg : ∀ pos < 40, (0 : Int) ≤ (board pos).price := by decide

theorem amount_nonneg : ∀ pos < 40, (0 : Int) ≤ (board pos).amount := by decide

theorem houseCost_nonneg : ∀ grp, (0 : Int) ≤ houseCost grp := by
  intro grp; cases grp <;> decide

theorem groupPositions_mem : ∀ grp, ∀ p ∈ groupPositions grp,
    p < 40 ∧ (board p).type = SqType.property := by
  intro grp; cases grp <;> decide

/-- Per-card sanity: relocation targets stay on the board and all money
payloads are non-negative. -/
def CardOk : CardEff → Prop
  | .moveTo t => t < 40
  | .receive v => 0 ≤ v
  | .pay v => 0 ≤ v
  | .payEach v => 0 ≤ v
  | .receiveFromEach v => 0 ≤ v
  | .repairs h2 h3 => 0 ≤ h2 ∧ 0 ≤ h3
  | _ => True

instance : DecidablePred CardOk := fun c => by
  cases c <;> simp only [CardOk] <;> infer_instance

theorem chance_cards_ok : ∀ c ∈ CHANCE_CARDS, CardOk c := by decide

theorem community_cards_ok : ∀ c ∈ COMMUNITY_CARDS, CardOk c := by decide

theorem getD_nonneg {l : List Int} (h : ∀ x ∈ l, (0 : Int) ≤ x) (n : Nat) :
    0 ≤ l.getD n 0 := by
  by_cases hn : n < l.length
  · rw [List.getD_eq_getElem _ _ hn]
    exact h _ (List.getElem_mem hn)
  · rw [List.getD_eq_default _ _ (Nat.le_of_not_lt hn)]

theorem rentOf_nonneg (g : Game) (pos dice : Nat) (ds : Bool) (hpos : pos < 40) :
    0 ≤ rentOf g pos dice ds := by
  have hr : ∀ n : Nat, (0 : Int) ≤ (((board pos).rent)[n]?).getD 0 := by
    intro n
    rw [← List.getD_eq_getElem?_getD ((board pos).rent) n 0]
    exact getD_nonneg (rent_entries_nonneg pos hpos) n
  rcases ho : (g.ownership pos).owner with _ | o
  · simp [rentOf, ho]
  · by_cases hm : (g.ownership pos).mortgaged
    · simp [rentOf, ho, hm]
    · rcases htype : (board pos).type <;>
        simp only [rentOf, ho, hm, htype, Bool.false_eq_true, if_false] <;>
        try simp
      · split
        · exact mul_nonneg (hr _) (by norm_num)
        · exact hr _
      · split
        · exact mul_nonneg (hr _) (by norm_num)
        · exact hr _
      · split <;> positivity

theorem buyReserve_nonneg {sm : Int} (h : 0 < sm) : 0 ≤ buyReserve sm :=
  Int.tdiv_nonneg (by positivity) (by norm_num)

theorem buildReserve_nonneg {sm : Int} (h : 0 < sm) : 0 ≤ buildReserve sm :=
  Int.tdiv_nonneg (by positivity) (by norm_num)

-- ══════════════════════ INVARIANT PRESERVATION: BASIC OPS ══════════════════════

/-- Master lemma: a single-player update preserves the invariant when it
keeps the bankrupt flag and owned list, stays on the board, and leaves the
cash non-negative (unchanged for a bankrupt player). -/
theorem inv_setP {g : Game} (h : Inv g) (i : Nat) (f : Player → Player)
    (hb : (f (g.players i)).bankrupt = (g.players i).bankrupt)
    (hp : (f (g.players i)).properties = (g.players i).properties)
    (hpos : i < g.numPlayers → (f (g.players i)).position < 40)
    (hm : i < g.numPlayers → (g.players i).bankrupt = false → 0 ≤ (f (g.players i)).money)
    (hmz : i < g.numPlayers → (g.players i).bankrupt = true →
      (f (g.players i)).money = (g.players i).money) :
    Inv (setP g i f) := by
  constructor
  case smPos => simpa using h.smPos
  case moneyOk =>
    intro j hj hbj
    rw [setP_numPlayers] at hj
    rw [setP_players] at hbj ⊢
    by_cases hji : j = i
    · subst hji
      rw [if_pos rfl] at hbj ⊢
      rw [hb] at hbj
      exact hm hj hbj
    · rw [if_neg hji] at hbj ⊢
      exact h.moneyOk j hj hbj
  case bankruptOk =>
    intro j hj hbj
    rw [setP_numPlayers] at hj
    rw [setP_players] at hbj ⊢
    by_cases hji : j = i
    · subst hji
      rw [if_pos rfl] at hbj ⊢
      rw [hb] at hbj
      obtain ⟨hm0, hp0⟩ := h.bankruptOk j hj hbj
      exact ⟨(hmz hj hbj).trans hm0, hp.trans hp0⟩
    · rw [if_neg hji] at hbj ⊢
      exact h.bankruptOk j hj hbj
  case posOk =>
    intro j hj
    rw [setP_numPlayers] at hj
    rw [setP_players]
    by_cases hji : j = i
    · subst hji; rw [if_pos rfl]; exact hpos hj
    · rw [if_neg hji]; exact h.posOk j hj
  case ownerOk =>
    intro pos o ho
    rw [setP_ownership_eq] at ho
    obtain ⟨h1, h2, h3⟩ := h.ownerOk pos o ho
    refine ⟨by simpa using h1, ?_, ?_⟩ <;> rw [setP_players]
    · by_cases hoi : o = i
      · subst hoi; rw [if_pos rfl, hb]; exact h2
      · rw [if_neg hoi]; exact h2
    · by_cases hoi : o = i
      · subst hoi; rw [if_pos rfl, hp]; exact h3
      · rw [if_neg hoi]; exact h3
  case propsOk =>
    intro j hj pos hpos'
    rw [setP_numPlayers] at hj
    rw [setP_players] at hpos'
    rw [setP_ownership_eq]
    by_cases hji : j = i
    · subst hji
      rw [if_pos rfl, hp] at hpos'
      exact h.propsOk j hj pos hpos'
    · rw [if_neg hji] at hpos'
      exact h.propsOk j hj pos hpos'
  case buildOk => intro pos; rw [setP_ownership_eq]; exact h.buildOk pos
  case mortOk => intro pos; rw [setP_ownership_eq]; exact h.mortOk pos
  case chanceSub => intro c hc; rw [setP_chanceDeck] at hc; exact h.chanceSub c hc
  case communitySub => intro c hc; rw [setP_communityDeck] at hc; exact h.communitySub c hc

theorem inv_creditM {g : Game} {i : Nat} {amt : Int} {isGo : Bool} (h : Inv g)
    (hi : i < g.numPlayers) (hb : (g.players i).bankrupt = false) (ha : 0 ≤ amt) :
    Inv (creditM g i amt isGo) := by
  have h1 : Inv (setP g i fun p => { p with money := p.money + amt }) := by
    refine inv_setP h i _ rfl rfl (fun hj => ?_) (fun hj hbj => ?_) (fun hj hbj => ?_)
    · simpa using h.posOk i hj
    · exact add_nonneg (h.moneyOk i hj hbj) ha
    · rw [hb] at hbj; exact Bool.noConfusion hbj
  rcases isGo with _ | _ <;>
    simp only [creditM, Bool.false_eq_true, if_false, if_true]
  · split
    · exact h1.of_core rfl rfl rfl rfl rfl rfl
    · exact h1
  · split
    · exact (h1.of_core rfl rfl rfl rfl rfl rfl : Inv _).of_core rfl rfl rfl rfl rfl rfl
    · exact h1.of_core rfl rfl rfl rfl rfl rfl

@[simp] theorem creditM_numPlayers (g : Game) (i : Nat) (amt : Int) (isGo : Bool) :
    (creditM g i amt isGo).numPlayers = g.numPlayers := by
  simp [creditM, apply_ite Game.numPlayers]

@[simp] theorem creditM_startingMoney (g : Game) (i : Nat) (amt : Int) (isGo : Bool) :
    (creditM g i amt isGo).startingMoney = g.startingMoney := by
  simp [creditM, apply_ite Game.startingMoney]

@[simp] theorem creditM_ownership (g : Game) (i : Nat) (amt : Int) (isGo : Bool) :
    (creditM g i amt isGo).ownership = g.ownership := by
  simp [creditM, apply_ite Game.ownership]

@[simp] theorem creditM_chanceDeck (g : Game) (i : Nat) (amt : Int) (isGo : Bool) :
    (creditM g i amt isGo).chanceDeck = g.chanceDeck := by
  simp [creditM, apply_ite Game.chanceDeck]

@[simp] theorem creditM_communityDeck (g : Game) (i : Nat) (amt : Int) (isGo : Bool) :
    (creditM g i amt isGo).communityDeck = g.communityDeck := by
  simp [creditM, apply_ite Game.communityDeck]

theorem creditM_players (g : Game) (i : Nat) (amt : Int) (isGo : Bool) :
    (creditM g i amt isGo).players
      = fun j => if j = i then { g.players i with money := (g.players i).money + amt }
                 else g.players j := by
  simp only [creditM, apply_ite Game.players]
  split <;> split <;> (try rfl) <;> (funext j; rw [setP_players]; rfl)

theorem inv_sendToJail {g : Game} {i : Nat} (h : Inv g) :
    Inv (sendToJail g i) := by
  refine inv_setP h i _ rfl rfl (fun _ => ?_) (fun hj hbj => ?_) (fun hj hbj => ?_)
  · show JAIL_POS < 40; decide
  · exact h.moneyOk i hj hbj
  · rfl

theorem inv_moveSteps {g : Game} {i : Nat} {steps : Nat} (h : Inv g)
    (hi : i < g.numPlayers) (hb : (g.players i).bankrupt = false) :
    Inv (moveSteps g i steps) := by
  unfold moveSteps
  dsimp only
  split
  · refine inv_setP (inv_creditM h hi hb (by decide)) i _ rfl rfl (fun _ => ?_)
      (fun hj hbj => ?_) (fun hj hbj => ?_)
    · show _ % BOARD_SIZE < 40
      exact Nat.mod_lt _ (by decide)
    · exact (inv_creditM h hi hb (by decide)).moneyOk i (by simpa using hi) hbj
    · rfl
  · refine inv_setP h i _ rfl rfl (fun _ => ?_) (fun hj hbj => ?_) (fun hj hbj => ?_)
    · show _ % BOARD_SIZE < 40
      exact Nat.mod_lt _ (by decide)
    · exact h.moneyOk i hj hbj
    · rfl

theorem inv_moveTo {g : Game} {i : Nat} {target : Nat} (h : Inv g)
    (hi : i < g.numPlayers) (hb : (g.players i).bankrupt = false) (ht : target < 40) :
    Inv (moveTo g i target) := by
  unfold moveTo
  dsimp only
  split
  · refine inv_setP (inv_creditM h hi hb (by decide)) i _ rfl rfl (fun _ => ht)
      (fun hj hbj => ?_) (fun hj hbj => ?_)
    · exact (inv_creditM h hi hb (by decide)).moneyOk i (by simpa using hi) hbj
    · rfl
  · refine inv_setP h i _ rfl rfl (fun _ => ht) (fun hj hbj => ?_) (fun hj hbj => ?_)
    · exact h.moneyOk i hj hbj
    · rfl

-- ══════════════════════ LIQUIDATION LEMMAS ══════════════════════

/-- What one building-sale pass can change: only the acting player's cash
(upward) and buildings (downward); everything else is untouched. -/
theorem sellBuildings_shape (i : Nat) (needed : Int) :
    ∀ (L : List Nat) (g : Game),
      (sellBuildings i needed g L).numPlayers = g.numPlayers ∧
      (sellBuildings i needed g L).startingMoney = g.startingMoney ∧
      (sellBuildings i needed g L).chanceDeck = g.chanceDeck ∧
      (sellBuildings i needed g L).communityDeck = g.communityDeck ∧
      (∀ j, j ≠ i → (sellBuildings i needed g L).players j = g.players j) ∧
      (∃ m, (sellBuildings i needed g L).players i = { g.players i with money := m } ∧
        (g.players i).money ≤ m) ∧
      (∀ pos, ((sellBuildings i needed g L).ownership pos).owner = (g.ownership pos).owner) ∧
      (∀ pos, ((sellBuildings i needed g L).ownership pos).mortgaged
        = (g.ownership pos).mortgaged) ∧
      (∀ pos, ((sellBuildings i needed g L).ownership pos).buildings
        ≤ (g.ownership pos).buildings) := by
  intro L
  induction L with
  | nil =>
      intro g
      exact ⟨rfl, rfl, rfl, rfl, fun _ _ => rfl,
        ⟨(g.players i).money, by simp [sellBuildings], le_rfl⟩,
        fun _ => rfl, fun _ => rfl, fun _ => le_rfl⟩
  | cons pos rest ih =>
      intro g
      show _ ∧ _
      unfold sellBuildings
      split
      · exact ⟨rfl, rfl, rfl, rfl, fun _ _ => rfl,
          ⟨(g.players i).money, by simp, le_rfl⟩,
          fun _ => rfl, fun _ => rfl, fun _ => le_rfl⟩
      · dsimp only
        split
        · -- sell at this square, then recurse
          set g1 := setOwn (setP g i fun p =>
            { p with money := p.money +
                Int.tdiv (((g.ownership pos).buildings : Int) * houseCost (board pos).group) 2 })
            pos fun o => { o with buildings := 0 } with hg1
          obtain ⟨hn, hs, hc, hm, hoth, ⟨m, hpi, hmle⟩, hown, hmort, hbuild⟩ := ih g1
          have hrefund : (0 : Int) ≤
              Int.tdiv (((g.ownership pos).buildings : Int) * houseCost (board pos).group) 2 :=
            Int.tdiv_nonneg (mul_nonneg (by positivity) (houseCost_nonneg _)) (by norm_num)
          refine ⟨hn.trans rfl, hs.trans rfl, hc.trans rfl, hm.trans rfl, ?_, ?_, ?_, ?_, ?_⟩
          · intro j hj
            rw [hoth j hj]
            simp [hg1, setP_players, hj]
          · refine ⟨m, ?_, ?_⟩
            · rw [hpi]
              simp [hg1, setP_players]
            · refine le_trans ?_ hmle
              simp [hg1, setP_players]
              linarith
          · intro q
            rw [hown q]
            simp only [hg1, setOwn_ownership, setP_ownership]
            by_cases hqp : q = pos <;> simp [hqp]
          · intro q
            rw [hmort q]
            simp only [hg1, setOwn_ownership, setP_ownership]
            by_cases hqp : q = pos <;> simp [hqp]
          · intro q
            refine le_trans (hbuild q) ?_
            simp only [hg1, setOwn_ownership, setP_ownership]
            by_cases hqp : q = pos <;> simp [hqp]
        · obtain ⟨hn, hs, hc, hm, hoth, ⟨m, hpi, hmle⟩, hown, hmort, hbuild⟩ := ih g
          exact ⟨hn, hs, hc, hm, hoth, ⟨m, hpi, hmle⟩, hown, hmort, hbuild⟩

/-- What one mortgage pass can change: only the acting player's cash (upward,
given on-board positions) and mortgage flags (set only on building-free
squares of the list). -/
theorem mortgageProps_shape (i : Nat) (needed : Int) :
    ∀ (L : List Nat) (g : Game), (∀ pos ∈ L, pos < 40) →
      (mortgageProps i needed g L).numPlayers = g.numPlayers ∧
      (mortgageProps i needed g L).startingMoney = g.startingMoney ∧
      (mortgageProps i needed g L).chanceDeck = g.chanceDeck ∧
      (mortgageProps i needed g L).communityDeck = g.communityDeck ∧
      (∀ j, j ≠ i → (mortgageProps i needed g L).players j = g.players j) ∧
      (∃ m, (mortgageProps i needed g L).players i = { g.players i with money := m } ∧
        (g.players i).money ≤ m) ∧
      (∀ pos, ((mortgageProps i needed g L).ownership pos).owner = (g.ownership pos).owner) ∧
      (∀ pos, ((mortgageProps i needed g L).ownership pos).buildings
        = (g.ownership pos).buildings) ∧
      (∀ pos, ((mortgageProps i needed g L).ownership pos).mortgaged = true →
        (g.ownership pos).mortgaged = true ∨
          (pos ∈ L ∧ (g.ownership pos).buildings = 0)) := by
  intro L
  induction L with
  | nil =>
      intro g _
      exact ⟨rfl, rfl, rfl, rfl, fun _ _ => rfl,
        ⟨(g.players i).money, by simp [mortgageProps], le_rfl⟩,
        fun _ => rfl, fun _ => rfl, fun _ h => Or.inl h⟩
  | cons pos rest ih =>
      intro g hL
      have hL' : ∀ q ∈ rest, q < 40 := fun q hq => hL q (List.mem_cons_of_mem _ hq)
      show _ ∧ _
      unfold mortgageProps
      split
      · exact ⟨rfl, rfl, rfl, rfl, fun _ _ => rfl,
          ⟨(g.players i).money, by simp, le_rfl⟩,
          fun _ => rfl, fun _ => rfl, fun _ h => Or.inl h⟩
      · dsimp only
        split
        · rename_i hcond
          set g1 := setOwn (setP g i fun p => { p with money := p.money + (board pos).mortgage })
            pos fun o => { o with mortgaged := true } with hg1
          obtain ⟨hn, hs, hc, hm, hoth, ⟨m, hpi, hmle⟩, hown, hbuild, hmort⟩ := ih g1 hL'
          have hmz : (0 : Int) ≤ (board pos).mortgage :=
            mortgage_nonneg pos (hL pos (List.mem_cons_self _ _))
          refine ⟨hn, hs, hc, hm, ?_, ?_, ?_, ?_, ?_⟩
          · intro j hj
            rw [hoth j hj]
            simp [hg1, setP_players, hj]
          · refine ⟨m, ?_, ?_⟩
            · rw [hpi]
              simp [hg1, setP_players]
            · refine le_trans ?_ hmle
              simp [hg1, setP_players]
              linarith
          · intro q
            rw [hown q]
            simp only [hg1, setOwn_ownership, setP_ownership]
            by_cases hqp : q = pos <;> simp [hqp]
          · intro q
            rw [hbuild q]
            simp only [hg1, setOwn_ownership, setP_ownership]
            by_cases hqp : q = pos <;> simp [hqp]
          · intro q hq
            rcases hmort q hq with hq1 | ⟨hq1, hq2⟩
            · simp only [hg1, setOwn_ownership, setP_ownership] at hq1
              by_cases hqp : q = pos
              · subst hqp
                exact Or.inr ⟨List.mem_cons_self _ _, hcond.2⟩
              · rw [if_neg hqp] at hq1
                exact Or.inl hq1
            · simp only [hg1, setOwn_ownership, setP_ownership] at hq2
              by_cases hqp : q = pos
              · subst hqp
                exact Or.inr ⟨List.mem_cons_self _ _, hcond.2⟩
              · rw [if_neg hqp] at hq2
                exact Or.inr ⟨List.mem_cons_of_mem _ hq1, hq2⟩
        · obtain ⟨hn, hs, hc, hm, hoth, hexm, hown, hbuild, hmort⟩ := ih g hL'
          refine ⟨hn, hs, hc, hm, hoth, hexm, hown, hbuild, fun q hq => ?_⟩
          rcases hmort q hq with hq1 | ⟨hq1, hq2⟩
          · exact Or.inl hq1
          · exact Or.inr ⟨List.mem_cons_of_mem _ hq1, hq2⟩

/-- A state that differs from an invariant state only by a cash increase for
one solvent player, owner-preserving ledger edits that respect the
building/mortgage rules, and statistics, keeps the invariant. -/
theorem inv_of_shape {g g' : Game} (h : Inv g) (i : Nat)
    (hbk : (g.players i).bankrupt = false)
    (hn : g'.numPlayers = g.numPlayers) (hs : g'.startingMoney = g.startingMoney)
    (hc : g'.chanceDeck = g.chanceDeck) (hm : g'.communityDeck = g.communityDeck)
    (hoth : ∀ j, j ≠ i → g'.players j = g.players j)
    (hpi : ∃ m, g'.players i = { g.players i with money := m } ∧ (g.players i).money ≤ m)
    (hown : ∀ pos, (g'.ownership pos).owner = (g.ownership pos).owner)
    (hbm : ∀ pos, 0 < (g'.ownership pos).buildings →
      (g'.ownership pos).mortgaged = false ∧ (board pos).type = SqType.property)
    (hmo : ∀ pos, (g'.ownership pos).mortgaged = true → (g'.ownership pos).owner ≠ none) :
    Inv g' := by
  obtain ⟨m, hpi, hple⟩ := hpi
  have hpl : ∀ j, (g'.players j).bankrupt = (g.players j).bankrupt ∧
      (g'.players j).properties = (g.players j).properties ∧
      (g'.players j).position = (g.players j).position := by
    intro j
    by_cases hj : j = i
    · subst hj; rw [hpi]; exact ⟨rfl, rfl, rfl⟩
    · rw [hoth j hj]; exact ⟨rfl, rfl, rfl⟩
  constructor
  case smPos => rw [hs]; exact h.smPos
  case moneyOk =>
    intro j hj hbj
    rw [hn] at hj
    rw [(hpl j).1] at hbj
    by_cases hji : j = i
    · subst hji; rw [hpi]
      exact le_trans (h.moneyOk j hj hbj) hple
    · rw [hoth j hji]; exact h.moneyOk j hj hbj
  case bankruptOk =>
    intro j hj hbj
    rw [hn] at hj
    rw [(hpl j).1] at hbj
    by_cases hji : j = i
    · subst hji; rw [hbk] at hbj; exact Bool.noConfusion hbj
    · rw [hoth j hji]; exact h.bankruptOk j hj hbj
  case posOk =>
    intro j hj
    rw [hn] at hj
    rw [(hpl j).2.2]; exact h.posOk j hj
  case ownerOk =>
    intro pos o ho
    rw [hown pos] at ho
    obtain ⟨h1, h2, h3⟩ := h.ownerOk pos o ho
    exact ⟨hn ▸ h1, (hpl o).1 ▸ h2, (hpl o).2.1 ▸ h3⟩
  case propsOk =>
    intro j hj pos hpos
    rw [hn] at hj
    rw [(hpl j).2.1] at hpos
    obtain ⟨h1, h2, h3⟩ := h.propsOk j hj pos hpos
    exact ⟨h1, h2, (hown pos) ▸ h3⟩
  case buildOk => exact hbm
  case mortOk => exact hmo
  case chanceSub => rw [hc]; exact h.chanceSub
  case communitySub => rw [hm]; exact h.communitySub

theorem inv_sellBuildings {g : Game} {i : Nat} {needed : Int} {L : List Nat}
    (h : Inv g) (hbk : (g.players i).bankrupt = false) :
    Inv (sellBuildings i needed g L) := by
  obtain ⟨hn, hs, hc, hm, hoth, hpi, hown, hmort, hbuild⟩ := sellBuildings_shape i needed L g
  refine inv_of_shape h i hbk hn hs hc hm hoth hpi hown ?_ ?_
  · intro pos hb
    have hgb : 0 < (g.ownership pos).buildings := lt_of_lt_of_le hb (hbuild pos)
    exact ⟨(hmort pos).trans (h.buildOk pos hgb).1, (h.buildOk pos hgb).2⟩
  · intro pos hmm
    rw [hown pos]
    exact h.mortOk pos ((hmort pos).symm.trans hmm)

theorem inv_mortgageProps {g : Game} {i : Nat} {needed : Int} {L : List Nat}
    (h : Inv g) (hi : i < g.numPlayers) (hbk : (g.players i).bankrupt = false)
    (hL : ∀ pos ∈ L, pos ∈ (g.players i).properties) :
    Inv (mortgageProps i needed g L) := by
  have hL40 : ∀ pos ∈ L, pos < 40 := fun pos hp => (h.propsOk i hi pos (hL pos hp)).1
  obtain ⟨hn, hs, hc, hm, hoth, hpi, hown, hbuild, hmort⟩ :=
    mortgageProps_shape i needed L g hL40
  refine inv_of_shape h i hbk hn hs hc hm hoth hpi hown ?_ ?_
  · intro pos hb
    rw [hbuild pos] at hb
    refine ⟨?_, (h.buildOk pos hb).2⟩
    by_contra hmm
    rcases hmort pos (Bool.of_not_eq_false hmm) with h1 | ⟨_, h2⟩
    · exact absurd (h.buildOk pos hb).1 (by simp [h1])
    · omega
  · intro pos hmm
    rw [hown pos]
    rcases hmort pos hmm with h1 | ⟨h1, _⟩
    · exact h.mortOk pos h1
    · rw [(h.propsOk i hi pos (hL pos h1)).2.2]
      simp

theorem mortgageProps_mortgaged_mono (i : Nat) (needed : Int) :
    ∀ (L : List Nat) (g : Game) (pos : Nat),
      (g.ownership pos).mortgaged = true →
      ((mortgageProps i needed g L).ownership pos).mortgaged = true := by
  intro L
  induction L with
  | nil => intro g pos h; exact h
  | cons q rest ih =>
      intro g pos h
      unfold mortgageProps
      split
      · exact h
      · dsimp only
        split
        · apply ih
          simp only [setOwn_ownership, setP_ownership]
          by_cases hqp : pos = q <;> simp [hqp, h]
        · exact ih g pos h

theorem sellBuildings_cons (i : Nat) (needed : Int) (g : Game) (q : Nat) (rest : List Nat) :
    sellBuildings i needed g (q :: rest)
      = if needed ≤ (g.players i).money then g
        else sellBuildings i needed
          (if (board q).type = SqType.property ∧ 0 < (g.ownership q).buildings then
            setOwn (setP g i fun p =>
              { p with money := p.money +
                  Int.tdiv (((g.ownership q).buildings : Int) * houseCost (board q).group) 2 })
              q fun o => { o with buildings := 0 }
           else g) rest := rfl

theorem mortgageProps_cons (i : Nat) (needed : Int) (g : Game) (q : Nat) (rest : List Nat) :
    mortgageProps i needed g (q :: rest)
      = if needed ≤ (g.players i).money then g
        else mortgageProps i needed
          (if (g.ownership q).mortgaged = false ∧ (g.ownership q).buildings = 0 then
            setOwn (setP g i fun p => { p with money := p.money + (board q).mortgage })
              q fun o => { o with mortgaged := true }
           else g) rest := rfl

theorem sellBuildings_exhaust (i : Nat) (needed : Int) :
    ∀ (L : List Nat) (g : Game),
      (∀ pos, 0 < (g.ownership pos).buildings → (board pos).type = SqType.property) →
      ((sellBuildings i needed g L).players i).money < needed →
      ∀ pos ∈ L, ((sellBuildings i needed g L).ownership pos).buildings = 0 := by
  intro L
  induction L with
  | nil => intro g _ _ pos hp; exact absurd hp (List.not_mem_nil _)
  | cons q rest ih =>
      intro g hB hlt pos hp
      rw [sellBuildings_cons] at hlt ⊢
      by_cases hstop : needed ≤ (g.players i).money
      · rw [if_pos hstop] at hlt
        exact absurd hlt (not_lt.mpr hstop)
      · rw [if_neg hstop] at hlt ⊢
        set g1 := (if (board q).type = SqType.property ∧ 0 < (g.ownership q).buildings then
            setOwn (setP g i fun p =>
              { p with money := p.money +
                  Int.tdiv (((g.ownership q).buildings : Int) * houseCost (board q).group) 2 })
              q fun o => { o with buildings := 0 }
           else g) with hg1
        have hq0 : (g1.ownership q).buildings = 0 := by
          rw [hg1]
          by_cases hcond : (board q).type = SqType.property ∧ 0 < (g.ownership q).buildings
          · rw [if_pos hcond]
            simp [setOwn_ownership]
          · rw [if_neg hcond]
            by_cases hb0 : 0 < (g.ownership q).buildings
            · exact absurd ⟨hB q hb0, hb0⟩ hcond
            · omega
        have hB1 : ∀ r, 0 < (g1.ownership r).buildings → (board r).type = SqType.property := by
          intro r hr
          rw [hg1] at hr
          by_cases hcond : (board q).type = SqType.property ∧ 0 < (g.ownership q).buildings
          · rw [if_pos hcond] at hr
            simp only [setOwn_ownership, setP_ownership] at hr
            by_cases hrq : r = q
            · subst hrq; simp at hr
            · rw [if_neg hrq] at hr
              exact hB r hr
          · rw [if_neg hcond] at hr
            exact hB r hr
        rcases List.mem_cons.mp hp with hpq | hpr
        · subst hpq
          obtain ⟨_, _, _, _, _, _, _, _, hbuild⟩ := sellBuildings_shape i needed rest g1
          have := le_trans (hbuild pos) (le_of_eq hq0)
          omega
        · exact ih g1 hB1 hlt pos hpr

theorem mortgageProps_exhaust (i : Nat) (needed : Int) :
    ∀ (L : List Nat) (g : Game),
      (∀ pos ∈ L, (g.ownership pos).buildings = 0) →
      ((mortgageProps i needed g L).players i).money < needed →
      ∀ pos ∈ L, ((mortgageProps i needed g L).ownership pos).mortgaged = true := by
  intro L
  induction L with
  | nil => intro g _ _ pos hp; exact absurd hp (List.not_mem_nil _)
  | cons q rest ih =>
      intro g hB hlt pos hp
      rw [mortgageProps_cons] at hlt ⊢
      by_cases hstop : needed ≤ (g.players i).money
      · rw [if_pos hstop] at hlt
        exact absurd hlt (not_lt.mpr hstop)
      · rw [if_neg hstop] at hlt ⊢
        set g1 := (if (g.ownership q).mortgaged = false ∧ (g.ownership q).buildings = 0 then
            setOwn (setP g i fun p => { p with money := p.money + (board q).mortgage })
              q fun o => { o with mortgaged := true }
           else g) with hg1
        have hq1 : (g1.ownership q).mortgaged = true := by
          rw [hg1]
          by_cases hcond : (g.ownership q).mortgaged = false ∧ (g.ownership q).buildings = 0
          · rw [if_pos hcond]
            simp [setOwn_ownership]
          · rw [if_neg hcond]
            have hb0 := hB q (List.mem_cons_self _ _)
            rcases Bool.eq_false_or_eq_true (g.ownership q).mortgaged with hmt | hmf
            · exact hmt
            · exact absurd ⟨hmf, hb0⟩ hcond
        have hB1 : ∀ r ∈ rest, (g1.ownership r).buildings = 0 := by
          intro r hr
          rw [hg1]
          by_cases hcond : (g.ownership q).mortgaged = false ∧ (g.ownership q).buildings = 0
          · rw [if_pos hcond]
            simp only [setOwn_ownership, setP_ownership]
            by_cases hrq : r = q
            · subst hrq; simp [hB r (List.mem_cons_self r rest)]
            · rw [if_neg hrq]
              exact hB r (List.mem_cons_of_mem _ hr)
          · rw [if_neg hcond]
            exact hB r (List.mem_cons_of_mem _ hr)
        rcases List.mem_cons.mp hp with hpq | hpr
        · subst hpq
          exact mortgageProps_mortgaged_mono i needed rest g1 pos hq1
        · exact ih g1 hB1 hlt pos hpr

theorem inv_raiseFunds {g : Game} {i : Nat} {needed : Int}
    (h : Inv g) (hi : i < g.numPlayers) (hbk : (g.players i).bankrupt = false) :
    Inv (raiseFunds g i needed) := by
  unfold raiseFunds
  obtain ⟨hn, hs, hc, hm, hoth, ⟨m, hpi, hple⟩, hown, hmort, hbuild⟩ :=
    sellBuildings_shape i needed (g.players i).properties g
  have h1 : Inv (sellBuildings i needed g (g.players i).properties) :=
    inv_sellBuildings h hbk
  have hbk1 : ((sellBuildings i needed g (g.players i).properties).players i).bankrupt
      = false := by rw [hpi]; exact hbk
  exact inv_mortgageProps h1 (by rw [hn]; exact hi) hbk1 (fun pos hp => hp)

/-- Full-liquidation postcondition: when even liquidating everything cannot
cover the need, every owned square has been stripped of buildings (and
mortgaged), which is exactly the state `_bankrupt` then transfers. -/
theorem raiseFunds_exhaust {g : Game} {i : Nat} {needed : Int}
    (h : Inv g) (hi : i < g.numPlayers) (hbk : (g.players i).bankrupt = false)
    (hlt : ((raiseFunds g i needed).players i).money < needed) :
    ∀ pos ∈ ((raiseFunds g i needed).players i).properties,
      ((raiseFunds g i needed).ownership pos).buildings = 0 := by
  unfold raiseFunds at hlt ⊢
  dsimp only at hlt ⊢
  set gs := sellBuildings i needed g (g.players i).properties with hgs
  obtain ⟨hn, hs, hc, hm, hoth, ⟨m, hpi, hple⟩, hown, hmort, hbuild⟩ :=
    sellBuildings_shape i needed (g.players i).properties g
  have hL40 : ∀ pos ∈ (gs.players i).properties, pos < 40 := by
    rw [hpi]
    intro pos hp
    exact (h.propsOk i hi pos hp).1
  obtain ⟨hn2, hs2, hc2, hm2, hoth2, ⟨m2, hpi2, hple2⟩, hown2, hbuild2, hmort2⟩ :=
    mortgageProps_shape i needed (gs.players i).properties gs hL40
  intro pos hp
  rw [hpi2] at hp
  dsimp only at hp
  rw [hpi] at hp
  dsimp only at hp
  have hm2eq : ((mortgageProps i needed gs (gs.players i).properties).players i).money
      = m2 := by rw [hpi2]
  have hslt : (gs.players i).money < needed :=
    lt_of_le_of_lt hple2 (hm2eq ▸ hlt)
  have hslt' : ((sellBuildings i needed g (g.players i).properties).players i).money
      < needed := hgs ▸ hslt
  have hzero := sellBuildings_exhaust i needed (g.players i).properties g
    (fun q hq => (h.buildOk q hq).2) hslt' pos hp
  rw [hbuild2 pos]
  rw [hgs]
  exact hzero

-- ══════════════════════ BANKRUPTCY LEMMAS ══════════════════════

@[simp] theorem transferAll_numPlayers (c : Nat) :
    ∀ (L : List Nat) (g : Game), (transferAll c g L).numPlayers = g.numPlayers := by
  intro L
  induction L with
  | nil => intro g; rfl
  | cons q rest ih => intro g; exact ih _

@[simp] theorem transferAll_startingMoney (c : Nat) :
    ∀ (L : List Nat) (g : Game), (transferAll c g L).startingMoney = g.startingMoney := by
  intro L
  induction L with
  | nil => intro g; rfl
  | cons q rest ih => intro g; exact ih _

@[simp] theorem transferAll_chanceDeck (c : Nat) :
    ∀ (L : List Nat) (g : Game), (transferAll c g L).chanceDeck = g.chanceDeck := by
  intro L
  induction L with
  | nil => intro g; rfl
  | cons q rest ih => intro g; exact ih _

@[simp] theorem transferAll_communityDeck (c : Nat) :
    ∀ (L : List Nat) (g : Game), (transferAll c g L).communityDeck = g.communityDeck := by
  intro L
  induction L with
  | nil => intro g; rfl
  | cons q rest ih => intro g; exact ih _

@[simp] theorem returnAll_numPlayers :
    ∀ (L : List Nat) (g : Game), (returnAll g L).numPlayers = g.numPlayers := by
  intro L
  induction L with
  | nil => intro g; rfl
  | cons q rest ih => intro g; exact ih _

@[simp] theorem returnAll_startingMoney :
    ∀ (L : List Nat) (g : Game), (returnAll g L).startingMoney = g.startingMoney := by
  intro L
  induction L with
  | nil => intro g; rfl
  | cons q rest ih => intro g; exact ih _

@[simp] theorem returnAll_chanceDeck :
    ∀ (L : List Nat) (g : Game), (returnAll g L).chanceDeck = g.chanceDeck := by
  intro L
  induction L with
  | nil => intro g; rfl
  | cons q rest ih => intro g; exact ih _

@[simp] theorem returnAll_communityDeck :
    ∀ (L : List Nat) (g : Game), (returnAll g L).communityDeck = g.communityDeck := by
  intro L
  induction L with
  | nil => intro g; rfl
  | cons q rest ih => intro g; exact ih _

theorem doBankrupt_fields (g : Game) (i : Nat) (copt : Option Nat) :
    (doBankrupt g i copt).numPlayers = g.numPlayers ∧
    (doBankrupt g i copt).startingMoney = g.startingMoney ∧
    (doBankrupt g i copt).chanceDeck = g.chanceDeck ∧
    (doBankrupt g i copt).communityDeck = g.communityDeck := by
  match copt with
  | none => refine ⟨?_, ?_, ?_, ?_⟩ <;> simp [doBankrupt]
  | some c => refine ⟨?_, ?_, ?_, ?_⟩ <;> (simp only [doBankrupt]; split <;> simp)

theorem doBankrupt_players_creditor {g : Game} {i c : Nat}
    (hic : c ≠ i) (hcb : (g.players c).bankrupt = false) (j : Nat) :
    (doBankrupt g i (some c)).players j =
      if j = i then { g.players i with money := 0, bankrupt := true, properties := [] }
      else if j = c then
        { g.players c with money := (g.players c).money + (g.players i).money,
                           properties := (g.players c).properties ++ (g.players i).properties }
      else g.players j := by
  by_cases hji : j = i
  · subst hji
    simp [doBankrupt, setP_players, transferAll_players, hic, Ne.symm hic, hcb]
  · by_cases hjc : j = c
    · subst hjc
      simp [doBankrupt, setP_players, transferAll_players, hic, Ne.symm hic, hcb, hji]
    · simp [doBankrupt, setP_players, transferAll_players, hic, Ne.symm hic, hcb, hji, hjc]

theorem doBankrupt_ownership_creditor {g : Game} {i c : Nat}
    (hic : c ≠ i) (hcb : (g.players c).bankrupt = false) (pos : Nat) :
    (doBankrupt g i (some c)).ownership pos =
      if pos ∈ (g.players i).properties then
        { g.ownership pos with owner := some c, mortgaged := true }
      else g.ownership pos := by
  by_cases hp : pos ∈ (g.players i).properties <;>
    simp [doBankrupt, setP_players, setP_ownership, transferAll_ownership,
          hic, Ne.symm hic, hcb, hp]

theorem doBankrupt_players_bank {g : Game} {i : Nat} {copt : Option Nat}
    (hbank : copt = none ∨ ∃ c, copt = some c ∧ (c = i ∨ (g.players c).bankrupt = true))
    (hbk : (g.players i).bankrupt = false) (j : Nat) :
    (doBankrupt g i copt).players j =
      if j = i then { g.players i with money := 0, bankrupt := true, properties := [] }
      else g.players j := by
  rcases hbank with hnone | ⟨c, hsome, hcase⟩
  · subst hnone
    by_cases hji : j = i <;>
      simp [doBankrupt, setP_players, returnAll_players, hji]
  · subst hsome
    rcases hcase with hci | hcbt
    · subst hci
      by_cases hji : j = c <;>
        simp [doBankrupt, setP_players, returnAll_players, hji]
    · have hci : c ≠ i := fun hce => by rw [hce, hbk] at hcbt; exact Bool.noConfusion hcbt
      by_cases hji : j = i <;>
        simp [doBankrupt, setP_players, returnAll_players, hji, hci, Ne.symm hci, hcbt]

theorem doBankrupt_ownership_bank {g : Game} {i : Nat} {copt : Option Nat}
    (hbank : copt = none ∨ ∃ c, copt = some c ∧ (c = i ∨ (g.players c).bankrupt = true))
    (hbk : (g.players i).bankrupt = false) (pos : Nat) :
    (doBankrupt g i copt).ownership pos =
      if pos ∈ (g.players i).properties then emptyOwn else g.ownership pos := by
  rcases hbank with hnone | ⟨c, hsome, hcase⟩
  · subst hnone
    by_cases hp : pos ∈ (g.players i).properties <;>
      simp [doBankrupt, setP_players, setP_ownership, returnAll_ownership, hp]
  · subst hsome
    rcases hcase with hci | hcbt
    · subst hci
      by_cases hp : pos ∈ (g.players c).properties <;>
        simp [doBankrupt, setP_players, setP_ownership, returnAll_ownership, hp]
    · have hci : c ≠ i := fun hce => by rw [hce, hbk] at hcbt; exact Bool.noConfusion hcbt
      by_cases hp : pos ∈ (g.players i).properties <;>
        simp [doBankrupt, setP_players, setP_ownership, returnAll_ownership,
              hp, hci, Ne.symm hci, hcbt]

/-- `_bankrupt` preserves the invariant.  The building-free precondition is
exactly what `_raise_funds` guarantees on the failure path that reaches
`_bankrupt`. -/
theorem inv_doBankrupt {g : Game} {i : Nat} {copt : Option Nat} (h : Inv g)
    (hi : i < g.numPlayers) (hbk : (g.players i).bankrupt = false)
    (hbz : ∀ pos ∈ (g.players i).properties, (g.ownership pos).buildings = 0)
    (hcn : ∀ c, copt = some c → c < g.numPlayers) :
    Inv (doBankrupt g i copt) := by
  obtain ⟨hfn, hfs, hfc, hfm⟩ := doBankrupt_fields g i copt
  by_cases hcred : ∃ c, copt = some c ∧ c ≠ i ∧ (g.players c).bankrupt = false
  · obtain ⟨c, hce, hic, hcb⟩ := hcred
    subst hce
    have hpj := doBankrupt_players_creditor (g := g) hic hcb
    have how := doBankrupt_ownership_creditor (g := g) hic hcb
    have hcn' : c < g.numPlayers := hcn c rfl
    refine ⟨?_, ?_, ?_, ?_, ?_, ?_, ?_, ?_, ?_, ?_⟩
    · rw [hfs]; exact h.smPos
    ·
      intro j hj hbj
      rw [hfn] at hj
      rw [hpj j] at hbj ⊢
      by_cases hji : j = i
      · subst hji
        rw [if_pos rfl] at hbj
        exact Bool.noConfusion hbj
      · rw [if_neg hji] at hbj ⊢
        by_cases hjc : j = c
        · subst hjc
          rw [if_pos rfl]
          exact add_nonneg (h.moneyOk j hj hcb) (h.moneyOk i hi hbk)
        · rw [if_neg hjc] at hbj ⊢
          exact h.moneyOk j hj hbj
    ·
      intro j hj hbj
      rw [hfn] at hj
      rw [hpj j] at hbj ⊢
      by_cases hji : j = i
      · subst hji
        rw [if_pos rfl]
        exact ⟨rfl, rfl⟩
      · rw [if_neg hji] at hbj ⊢
        by_cases hjc : j = c
        · subst hjc
          rw [if_pos rfl] at hbj
          rw [hcb] at hbj
          exact Bool.noConfusion hbj
        · rw [if_neg hjc] at hbj ⊢
          exact h.bankruptOk j hj hbj
    ·
      intro j hj
      rw [hfn] at hj
      rw [hpj j]
      by_cases hji : j = i
      · subst hji; rw [if_pos rfl]; exact h.posOk j hj
      · rw [if_neg hji]
        by_cases hjc : j = c
        · subst hjc; rw [if_pos rfl]; exact h.posOk j hj
        · rw [if_neg hjc]; exact h.posOk j hj
    ·
      intro pos o ho
      rw [how pos] at ho
      by_cases hp : pos ∈ (g.players i).properties
      · rw [if_pos hp] at ho
        have hoc : o = c := by
          have : some c = some o := ho
          exact (Option.some.injEq _ _ ▸ this).symm
        subst hoc
        rw [hfn, hpj o, if_neg hic, if_pos rfl]
        refine ⟨hcn', hcb, ?_⟩
        exact List.mem_append.mpr (Or.inr hp)
      · rw [if_neg hp] at ho
        obtain ⟨h1, h2, h3⟩ := h.ownerOk pos o ho
        have hoi : o ≠ i := fun hoe => hp (hoe ▸ h3)
        rw [hfn, hpj o, if_neg hoi]
        by_cases hoc : o = c
        · subst hoc
          rw [if_pos rfl]
          exact ⟨h1, hcb, List.mem_append.mpr (Or.inl h3)⟩
        · rw [if_neg hoc]
          exact ⟨h1, h2, h3⟩
    ·
      intro j hj pos hp
      rw [hfn] at hj
      rw [hpj j] at hp
      by_cases hji : j = i
      · subst hji
        rw [if_pos rfl] at hp
        exact absurd hp (List.not_mem_nil _)
      · rw [if_neg hji] at hp
        by_cases hjc : j = c
        · subst hjc
          rw [if_pos rfl] at hp
          rcases List.mem_append.mp hp with hpl | hpr
          · obtain ⟨h1, h2, h3⟩ := h.propsOk j hj pos hpl
            have hpn : pos ∉ (g.players i).properties := by
              intro hpi2
              have := (h.propsOk i hi pos hpi2).2.2
              rw [h3] at this
              exact hji (Option.some.inj this)
            rw [how pos, if_neg hpn]
            exact ⟨h1, h2, h3⟩
          · obtain ⟨h1, h2, _⟩ := h.propsOk i hi pos hpr
            rw [how pos, if_pos hpr]
            exact ⟨h1, h2, rfl⟩
        · rw [if_neg hjc] at hp
          obtain ⟨h1, h2, h3⟩ := h.propsOk j hj pos hp
          have hpn : pos ∉ (g.players i).properties := by
            intro hpi2
            have := (h.propsOk i hi pos hpi2).2.2
            rw [h3] at this
            exact hji (Option.some.inj this)
          rw [how pos, if_neg hpn]
          exact ⟨h1, h2, h3⟩
    ·
      intro pos hb
      rw [how pos] at hb ⊢
      by_cases hp : pos ∈ (g.players i).properties
      · rw [if_pos hp] at hb
        have : (g.ownership pos).buildings = 0 := hbz pos hp
        simp only at hb
        omega
      · rw [if_neg hp] at hb ⊢
        exact h.buildOk pos hb
    ·
      intro pos hm
      rw [how pos] at hm ⊢
      by_cases hp : pos ∈ (g.players i).properties
      · rw [if_pos hp]
        simp
      · rw [if_neg hp] at hm ⊢
        exact h.mortOk pos hm
    · rw [hfc]; exact h.chanceSub
    · rw [hfm]; exact h.communitySub
  · have hbank : copt = none ∨ ∃ c, copt = some c ∧
        (c = i ∨ (g.players c).bankrupt = true) := by
      match copt with
      | none => exact Or.inl rfl
      | some c =>
          refine Or.inr ⟨c, rfl, ?_⟩
          by_cases hci : c = i
          · exact Or.inl hci
          · right
            rcases Bool.eq_false_or_eq_true (g.players c).bankrupt with hct | hcf
            · exact hct
            · exact absurd ⟨c, rfl, hci, hcf⟩ hcred
    have hpj := doBankrupt_players_bank (g := g) hbank hbk
    have how := doBankrupt_ownership_bank (g := g) hbank hbk
    refine ⟨?_, ?_, ?_, ?_, ?_, ?_, ?_, ?_, ?_, ?_⟩
    · rw [hfs]; exact h.smPos
    ·
      intro j hj hbj
      rw [hfn] at hj
      rw [hpj j] at hbj ⊢
      by_cases hji : j = i
      · subst hji
        rw [if_pos rfl] at hbj
        exact Bool.noConfusion hbj
      · rw [if_neg hji] at hbj ⊢
        exact h.moneyOk j hj hbj
    ·
      intro j hj hbj
      rw [hfn] at hj
      rw [hpj j] at hbj ⊢
      by_cases hji : j = i
      · subst hji
        rw [if_pos rfl]
        exact ⟨rfl, rfl⟩
      · rw [if_neg hji] at hbj ⊢
        exact h.bankruptOk j hj hbj
    ·
      intro j hj
      rw [hfn] at hj
      rw [hpj j]
      by_cases hji : j = i
      · subst hji; rw [if_pos rfl]; exact h.posOk j hj
      · rw [if_neg hji]; exact h.posOk j hj
    ·
      intro pos o ho
      rw [how pos] at ho
      by_cases hp : pos ∈ (g.players i).properties
      · rw [if_pos hp] at ho
        exact Option.noConfusion ho
      · rw [if_neg hp] at ho
        obtain ⟨h1, h2, h3⟩ := h.ownerOk pos o ho
        have hoi : o ≠ i := fun hoe => hp (hoe ▸ h3)
        rw [hfn, hpj o, if_neg hoi]
        exact ⟨h1, h2, h3⟩
    ·
      intro j hj pos hp
      rw [hfn] at hj
      rw [hpj j] at hp
      by_cases hji : j = i
      · subst hji
        rw [if_pos rfl] at hp
        exact absurd hp (List.not_mem_nil _)
      · rw [if_neg hji] at hp
        obtain ⟨h1, h2, h3⟩ := h.propsOk j hj pos hp
        have hpn : pos ∉ (g.players i).properties := by
          intro hpi2
          have := (h.propsOk i hi pos hpi2).2.2
          rw [h3] at this
          exact hji (Option.some.inj this)
        rw [how pos, if_neg hpn]
        exact ⟨h1, h2, h3⟩
    ·
      intro pos hb
      rw [how pos] at hb ⊢
      by_cases hp : pos ∈ (g.players i).properties
      · rw [if_pos hp] at hb
        exact absurd hb (by simp [emptyOwn])
      · rw [if_neg hp] at hb ⊢
        exact h.buildOk pos hb
    ·
      intro pos hm
      rw [how pos] at hm ⊢
      by_cases hp : pos ∈ (g.players i).properties
      · rw [if_pos hp] at hm
        exact absurd hm (by simp [emptyOwn])
      · rw [if_neg hp] at hm ⊢
        exact h.mortOk pos hm
    · rw [hfc]; exact h.chanceSub
    · rw [hfm]; exact h.communitySub

theorem raiseFunds_shape {g : Game} {i : Nat} {needed : Int}
    (h : Inv g) (hi : i < g.numPlayers) :
    (raiseFunds g i needed).numPlayers = g.numPlayers ∧
    (raiseFunds g i needed).startingMoney = g.startingMoney ∧
    (raiseFunds g i needed).chanceDeck = g.chanceDeck ∧
    (raiseFunds g i needed).communityDeck = g.communityDeck ∧
    (∀ j, j ≠ i → (raiseFunds g i needed).players j = g.players j) ∧
    ∃ m, (raiseFunds g i needed).players i = { g.players i with money := m } ∧
      (g.players i).money ≤ m := by
  unfold raiseFunds
  dsimp only
  set gs := sellBuildings i needed g (g.players i).properties with hgs
  obtain ⟨hn, hs, hc, hm, hoth, ⟨m, hpi, hple⟩, _, _, _⟩ :=
    sellBuildings_shape i needed (g.players i).properties g
  have hL40 : ∀ pos ∈ (gs.players i).properties, pos < 40 := by
    rw [hgs, hpi]
    intro pos hp
    exact (h.propsOk i hi pos hp).1
  obtain ⟨hn2, hs2, hc2, hm2, hoth2, ⟨m2, hpi2, hple2⟩, _, _, _⟩ :=
    mortgageProps_shape i needed (gs.players i).properties gs hL40
  refine ⟨hn2.trans (hgs ▸ hn), hs2.trans (hgs ▸ hs), hc2.trans (hgs ▸ hc),
    hm2.trans (hgs ▸ hm), ?_, ?_⟩
  · intro j hj
    rw [hoth2 j hj, hgs, hoth j hj]
  · refine ⟨m2, ?_, ?_⟩
    · rw [hpi2, hgs, hpi]
    · refine le_trans hple ?_
      have : (gs.players i).money = m := by rw [hgs, hpi]
      rw [this] at hple2
      exact hple2

theorem inv_chargeM {g : Game} {i : Nat} {amount : Int} {copt : Option Nat}
    (h : Inv g) (hi : i < g.numPlayers) (hbk : (g.players i).bankrupt = false)
    (ha : 0 ≤ amount) (hcn : ∀ c, copt = some c → c < g.numPlayers) :
    Inv (chargeM g i amount copt).1 := by
  unfold chargeM
  dsimp only
  set g1 := if (g.players i).money < amount then raiseFunds g i amount else g with hg1
  have h1 : Inv g1 := by
    rw [hg1]; split
    · exact inv_raiseFunds h hi hbk
    · exact h
  have hn1 : g1.numPlayers = g.numPlayers := by
    rw [hg1]; split
    · exact (raiseFunds_shape h hi).1
    · rfl
  have hbk1 : (g1.players i).bankrupt = false := by
    rw [hg1]; split
    · obtain ⟨_, _, _, _, _, ⟨m, hpi, _⟩⟩ := @raiseFunds_shape g i amount h hi
      rw [hpi]; exact hbk
    · exact hbk
  split
  · rename_i hpay
    dsimp only
    have h2 : Inv (setP g1 i fun p => { p with money := p.money - amount }) := by
      refine inv_setP h1 i _ rfl rfl (fun hj => ?_) (fun hj hbj => ?_) (fun hj hbj => ?_)
      · simpa using h1.posOk i hj
      · simpa using hpay
      · rw [hbk1] at hbj; exact Bool.noConfusion hbj
    match copt with
    | none => exact h2
    | some c =>
        dsimp only
        split
        · rename_i hcb
          set gd := setP g1 i fun p => { p with money := p.money - amount } with hgd
          have h3 : ∀ f : Nat → Int, Inv { gd with rentReceived := f } :=
            fun f => h2.of_core rfl rfl rfl rfl rfl rfl
          have h4 : ∀ f : Nat → Int,
              Inv (setP { gd with rentReceived := f } c
                fun p => { p with money := p.money + amount }) := by
            intro f
            refine inv_setP (h3 f) c _ rfl rfl (fun hj => ?_) (fun hj hbj => ?_)
              (fun hj hbj => ?_)
            · exact (h3 f).posOk c hj
            · exact add_nonneg ((h3 f).moneyOk c hj hbj) ha
            · have hcb3 : (({ gd with rentReceived := f } : Game).players c).bankrupt
                  = false := hcb
              rw [hcb3] at hbj
              exact Bool.noConfusion hbj
          split
          · exact (h4 _).of_core rfl rfl rfl rfl rfl rfl
          · exact h4 _
        · exact h2
  · rename_i hfail
    have hlt1 : (g1.players i).money < amount := not_le.mp hfail
    refine inv_doBankrupt h1 (hn1 ▸ hi) hbk1 ?_ (fun c hc => hn1 ▸ hcn c hc)
    rw [hg1] at hlt1 ⊢
    by_cases hshort : (g.players i).money < amount
    · rw [if_pos hshort] at hlt1 ⊢
      exact raiseFunds_exhaust h hi hbk hlt1
    · rw [if_neg hshort] at hlt1
      exact absurd hlt1 (not_lt.mpr (not_lt.mp hshort))

-- ══════════════════════ BUILD PASS LEMMAS ══════════════════════

/-- Master lemma: a single-square ledger update preserves the invariant when
it keeps the owner and respects the building/mortgage rules. -/
theorem inv_setOwn {g : Game} (h : Inv g) (pos : Nat) (f : OwnRec → OwnRec)
    (howner : (f (g.ownership pos)).owner = (g.ownership pos).owner)
    (hbuild : 0 < (f (g.ownership pos)).buildings →
      (f (g.ownership pos)).mortgaged = false ∧ (board pos).type = SqType.property)
    (hmort : (f (g.ownership pos)).mortgaged = true → (f (g.ownership pos)).owner ≠ none) :
    Inv (setOwn g pos f) := by
  constructor
  case smPos => exact h.smPos
  case moneyOk => intro j hj hbj; exact h.moneyOk j hj hbj
  case bankruptOk => intro j hj hbj; exact h.bankruptOk j hj hbj
  case posOk => intro j hj; exact h.posOk j hj
  case ownerOk =>
    intro q o ho
    rw [setOwn_ownership] at ho
    by_cases hq : q = pos
    · subst hq
      rw [if_pos rfl, howner] at ho
      exact h.ownerOk q o ho
    · rw [if_neg hq] at ho
      exact h.ownerOk q o ho
  case propsOk =>
    intro j hj q hq
    obtain ⟨h1, h2, h3⟩ := h.propsOk j hj q hq
    rw [setOwn_ownership]
    by_cases hqp : q = pos
    · subst hqp
      rw [if_pos rfl, howner]
      exact ⟨h1, h2, h3⟩
    · rw [if_neg hqp]
      exact ⟨h1, h2, h3⟩
  case buildOk =>
    intro q hb
    rw [setOwn_ownership] at hb ⊢
    by_cases hqp : q = pos
    · subst hqp
      rw [if_pos rfl] at hb ⊢
      exact hbuild hb
    · rw [if_neg hqp] at hb ⊢
      exact h.buildOk q hb
  case mortOk =>
    intro q hm
    rw [setOwn_ownership] at hm ⊢
    by_cases hqp : q = pos
    · subst hqp
      rw [if_pos rfl] at hm ⊢
      exact hmort hm
    · rw [if_neg hqp] at hm ⊢
      exact h.mortOk q hm
  case chanceSub => exact h.chanceSub
  case communitySub => exact h.communitySub

theorem buildPass_core (i minB : Nat) (hc reserve : Int) :
    ∀ (ps : List Nat) (g : Game) (imp : Bool),
      (buildPass i minB hc reserve g imp ps).1.numPlayers = g.numPlayers ∧
      (buildPass i minB hc reserve g imp ps).1.startingMoney = g.startingMoney ∧
      (buildPass i minB hc reserve g imp ps).1.chanceDeck = g.chanceDeck ∧
      (buildPass i minB hc reserve g imp ps).1.communityDeck = g.communityDeck ∧
      (∀ j, ((buildPass i minB hc reserve g imp ps).1.players j).bankrupt
        = (g.players j).bankrupt) ∧
      (∀ j, ((buildPass i minB hc reserve g imp ps).1.players j).properties
        = (g.players j).properties) ∧
      (∀ pos, ((buildPass i minB hc reserve g imp ps).1.ownership pos).owner
        = (g.ownership pos).owner) ∧
      (∀ pos, ((buildPass i minB hc reserve g imp ps).1.ownership pos).mortgaged
        = (g.ownership pos).mortgaged) := by
  intro ps
  induction ps with
  | nil =>
      intro g imp
      exact ⟨rfl, rfl, rfl, rfl, fun _ => rfl, fun _ => rfl, fun _ => rfl, fun _ => rfl⟩
  | cons pos rest ih =>
      intro g imp
      unfold buildPass
      dsimp only
      split
      · split
        · obtain ⟨h1, h2, h3, h4, h5, h6, h7, h8⟩ := ih _ true
          refine ⟨h1, h2, h3, h4, ?_, ?_, ?_, ?_⟩
          · intro j
            rw [h5 j]
            simp only [setOwn_players_eq, setP_players]
            by_cases hji : j = i <;> simp [hji]
          · intro j
            rw [h6 j]
            simp only [setOwn_players_eq, setP_players]
            by_cases hji : j = i <;> simp [hji]
          · intro q
            rw [h7 q]
            simp only [setOwn_ownership, setP_ownership]
            by_cases hqp : q = pos <;> simp [hqp]
          · intro q
            rw [h8 q]
            simp only [setOwn_ownership, setP_ownership]
            by_cases hqp : q = pos <;> simp [hqp]
        · exact ⟨rfl, rfl, rfl, rfl, fun _ => rfl, fun _ => rfl, fun _ => rfl, fun _ => rfl⟩
      · exact ih g imp

theorem inv_buildPass (i minB : Nat) (hc reserve : Int) (hr : 0 ≤ reserve) :
    ∀ (ps : List Nat) (g : Game) (imp : Bool), Inv g →
      (g.players i).bankrupt = false →
      (∀ pos ∈ ps, (g.ownership pos).mortgaged = false ∧
        (board pos).type = SqType.property ∧ (g.ownership pos).owner ≠ none) →
      Inv (buildPass i minB hc reserve g imp ps).1 := by
  intro ps
  induction ps with
  | nil => intro g imp h _ _; exact h
  | cons pos rest ih =>
      intro g imp h hbk hps
      unfold buildPass
      dsimp only
      split
      · split
        · rename_i hcond haff
          obtain ⟨hm1, ht1, ho1⟩ := hps pos (List.mem_cons_self _ _)
          have hg2 : Inv (setP g i fun p => { p with money := p.money - hc }) := by
            refine inv_setP h i _ rfl rfl (fun hj => ?_) (fun hj hbj => ?_)
              (fun hj hbj => ?_)
            · simpa using h.posOk i hj
            · show 0 ≤ (g.players i).money - hc
              omega
            · rw [hbk] at hbj
              exact Bool.noConfusion hbj
          have hstep : Inv (setOwn (setP g i fun p => { p with money := p.money - hc })
              pos fun o => { o with buildings := o.buildings + 1 }) := by
            refine inv_setOwn hg2 pos _ rfl (fun _ => ?_) (fun hmm => ?_)
            · exact ⟨hm1, ht1⟩
            · simp only [setP_ownership] at hmm ⊢
              rw [hm1] at hmm
              exact Bool.noConfusion hmm
          refine ih _ true hstep ?_ ?_
          · simp only [setOwn_players_eq, setP_players, if_pos rfl]
            exact hbk
          · intro q hq
            obtain ⟨hmq, htq, hoq⟩ := hps q (List.mem_cons_of_mem _ hq)
            simp only [setOwn_ownership, setP_ownership]
            by_cases hqp : q = pos
            · subst hqp
              rw [if_pos rfl]
              exact ⟨hmq, htq, hoq⟩
            · rw [if_neg hqp]
              exact ⟨hmq, htq, hoq⟩
        · exact h
      · exact ih g imp h hbk fun q hq => hps q (List.mem_cons_of_mem _ hq)

theorem buildLoop_core (i : Nat) (ps : List Nat) (hc reserve : Int) :
    ∀ (fuel : Nat) (g : Game),
      (buildLoop i ps hc reserve fuel g).numPlayers = g.numPlayers ∧
      (buildLoop i ps hc reserve fuel g).startingMoney = g.startingMoney ∧
      (buildLoop i ps hc reserve fuel g).chanceDeck = g.chanceDeck ∧
      (buildLoop i ps hc reserve fuel g).communityDeck = g.communityDeck ∧
      (∀ j, ((buildLoop i ps hc reserve fuel g).players j).bankrupt
        = (g.players j).bankrupt) ∧
      (∀ j, ((buildLoop i ps hc reserve fuel g).players j).properties
        = (g.players j).properties) ∧
      (∀ pos, ((buildLoop i ps hc reserve fuel g).ownership pos).owner
        = (g.ownership pos).owner) ∧
      (∀ pos, ((buildLoop i ps hc reserve fuel g).ownership pos).mortgaged
        = (g.ownership pos).mortgaged) := by
  intro fuel
  induction fuel with
  | zero =>
      intro g
      exact ⟨rfl, rfl, rfl, rfl, fun _ => rfl, fun _ => rfl, fun _ => rfl, fun _ => rfl⟩
  | succ fuel ih =>
      intro g
      unfold buildLoop
      dsimp only
      split
      · exact ⟨rfl, rfl, rfl, rfl, fun _ => rfl, fun _ => rfl, fun _ => rfl, fun _ => rfl⟩
      · obtain ⟨p1, p2, p3, p4, p5, p6, p7, p8⟩ :=
          buildPass_core i (minBuildings g ps) hc reserve ps g false
        split
        · obtain ⟨q1, q2, q3, q4, q5, q6, q7, q8⟩ := ih (buildPass i
            (minBuildings g ps) hc reserve g false ps).1
          exact ⟨q1.trans p1, q2.trans p2, q3.trans p3, q4.trans p4,
            fun j => (q5 j).trans (p5 j), fun j => (q6 j).trans (p6 j),
            fun pos => (q7 pos).trans (p7 pos), fun pos => (q8 pos).trans (p8 pos)⟩
        · exact ⟨p1, p2, p3, p4, p5, p6, p7, p8⟩

theorem inv_buildLoop (i : Nat) (ps : List Nat) (hc reserve : Int) (hr : 0 ≤ reserve) :
    ∀ (fuel : Nat) (g : Game), Inv g →
      (g.players i).bankrupt = false →
      (∀ pos ∈ ps, (g.ownership pos).mortgaged = false ∧
        (board pos).type = SqType.property ∧ (g.ownership pos).owner ≠ none) →
      Inv (buildLoop i ps hc reserve fuel g) := by
  intro fuel
  induction fuel with
  | zero => intro g h _ _; exact h
  | succ fuel ih =>
      intro g h hbk hps
      unfold buildLoop
      dsimp only
      split
      · exact h
      · obtain ⟨p1, p2, p3, p4, p5, p6, p7, p8⟩ :=
          buildPass_core i (minBuildings g ps) hc reserve ps g false
        have hpass : Inv (buildPass i (minBuildings g ps) hc reserve g false ps).1 :=
          inv_buildPass i (minBuildings g ps) hc reserve hr ps g false h hbk hps
        split
        · refine ih _ hpass ((p5 i).trans hbk) ?_
          intro q hq
          obtain ⟨hmq, htq, hoq⟩ := hps q hq
          exact ⟨(p8 q).trans hmq, htq, (p7 q) ▸ hoq⟩
        · exact hpass

theorem ownsGroup_spec {g : Game} {i : Nat} {grp : GroupId}
    (h : ownsGroup g i grp = true) :
    ∀ p ∈ groupPositions grp,
      (g.ownership p).owner = some i ∧ (g.ownership p).mortgaged = false := by
  intro p hp
  unfold ownsGroup at h
  rw [List.all_eq_true] at h
  have := h p hp
  simp only [Bool.and_eq_true, beq_iff_eq, Bool.not_eq_true'] at this
  exact this

theorem inv_tryBuild {g : Game} {i : Nat} (h : Inv g) : Inv (tryBuild g i) := by
  unfold tryBuild
  have main : ∀ (grps : List GroupId) (reserve : Int) (g : Game), Inv g → 0 ≤ reserve →
      Inv (grps.foldl (fun g grp =>
        if ownsGroup g i grp then
          buildLoop i (groupPositions grp) (houseCost grp) reserve 16 g
        else g) g) := by
    intro grps
    induction grps with
    | nil => intro reserve g h _; exact h
    | cons grp rest ih =>
        intro reserve g h hr
        rw [List.foldl_cons]
        apply ih reserve _ ?_ hr
        split
        · rename_i hown
          have hex : ∃ p, p ∈ groupPositions grp := by
            cases grp <;> exact ⟨_, List.mem_cons_self _ _⟩
          have hbk : (g.players i).bankrupt = false := by
            obtain ⟨p, hp⟩ := hex
            obtain ⟨ho, _⟩ := ownsGroup_spec hown p hp
            exact (h.ownerOk p i ho).2.1
          refine inv_buildLoop i (groupPositions grp) (houseCost grp)
            reserve hr 16 g h hbk ?_
          intro p hp
          obtain ⟨ho, hm⟩ := ownsGroup_spec hown p hp
          exact ⟨hm, (groupPositions_mem grp p hp).2, by rw [ho]; simp⟩
        · exact h
  exact main GROUP_LIST (buildReserve g.startingMoney) g h (buildReserve_nonneg h.smPos)

-- ══════════════════════ CARD / SQUARE RESOLUTION LEMMAS ══════════════════════

@[simp] theorem moveSteps_numPlayers (g : Game) (i steps : Nat) :
    (moveSteps g i steps).numPlayers = g.numPlayers := by
  unfold moveSteps
  dsimp only
  split <;> simp

@[simp] theorem moveTo_numPlayers (g : Game) (i target : Nat) :
    (moveTo g i target).numPlayers = g.numPlayers := by
  unfold moveTo
  dsimp only
  split <;> simp

@[simp] theorem sendToJail_numPlayers (g : Game) (i : Nat) :
    (sendToJail g i).numPlayers = g.numPlayers := rfl

@[simp] theorem addRentPaid_numPlayers (g : Game) (i : Nat) (amt : Int) :
    (addRentPaid g i amt).numPlayers = g.numPlayers := rfl

@[simp] theorem addTaxPaid_numPlayers (g : Game) (i : Nat) (amt : Int) :
    (addTaxPaid g i amt).numPlayers = g.numPlayers := rfl

@[simp] theorem addRentPaid_players_eq (g : Game) (i : Nat) (amt : Int) :
    (addRentPaid g i amt).players = g.players := rfl

@[simp] theorem addTaxPaid_players_eq (g : Game) (i : Nat) (amt : Int) :
    (addTaxPaid g i amt).players = g.players := rfl

@[simp] theorem sellBuildings_numPlayers (i : Nat) (needed : Int) (g : Game) (L : List Nat) :
    (sellBuildings i needed g L).numPlayers = g.numPlayers :=
  (sellBuildings_shape i needed L g).1

@[simp] theorem raiseFunds_numPlayers_simple (g : Game) (i : Nat) (needed : Int) :
    (raiseFunds g i needed).numPlayers = g.numPlayers := by
  have hm : ∀ (L : List Nat) (g' : Game),
      (mortgageProps i needed g' L).numPlayers = g'.numPlayers := by
    intro L
    induction L with
    | nil => intro g'; rfl
    | cons q rest ih =>
        intro g'
        unfold mortgageProps
        split
        · rfl
        · dsimp only
          split <;> simp [ih]
  unfold raiseFunds
  dsimp only
  rw [hm, sellBuildings_numPlayers]

@[simp] theorem doBankrupt_numPlayers (g : Game) (i : Nat) (copt : Option Nat) :
    (doBankrupt g i copt).numPlayers = g.numPlayers := (doBankrupt_fields g i copt).1

@[simp] theorem chargeM_numPlayers (g : Game) (i : Nat) (amount : Int) (copt : Option Nat) :
    (chargeM g i amount copt).1.numPlayers = g.numPlayers := by
  unfold chargeM
  dsimp only
  set g1 := if (g.players i).money < amount then raiseFunds g i amount else g with hg1
  have hn1 : g1.numPlayers = g.numPlayers := by
    rw [hg1]
    split
    · exact raiseFunds_numPlayers_simple g i amount
    · rfl
  split
  · rcases copt with _ | c
    · simpa using hn1
    · dsimp only
      split
      · split
        · simpa using hn1
        · simpa using hn1
      · simpa using hn1
  · simpa using hn1

theorem activeOthers_spec {g : Game} {i j : Nat} (h : j ∈ activeOthers g i) :
    j < g.numPlayers ∧ (g.players j).bankrupt = false ∧ j ≠ i := by
  unfold activeOthers at h
  rw [List.mem_filter] at h
  obtain ⟨h1, h2⟩ := h
  rw [List.mem_range] at h1
  simp only [Bool.and_eq_true, decide_eq_true_eq] at h2
  exact ⟨h1, h2.1, h2.2⟩

theorem inv_payEachLoop {i : Nat} {v : Int} (hv : 0 ≤ v) :
    ∀ (L : List Nat) (g : Game), Inv g → i < g.numPlayers →
      (∀ j ∈ L, j < g.numPlayers ∧ (g.players j).bankrupt = false ∧ j ≠ i) →
      Inv (payEachLoop i v g L) := by
  intro L
  induction L with
  | nil => intro g h _ _; exact h
  | cons j rest ih =>
      intro g h hi hL
      obtain ⟨hjn, hjb, hji⟩ := hL j (List.mem_cons_self _ _)
      unfold payEachLoop
      split
      · exact h
      · rename_i hbki
        have hbki' : (g.players i).bankrupt = false := by
          rcases Bool.eq_false_or_eq_true (g.players i).bankrupt with ht | hf
          · exact absurd ht hbki
          · exact hf
        have hamt : min v (g.players i).money ≤ (g.players i).money := min_le_right _ _
        have hamt0 : 0 ≤ min v (g.players i).money :=
          le_min hv (h.moneyOk i hi hbki')
        have h1 : Inv (setP g i fun p =>
            { p with money := p.money - min v (g.players i).money }) := by
          refine inv_setP h i _ rfl rfl (fun hj => ?_) (fun hj hbj => ?_) (fun hj hbj => ?_)
          · simpa using h.posOk i hj
          · have := h.moneyOk i hj hbj
            simp only [setP_players]
            omega
          · rw [hbki'] at hbj; exact Bool.noConfusion hbj
        have hbkj1 : ((setP g i fun p =>
            { p with money := p.money - min v (g.players i).money }).players j).bankrupt
              = false := by
          simp only [setP_players]
          rw [if_neg hji]
          exact hjb
        have h2 : Inv (setP (setP g i fun p =>
            { p with money := p.money - min v (g.players i).money }) j fun p =>
            { p with money := p.money + min v (g.players i).money }) := by
          refine inv_setP h1 j _ rfl rfl (fun hj => ?_) (fun hj hbj => ?_) (fun hj hbj => ?_)
          · simpa using h1.posOk j (by simpa using hjn)
          · exact add_nonneg (h1.moneyOk j (by simpa using hjn) hbj) hamt0
          · rw [hbkj1] at hbj
            exact Bool.noConfusion hbj
        refine ih _ h2 (by simpa using hi) ?_
        intro k hk
        obtain ⟨hkn, hkb, hki⟩ := hL k (List.mem_cons_of_mem _ hk)
        refine ⟨by simpa using hkn, ?_, hki⟩
        simp only [setP_players]
        by_cases hkj : k = j <;> simp [hkj, hji, hki, hjb, hkb]

theorem inv_receiveFromEachLoop {i : Nat} {v : Int} (hv : 0 ≤ v) :
    ∀ (L : List Nat) (g : Game), Inv g → i < g.numPlayers →
      (g.players i).bankrupt = false →
      (∀ j ∈ L, j < g.numPlayers ∧ (g.players j).bankrupt = false ∧ j ≠ i) →
      Inv (receiveFromEachLoop i v g L) := by
  intro L
  induction L with
  | nil => intro g h _ _ _; exact h
  | cons j rest ih =>
      intro g h hi hbki hL
      obtain ⟨hjn, hjb, hji⟩ := hL j (List.mem_cons_self _ _)
      unfold receiveFromEachLoop
      dsimp only
      have hgive0 : 0 ≤ min v (g.players j).money := le_min hv (h.moneyOk j hjn hjb)
      have h1 : Inv (setP g j fun p =>
          { p with money := p.money - min v (g.players j).money }) := by
        refine inv_setP h j _ rfl rfl (fun hj => ?_) (fun hj hbj => ?_) (fun hj hbj => ?_)
        · simpa using h.posOk j hj
        · have := min_le_right v (g.players j).money
          simp only [setP_players]
          omega
        · rw [hjb] at hbj
          exact Bool.noConfusion hbj
      have hbki1 : ((setP g j fun p =>
          { p with money := p.money - min v (g.players j).money }).players i).bankrupt
            = false := by
        simp only [setP_players]
        rw [if_neg (Ne.symm hji)]
        exact hbki
      have h2 : Inv (setP (setP g j fun p =>
          { p with money := p.money - min v (g.players j).money }) i fun p =>
          { p with money := p.money + min v (g.players j).money }) := by
        refine inv_setP h1 i _ rfl rfl (fun hj => ?_) (fun hj hbj => ?_) (fun hj hbj => ?_)
        · simpa using h1.posOk i (by simpa using hi)
        · exact add_nonneg (h1.moneyOk i (by simpa using hi) hbj) hgive0
        · rw [hbki1] at hbj
          exact Bool.noConfusion hbj
      have hbki2 : ((setP (setP g j fun p =>
          { p with money := p.money - min v (g.players j).money }) i fun p =>
          { p with money := p.money + min v (g.players j).money }).players i).bankrupt
            = false := by
        simp only [setP_players, if_pos rfl]
        exact hbki1
      refine ih _ h2 (by simpa using hi) hbki2 ?_
      intro k hk
      obtain ⟨hkn, hkb, hki⟩ := hL k (List.mem_cons_of_mem _ hk)
      refine ⟨by simpa using hkn, ?_, hki⟩
      simp only [setP_players]
      by_cases hkj : k = j <;> simp [hkj, hji, hki, hjb, hkb]

theorem foldl_add_nonneg : ∀ (l : List Int), (∀ x ∈ l, 0 ≤ x) → ∀ acc : Int, 0 ≤ acc →
    0 ≤ l.foldl (· + ·) acc := by
  intro l
  induction l with
  | nil => intro _ acc ha; exact ha
  | cons x rest ih =>
      intro hl acc ha
      rw [List.foldl_cons]
      exact ih (fun y hy => hl y (List.mem_cons_of_mem _ hy)) _
        (add_nonneg ha (hl x (List.mem_cons_self _ _)))

theorem repairsTotal_nonneg (g : Game) (i : Nat) {houseFee hotelFee : Int}
    (h2 : 0 ≤ houseFee) (h3 : 0 ≤ hotelFee) : 0 ≤ repairsTotal g i houseFee hotelFee := by
  unfold repairsTotal
  refine foldl_add_nonneg _ ?_ 0 le_rfl
  intro x hx
  rw [List.mem_map] at hx
  obtain ⟨pos, _, hpx⟩ := hx
  rw [← hpx]
  split
  · split
    · exact h3
    · positivity
  · exact le_rfl

-- ══════════════════════ DECK DRAW LEMMAS ══════════════════════

theorem makeDeck_mem {rng : Nat → Nat} {k : Nat} {cards : List CardEff} {c : CardEff}
    (h : c ∈ (makeDeck rng k cards).1) : c ∈ cards := by
  unfold makeDeck at h
  dsimp only at h
  rcases List.mem_append.mp h with h1 | h2
  · exact List.mem_of_mem_filter ((shuffleWith_perm rng k _).mem_iff.mp h1)
  · exact List.mem_of_mem_filter h2

theorem makeDeck_length (rng : Nat → Nat) (k : Nat) (cards : List CardEff) :
    (makeDeck rng k cards).1.length
      = (cards.filter fun c => !isGetOut c).length + (cards.filter isGetOut).length := by
  unfold makeDeck
  dsimp only
  rw [List.length_append, (shuffleWith_perm rng k _).length_eq]

theorem inv_drawChance {g : Game} (h : Inv g) :
    Inv (drawChance g).2 ∧ (drawChance g).1 ∈ CHANCE_CARDS := by
  unfold drawChance
  rcases hd : g.chanceDeck with _ | ⟨c, rest⟩
  · dsimp only
    have h16 : (makeDeck g.rng g.k CHANCE_CARDS).1.length = 16 := by
      rw [makeDeck_length]
      decide
    rcases hmd : (makeDeck g.rng g.k CHANCE_CARDS).1 with _ | ⟨c, rest⟩
    · rw [hmd] at h16
      simp at h16
    · dsimp only
      constructor
      · exact ⟨h.smPos, h.moneyOk, h.bankruptOk, h.posOk, h.ownerOk, h.propsOk,
          h.buildOk, h.mortOk,
          fun x hx => makeDeck_mem (by rw [hmd]; exact List.mem_cons_of_mem _ hx),
          h.communitySub⟩
      · exact makeDeck_mem (by rw [hmd]; exact List.mem_cons_self _ _)
  · dsimp only
    constructor
    · exact ⟨h.smPos, h.moneyOk, h.bankruptOk, h.posOk, h.ownerOk, h.propsOk,
        h.buildOk, h.mortOk,
        fun x hx => h.chanceSub x (by rw [hd]; exact List.mem_cons_of_mem _ hx),
        h.communitySub⟩
    · exact h.chanceSub c (by rw [hd]; exact List.mem_cons_self _ _)

theorem inv_drawCommunity {g : Game} (h : Inv g) :
    Inv (drawCommunity g).2 ∧ (drawCommunity g).1 ∈ COMMUNITY_CARDS := by
  unfold drawCommunity
  rcases hd : g.communityDeck with _ | ⟨c, rest⟩
  · dsimp only
    have h16 : (makeDeck g.rng g.k COMMUNITY_CARDS).1.length = 16 := by
      rw [makeDeck_length]
      decide
    rcases hmd : (makeDeck g.rng g.k COMMUNITY_CARDS).1 with _ | ⟨c, rest⟩
    · rw [hmd] at h16
      simp at h16
    · dsimp only
      constructor
      · exact ⟨h.smPos, h.moneyOk, h.bankruptOk, h.posOk, h.ownerOk, h.propsOk,
          h.buildOk, h.mortOk, h.chanceSub,
          fun x hx => makeDeck_mem (by rw [hmd]; exact List.mem_cons_of_mem _ hx)⟩
      · exact makeDeck_mem (by rw [hmd]; exact List.mem_cons_self _ _)
  · dsimp only
    constructor
    · exact ⟨h.smPos, h.moneyOk, h.bankruptOk, h.posOk, h.ownerOk, h.propsOk,
        h.buildOk, h.mortOk, h.chanceSub,
        fun x hx => h.communitySub x (by rw [hd]; exact List.mem_cons_of_mem _ hx)⟩
    · exact h.communitySub c (by rw [hd]; exact List.mem_cons_self _ _)

theorem inv_resolveOwnable {g : Game} {i pos dice : Nat} (h : Inv g)
    (hi : i < g.numPlayers) (hbk : (g.players i).bankrupt = false)
    (hpos : pos < 40) (hpurch : Purchasable pos) :
    Inv (resolveOwnable g i pos dice) := by
  unfold resolveOwnable
  dsimp only
  split
  · -- unowned: possible purchase
    rename_i hown
    split
    · rename_i hbuy
      have hprice : 0 ≤ (g.players i).money - (board pos).price := by
        have h1 : buyReserve g.startingMoney ≤ (g.players i).money - (board pos).price := by
          have h1a := hbuy
          simp only [shouldBuy, decide_eq_true_eq] at h1a
          exact h1a
        have h2 := buyReserve_nonneg h.smPos
        omega
      have hnotmem : ∀ j, j < g.numPlayers → pos ∉ (g.players j).properties := by
        intro j hj hmem
        have := (h.propsOk j hj pos hmem).2.2
        rw [hown] at this
        exact Option.noConfusion this
      have hB : Inv (setOwn (setP g i fun p =>
          { p with money := p.money - (board pos).price,
                   properties := p.properties ++ [pos] }) pos
          fun o => { o with owner := some i }) := by
        constructor
        case smPos => exact h.smPos
        case moneyOk =>
          intro j hj hbj
          simp only [setOwn_players_eq, setP_players, setOwn_numPlayers,
            setP_numPlayers] at hbj hj ⊢
          by_cases hji : j = i
          · subst hji
            rw [if_pos rfl] at hbj ⊢
            exact hprice
          · rw [if_neg hji] at hbj ⊢
            exact h.moneyOk j hj hbj
        case bankruptOk =>
          intro j hj hbj
          simp only [setOwn_players_eq, setP_players, setOwn_numPlayers,
            setP_numPlayers] at hbj hj ⊢
          by_cases hji : j = i
          · subst hji
            rw [if_pos rfl] at hbj
            simp only at hbj
            rw [hbk] at hbj
            exact Bool.noConfusion hbj
          · rw [if_neg hji] at hbj ⊢
            exact h.bankruptOk j hj hbj
        case posOk =>
          intro j hj
          simp only [setOwn_players_eq, setP_players, setOwn_numPlayers,
            setP_numPlayers] at hj ⊢
          by_cases hji : j = i
          · subst hji
            rw [if_pos rfl]
            exact h.posOk j hj
          · rw [if_neg hji]
            exact h.posOk j hj
        case ownerOk =>
          intro q o hq
          simp only [setOwn_ownership, setP_ownership, setOwn_players_eq,
            setP_players, setOwn_numPlayers, setP_numPlayers] at hq ⊢
          by_cases hqp : q = pos
          · subst hqp
            rw [if_pos rfl] at hq
            simp only at hq
            have hoi : o = i := (Option.some.inj hq).symm
            subst hoi
            rw [if_pos rfl]
            refine ⟨hi, hbk, ?_⟩
            simp
          · rw [if_neg hqp] at hq
            obtain ⟨h1, h2, h3⟩ := h.ownerOk q o hq
            by_cases hoi : o = i
            · subst hoi
              rw [if_pos rfl]
              exact ⟨h1, h2, List.mem_append.mpr (Or.inl h3)⟩
            · rw [if_neg hoi]
              exact ⟨h1, h2, h3⟩
        case propsOk =>
          intro j hj q hq
          simp only [setOwn_ownership, setP_ownership, setOwn_players_eq,
            setP_players, setOwn_numPlayers, setP_numPlayers] at hq hj ⊢
          by_cases hji : j = i
          · subst hji
            rw [if_pos rfl] at hq
            simp only at hq
            rcases List.mem_append.mp hq with hql | hqr
            · obtain ⟨h1, h2, h3⟩ := h.propsOk j hj q hql
              have hqp : q ≠ pos := by
                intro he
                rw [he, hown] at h3
                exact Option.noConfusion h3
              rw [if_neg hqp]
              exact ⟨h1, h2, h3⟩
            · have hqp : q = pos := by simpa using hqr
              subst hqp
              rw [if_pos rfl]
              exact ⟨hpos, hpurch, rfl⟩
          · rw [if_neg hji] at hq
            obtain ⟨h1, h2, h3⟩ := h.propsOk j hj q hq
            have hqp : q ≠ pos := by
              intro he
              rw [he, hown] at h3
              exact Option.noConfusion h3
            rw [if_neg hqp]
            exact ⟨h1, h2, h3⟩
        case buildOk =>
          intro q hq
          simp only [setOwn_ownership, setP_ownership] at hq ⊢
          by_cases hqp : q = pos
          · subst hqp
            rw [if_pos rfl] at hq ⊢
            simp only at hq ⊢
            exact h.buildOk q hq
          · rw [if_neg hqp] at hq ⊢
            exact h.buildOk q hq
        case mortOk =>
          intro q hq
          simp only [setOwn_ownership, setP_ownership] at hq ⊢
          by_cases hqp : q = pos
          · subst hqp
            rw [if_pos rfl]
            simp
          · rw [if_neg hqp] at hq ⊢
            exact h.mortOk q hq
        case chanceSub => exact h.chanceSub
        case communitySub => exact h.communitySub
      exact hB.of_core rfl rfl rfl rfl rfl rfl
    · exact h
  · -- owned: rent
    rename_i o hown
    split
    · split
      · split
        · rename_i hguard hob hrent
          have ho' := h.ownerOk pos o hown
          refine inv_chargeM (h.of_core rfl rfl rfl rfl rfl rfl) ?_ ?_ ?_ ?_
          · simpa using hi
          · simpa using hbk
          · exact rentOf_nonneg g pos dice false hpos
          · intro c hc
            have : o = c := Option.some.inj hc
            subst this
            simpa using ho'.1
        · exact h
      · exact h
    · exact h

theorem emod40_toNat_lt (a : Int) : (a % 40).toNat < 40 := by
  have h1 : a % 40 < 40 := Int.emod_lt_of_pos _ (by decide)
  have h2 : 0 ≤ a % 40 := Int.emod_nonneg _ (by decide)
  omega

theorem nearestStationPos_lt (pos : Nat) : nearestStationPos pos < 40 := by
  show [14, 25, 35].foldl
    (fun best q => if cycDist q pos < cycDist best pos then q else best) 5 < 40
  simp only [List.foldl_cons, List.foldl_nil]
  repeat' split
  all_goals decide

theorem moveTo_bankrupt (g : Game) (i target j : Nat) :
    ((moveTo g i target).players j).bankrupt = (g.players j).bankrupt := by
  unfold moveTo
  dsimp only
  split <;>
  · rw [setP_players]
    by_cases hj : j = i <;> simp [hj, creditM_players]

theorem moveSteps_bankrupt (g : Game) (i steps j : Nat) :
    ((moveSteps g i steps).players j).bankrupt = (g.players j).bankrupt := by
  unfold moveSteps
  dsimp only
  split <;>
  · rw [setP_players]
    by_cases hj : j = i <;> simp [hj, creditM_players]

theorem inv_applyCardWith {applySq : Game → Nat → Nat → Game} {i dice : Nat}
    (happly : ∀ g' : Game, Inv g' → i < g'.numPlayers → Inv (applySq g' i dice))
    {g : Game} {card : CardEff}
    (h : Inv g) (hi : i < g.numPlayers) (hbk : (g.players i).bankrupt = false)
    (hcard : CardOk card) :
    Inv (applyCardWith applySq g i card dice) := by
  cases card with
  | moveTo target =>
      have ht : target < 40 := hcard
      simp only [applyCardWith]
      have h1 : Inv (moveTo g i target) := inv_moveTo h hi hbk ht
      split
      · exact happly _ h1 (by simpa using hi)
      · exact h1
  | moveBack n =>
      simp only [applyCardWith]
      have h1 : Inv (setP g i fun p =>
          { p with position := ((((g.players i).position : Int) - (n : Int)) % 40).toNat }) := by
        refine inv_setP h i _ rfl rfl (fun _ => ?_) (fun hj hbj => ?_) (fun hj hbj => ?_)
        · exact emod40_toNat_lt _
        · exact h.moneyOk i hj hbj
        · rfl
      split
      · exact happly _ h1 (by simpa using hi)
      · exact h1
  | nearestStation =>
      simp only [applyCardWith]
      have h1 : Inv (moveTo g i (nearestStationPos (g.players i).position)) :=
        inv_moveTo h hi hbk (nearestStationPos_lt _)
      split
      · rename_i o hown
        split
        · split
          · refine inv_chargeM (h1.of_core rfl rfl rfl rfl rfl rfl) ?_ ?_ ?_ ?_
            · simpa using hi
            · simpa [moveTo_bankrupt] using hbk
            · exact rentOf_nonneg _ _ _ _ (nearestStationPos_lt _)
            · intro c hc
              have ho1 := (h1.ownerOk _ o hown).1
              have hoc : o = c := Option.some.inj hc
              subst hoc
              simpa using ho1
          · exact h1
        · exact h1
      · exact h1
  | goToJail =>
      simp only [applyCardWith]
      exact inv_sendToJail h
  | getOutOfJail =>
      simp only [applyCardWith]
      refine inv_setP h i _ rfl rfl (fun hj => ?_) (fun hj hbj => ?_) (fun hj hbj => ?_)
      · simpa using h.posOk i hj
      · exact h.moneyOk i hj hbj
      · rfl
  | receive v =>
      have hv : 0 ≤ v := hcard
      simp only [applyCardWith]
      exact inv_creditM h hi hbk hv
  | pay v =>
      have hv : 0 ≤ v := hcard
      simp only [applyCardWith]
      refine inv_chargeM (h.of_core rfl rfl rfl rfl rfl rfl) ?_ ?_ hv ?_
      · simpa using hi
      · simpa using hbk
      · intro c hc
        exact Option.noConfusion hc
  | payEach v =>
      have hv : 0 ≤ v := hcard
      simp only [applyCardWith]
      exact inv_payEachLoop hv _ g h hi (fun j hj => activeOthers_spec hj)
  | receiveFromEach v =>
      have hv : 0 ≤ v := hcard
      simp only [applyCardWith]
      exact inv_receiveFromEachLoop hv _ g h hi hbk (fun j hj => activeOthers_spec hj)
  | repairs houseFee hotelFee =>
      simp only [applyCardWith]
      split
      · rename_i htot
        refine inv_chargeM (h.of_core rfl rfl rfl rfl rfl rfl) ?_ ?_ (le_of_lt htot) ?_
        · simpa using hi
        · simpa using hbk
        · intro c hc
          exact Option.noConfusion hc
      · exact h

@[simp] theorem drawChance_numPlayers (g : Game) :
    (drawChance g).2.numPlayers = g.numPlayers := by
  unfold drawChance
  split
  · rfl
  · dsimp only
    split
    all_goals rfl

@[simp] theorem drawChance_players (g : Game) :
    (drawChance g).2.players = g.players := by
  unfold drawChance
  split
  · rfl
  · dsimp only
    split
    all_goals rfl

@[simp] theorem drawCommunity_numPlayers (g : Game) :
    (drawCommunity g).2.numPlayers = g.numPlayers := by
  unfold drawCommunity
  split
  · rfl
  · dsimp only
    split
    all_goals rfl

@[simp] theorem drawCommunity_players (g : Game) :
    (drawCommunity g).2.players = g.players := by
  unfold drawCommunity
  split
  · rfl
  · dsimp only
    split
    all_goals rfl

theorem inv_applySquareF : ∀ (fuel : Nat) (g : Game) (i dice : Nat),
    Inv g → i < g.numPlayers → Inv (applySquareF fuel g i dice) := by
  intro fuel
  induction fuel with
  | zero => intro g i dice h _; exact h
  | succ fuel ih =>
      intro g i dice h hi
      unfold applySquareF
      dsimp only
      split
      · exact h
      · rename_i hbk
        rw [Bool.not_eq_true] at hbk
        split
        · exact inv_creditM h hi hbk (by decide)
        · exact inv_sendToJail h
        · refine inv_chargeM (h.of_core rfl rfl rfl rfl rfl rfl) (by simpa using hi)
            (by simpa using hbk) ?_ ?_
          · exact amount_nonneg _ (h.posOk i hi)
          · intro c hc
            exact Option.noConfusion hc
        · have hs := inv_drawChance h
          refine inv_applyCardWith (fun g' h' hi' => ih g' i dice h' hi') hs.1
            (by simpa using hi) (by simpa using hbk) (chance_cards_ok _ hs.2)
        · have hs := inv_drawCommunity h
          refine inv_applyCardWith (fun g' h' hi' => ih g' i dice h' hi') hs.1
            (by simpa using hi) (by simpa using hbk) (community_cards_ok _ hs.2)
        · rename_i htype
          exact inv_resolveOwnable h hi hbk (h.posOk i hi) (Or.inl htype)
        · rename_i htype
          exact inv_resolveOwnable h hi hbk (h.posOk i hi) (Or.inr (Or.inl htype))
        · rename_i htype
          exact inv_resolveOwnable h hi hbk (h.posOk i hi) (Or.inr (Or.inr htype))
        · exact h
        · exact h

theorem inv_applySquare {g : Game} {i dice : Nat} (h : Inv g) (hi : i < g.numPlayers) :
    Inv (applySquare g i dice) :=
  inv_applySquareF 4 g i dice h hi

@[simp] theorem roll_numPlayers (g : Game) : (roll g).2.numPlayers = g.numPlayers := rfl

@[simp] theorem roll_players (g : Game) : (roll g).2.players = g.players := rfl

theorem payEachLoop_numPlayers (i : Nat) (v : Int) :
    ∀ (L : List Nat) (g : Game), (payEachLoop i v g L).numPlayers = g.numPlayers := by
  intro L
  induction L with
  | nil => intro g; rfl
  | cons j rest ih =>
      intro g
      unfold payEachLoop
      dsimp only
      split
      · rfl
      · rw [ih]
        simp

theorem receiveFromEachLoop_numPlayers (i : Nat) (v : Int) :
    ∀ (L : List Nat) (g : Game), (receiveFromEachLoop i v g L).numPlayers = g.numPlayers := by
  intro L
  induction L with
  | nil => intro g; rfl
  | cons j rest ih =>
      intro g
      unfold receiveFromEachLoop
      dsimp only
      rw [ih]
      simp

@[simp] theorem resolveOwnable_numPlayers (g : Game) (i pos dice : Nat) :
    (resolveOwnable g i pos dice).numPlayers = g.numPlayers := by
  unfold resolveOwnable
  dsimp only
  split
  · split
    · rfl
    · rfl
  · split
    · split
      · split
        · simp
        · rfl
      · rfl
    · rfl

theorem applyCardWith_numPlayers {applySq : Game → Nat → Nat → Game} {i dice : Nat}
    (hn : ∀ g', (applySq g' i dice).numPlayers = g'.numPlayers)
    (g : Game) (card : CardEff) :
    (applyCardWith applySq g i card dice).numPlayers = g.numPlayers := by
  cases card with
  | moveTo target =>
      simp only [applyCardWith]
      split
      · rw [hn]; simp
      · simp
  | moveBack n =>
      simp only [applyCardWith]
      split
      · rw [hn]; simp
      · simp
  | nearestStation =>
      simp only [applyCardWith]
      split
      · split
        · split
          · simp
          · simp
        · simp
      · simp
  | goToJail => simp [applyCardWith]
  | getOutOfJail => simp [applyCardWith]
  | receive v => simp [applyCardWith]
  | pay v => simp [applyCardWith]
  | payEach v =>
      simp only [applyCardWith]
      rw [payEachLoop_numPlayers]
  | receiveFromEach v =>
      simp only [applyCardWith]
      rw [receiveFromEachLoop_numPlayers]
  | repairs a b =>
      simp only [applyCardWith]
      split
      · simp
      · rfl

theorem applySquareF_numPlayers :
    ∀ (fuel : Nat) (g : Game) (i dice : Nat),
      (applySquareF fuel g i dice).numPlayers = g.numPlayers := by
  intro fuel
  induction fuel with
  | zero => intro g i dice; rfl
  | succ fuel ih =>
      intro g i dice
      unfold applySquareF
      dsimp only
      split
      · rfl
      · split
        · simp
        · simp
        · simp
        · rw [applyCardWith_numPlayers (fun g' => ih g' i dice)]
          simp
        · rw [applyCardWith_numPlayers (fun g' => ih g' i dice)]
          simp
        · simp
        · simp
        · simp
        · rfl
        · rfl

@[simp] theorem applySquare_numPlayers (g : Game) (i dice : Nat) :
    (applySquare g i dice).numPlayers = g.numPlayers :=
  applySquareF_numPlayers 4 g i dice

theorem tryBuild_foldl_core (i : Nat) (reserve : Int) :
    ∀ (grps : List GroupId) (g : Game),
      ((grps.foldl (fun g grp => if ownsGroup g i grp then
          buildLoop i (groupPositions grp) (houseCost grp) reserve 16 g else g) g).numPlayers
        = g.numPlayers) ∧
      (∀ j, ((grps.foldl (fun g grp => if ownsGroup g i grp then
          buildLoop i (groupPositions grp) (houseCost grp) reserve 16 g else g) g).players j).bankrupt
        = (g.players j).bankrupt) := by
  intro grps
  induction grps with
  | nil => intro g; exact ⟨rfl, fun _ => rfl⟩
  | cons grp rest ih =>
      intro g
      rw [List.foldl_cons]
      obtain ⟨ihn, ihb⟩ := ih (if ownsGroup g i grp then
        buildLoop i (groupPositions grp) (houseCost grp) reserve 16 g else g)
      constructor
      · rw [ihn]
        split
        · exact (buildLoop_core i (groupPositions grp) (houseCost grp) reserve 16 g).1
        · rfl
      · intro j
        rw [ihb j]
        split
        · exact (buildLoop_core i (groupPositions grp) (houseCost grp) reserve 16 g).2.2.2.2.1 j
        · rfl

@[simp] theorem tryBuild_numPlayers (g : Game) (i : Nat) :
    (tryBuild g i).numPlayers = g.numPlayers := by
  unfold tryBuild
  dsimp only
  exact (tryBuild_foldl_core i (buildReserve g.startingMoney) GROUP_LIST g).1

theorem tryBuild_bankrupt (g : Game) (i j : Nat) :
    ((tryBuild g i).players j).bankrupt = (g.players j).bankrupt := by
  unfold tryBuild
  dsimp only
  exact (tryBuild_foldl_core i (buildReserve g.startingMoney) GROUP_LIST g).2 j

theorem inv_jailTurn {g : Game} {i : Nat} (h : Inv g) (hi : i < g.numPlayers)
    (hbk : (g.players i).bankrupt = false) : Inv (jailTurn g i).1 := by
  unfold jailTurn
  dsimp only
  have h1 : Inv (setP g i fun p => { p with jailTurns := p.jailTurns + 1 }) := by
    refine inv_setP h i _ rfl rfl (fun hj => ?_) (fun hj hbj => ?_) (fun hj hbj => ?_)
    · simpa using h.posOk i hj
    · exact h.moneyOk i hj hbj
    · rfl
  split
  · have hA : Inv (setP (setP g i fun p => { p with jailTurns := p.jailTurns + 1 }) i
        fun q => { q with getOutCards := q.getOutCards - 1, inJail := false,
                          jailTurns := 0 }) := by
      refine inv_setP h1 i _ rfl rfl (fun hj => ?_) (fun hj hbj => ?_) (fun hj hbj => ?_)
      · simpa [setP_players_self] using h.posOk i hi
      · simpa [setP_players_self] using h.moneyOk i hi hbk
      · rfl
    exact hA.of_core rfl rfl rfl rfl rfl rfl
  · split
    · rename_i hpay
      have hA : Inv (setP (setP g i fun p => { p with jailTurns := p.jailTurns + 1 }) i
          fun q => { q with money := q.money - JAIL_BAIL, inJail := false,
                            jailTurns := 0 }) := by
        refine inv_setP h1 i _ rfl rfl (fun hj => ?_) (fun hj hbj => ?_) (fun hj hbj => ?_)
        · simpa [setP_players_self] using h.posOk i hi
        · exact sub_nonneg.mpr hpay.2
        · simp [setP_players_self, hbk] at hbj
      exact hA.of_core rfl rfl rfl rfl rfl rfl
    · split
      · have hR : Inv (roll (setP g i fun p =>
            { p with jailTurns := p.jailTurns + 1 })).2 :=
          h1.of_core rfl rfl rfl rfl rfl rfl
        have hA : Inv (setP (roll (setP g i fun p =>
            { p with jailTurns := p.jailTurns + 1 })).2 i
            fun q => { q with inJail := false, jailTurns := 0 }) := by
          refine inv_setP hR i _ rfl rfl
            (fun hj => ?_) (fun hj hbj => ?_) (fun hj hbj => ?_)
          · simpa [setP_players_self] using h.posOk i hi
          · simpa [setP_players_self] using h.moneyOk i hi hbk
          · rfl
        exact hA
      · exact h1.of_core rfl rfl rfl rfl rfl rfl

@[simp] theorem jailTurn_numPlayers (g : Game) (i : Nat) :
    (jailTurn g i).1.numPlayers = g.numPlayers := by
  unfold jailTurn
  dsimp only
  split
  · simp
  · split
    · simp
    · split
      · simp
      · simp

theorem jailTurn_bankrupt (g : Game) (i j : Nat) :
    ((jailTurn g i).1.players j).bankrupt = (g.players j).bankrupt := by
  unfold jailTurn
  dsimp only
  split
  · by_cases hj : j = i <;> simp [setP_players, hj]
  · split
    · by_cases hj : j = i <;> simp [setP_players, hj]
    · split
      · by_cases hj : j = i <;> simp [setP_players, hj]
      · by_cases hj : j = i <;> simp [setP_players, hj]

theorem inv_turnRest {again : Game → Nat → Game} {i : Nat}
    (hagain : ∀ g', Inv g' → i < g'.numPlayers →
      (g'.players i).bankrupt = false → Inv (again g' i))
    {g : Game} {dice : Nat} {dbl : Bool}
    (h : Inv g) (hi : i < g.numPlayers) (hbk : (g.players i).bankrupt = false) :
    Inv (turnRest again g i dice dbl) := by
  unfold turnRest
  dsimp only
  set g1 := if (g.players i).inJail = false then moveSteps g i dice else g with hg1
  have h1 : Inv g1 := by
    rw [hg1]
    split
    · exact inv_moveSteps h hi hbk
    · exact h
  have hn1 : g1.numPlayers = g.numPlayers := by
    rw [hg1]
    split <;> simp
  have h2 : Inv (applySquare g1 i dice) := inv_applySquare h1 (by rw [hn1]; exact hi)
  split
  · exact h2
  · rename_i hbk2
    rw [Bool.not_eq_true] at hbk2
    have h3 : Inv (tryBuild (applySquare g1 i dice) i) := inv_tryBuild h2
    split
    · exact h3
    · refine hagain _ h3 ?_ ?_
      · rw [tryBuild_numPlayers, applySquare_numPlayers, hn1]
        exact hi
      · rw [tryBuild_bankrupt]
        exact hbk2

theorem turnRest_numPlayers {again : Game → Nat → Game} {i : Nat}
    (hn : ∀ g', (again g' i).numPlayers = g'.numPlayers)
    (g : Game) (dice : Nat) (dbl : Bool) :
    (turnRest again g i dice dbl).numPlayers = g.numPlayers := by
  unfold turnRest
  dsimp only
  set g1 := if (g.players i).inJail = false then moveSteps g i dice else g with hg1
  have hn1 : g1.numPlayers = g.numPlayers := by
    rw [hg1]
    split <;> simp
  split
  · rw [applySquare_numPlayers, hn1]
  · split
    · rw [tryBuild_numPlayers, applySquare_numPlayers, hn1]
    · rw [hn, tryBuild_numPlayers, applySquare_numPlayers, hn1]

theorem inv_turnBody {again : Game → Nat → Game} {i : Nat}
    (hagain : ∀ g', Inv g' → i < g'.numPlayers →
      (g'.players i).bankrupt = false → Inv (again g' i))
    {g : Game} {d1 d2 : Nat}
    (h : Inv g) (hi : i < g.numPlayers) (hbk : (g.players i).bankrupt = false) :
    Inv (turnBody again g i d1 d2) := by
  unfold turnBody
  dsimp only
  have hset : Inv (setP g i fun p => { p with consecDoubles := p.consecDoubles + 1 }) := by
    refine inv_setP h i _ rfl rfl (fun hj => ?_) (fun hj hbj => ?_) (fun hj hbj => ?_)
    · simpa using h.posOk i hj
    · exact h.moneyOk i hj hbj
    · rfl
  split
  · split
    · exact inv_sendToJail hset
    · refine inv_turnRest hagain hset ?_ ?_
      · simpa using hi
      · simpa [setP_players_self] using hbk
  · exact inv_turnRest hagain h hi hbk

theorem turnBody_numPlayers {again : Game → Nat → Game} {i : Nat}
    (hn : ∀ g', (again g' i).numPlayers = g'.numPlayers)
    (g : Game) (d1 d2 : Nat) :
    (turnBody again g i d1 d2).numPlayers = g.numPlayers := by
  unfold turnBody
  dsimp only
  split
  · split
    · simp
    · rw [turnRest_numPlayers hn]
      simp
  · exact turnRest_numPlayers hn g _ _

theorem inv_turnLoop : ∀ (fuel : Nat) (g : Game) (i : Nat), Inv g → i < g.numPlayers →
    (g.players i).bankrupt = false → Inv (turnLoop fuel g i) := by
  intro fuel
  induction fuel with
  | zero => intro g i h _ _; exact h
  | succ fuel ih =>
      intro g i h hi hbk
      unfold turnLoop
      dsimp only
      split
      · split
        · rename_i g' heq
          have hJ := inv_jailTurn h hi hbk
          rw [heq] at hJ
          exact hJ
        · rename_i g' d heq
          have hJ := inv_jailTurn h hi hbk
          have hJn := jailTurn_numPlayers g i
          have hJb := jailTurn_bankrupt g i i
          rw [heq] at hJ hJn hJb
          refine inv_turnBody (fun g'' h'' hi'' hbk'' => ih g'' i h'' hi'' hbk'') hJ ?_ ?_
          · rw [hJn]; exact hi
          · rw [hJb]; exact hbk
      · refine inv_turnBody (fun g'' h'' hi'' hbk'' => ih g'' i h'' hi'' hbk'')
          (h.of_core rfl rfl rfl rfl rfl rfl) (by simpa using hi) (by simpa using hbk)

theorem turnLoop_numPlayers : ∀ (fuel : Nat) (g : Game) (i : Nat),
    (turnLoop fuel g i).numPlayers = g.numPlayers := by
  intro fuel
  induction fuel with
  | zero => intro g i; rfl
  | succ fuel ih =>
      intro g i
      unfold turnLoop
      dsimp only
      split
      · split
        · rename_i g' heq
          have hJn := jailTurn_numPlayers g i
          rw [heq] at hJn
          exact hJn
        · rename_i g' d heq
          have hJn := jailTurn_numPlayers g i
          rw [heq] at hJn
          rw [turnBody_numPlayers (fun g'' => ih g'' i)]
          exact hJn
      · rw [turnBody_numPlayers (fun g'' => ih g'' i)]
        simp

theorem inv_playTurn {g : Game} {i : Nat} (h : Inv g) (hi : i < g.numPlayers) :
    Inv (playTurn g i) := by
  unfold playTurn
  dsimp only
  split
  · exact h
  · rename_i hbk
    rw [Bool.not_eq_true] at hbk
    have hset : Inv (setP g i fun p => { p with consecDoubles := 0 }) := by
      refine inv_setP h i _ rfl rfl (fun hj => ?_) (fun hj hbj => ?_) (fun hj hbj => ?_)
      · simpa using h.posOk i hj
      · exact h.moneyOk i hj hbj
      · rfl
    have hT : Inv (turnLoop 4 (setP g i fun p => { p with consecDoubles := 0 }) i) :=
      inv_turnLoop 4 _ i hset (by simpa using hi) (by simpa [setP_players_self] using hbk)
    exact hT.of_core rfl rfl rfl rfl rfl rfl

@[simp] theorem playTurn_numPlayers (g : Game) (i : Nat) :
    (playTurn g i).numPlayers = g.numPlayers := by
  unfold playTurn
  dsimp only
  split
  · rfl
  · show (turnLoop 4 (setP g i fun p => { p with consecDoubles := 0 }) i).numPlayers
      = g.numPlayers
    rw [turnLoop_numPlayers]
    simp

theorem playRound_foldl_inv :
    ∀ (L : List Nat) (g : Game), Inv g → (∀ i ∈ L, i < g.numPlayers) →
      Inv (L.foldl (fun g i => if (g.players i).bankrupt = false then playTurn g i else g) g) := by
  intro L
  induction L with
  | nil => intro g h _; exact h
  | cons i rest ih =>
      intro g h hL
      rw [List.foldl_cons]
      have hi := hL i (List.mem_cons_self _ _)
      have hstep : Inv (if (g.players i).bankrupt = false then playTurn g i else g) := by
        split
        · exact inv_playTurn h hi
        · exact h
      refine ih _ hstep ?_
      intro j hj
      have hjn := hL j (List.mem_cons_of_mem _ hj)
      split
      · rw [playTurn_numPlayers]
        exact hjn
      · exact hjn

theorem inv_playRound {g : Game} (h : Inv g) : Inv (playRound g) := by
  unfold playRound
  refine playRound_foldl_inv _ g h ?_
  intro i hi
  exact List.mem_range.mp hi

theorem playRound_foldl_numPlayers :
    ∀ (L : List Nat) (g : Game),
      (L.foldl (fun g i => if (g.players i).bankrupt = false then playTurn g i else g)
        g).numPlayers = g.numPlayers := by
  intro L
  induction L with
  | nil => intro g; rfl
  | cons i rest ih =>
      intro g
      rw [List.foldl_cons, ih]
      split
      · simp
      · rfl

@[simp] theorem playRound_numPlayers (g : Game) : (playRound g).numPlayers = g.numPlayers := by
  unfold playRound
  exact playRound_foldl_numPlayers _ g

theorem inv_initGame (n : Nat) (sm : Int) (rng : Nat → Nat) (hsm : 0 < sm) :
    Inv (initGame n sm rng) := by
  refine ⟨hsm, ?_, ?_, ?_, ?_, ?_, ?_, ?_, ?_, ?_⟩
  · intro i hi hbi
    exact le_of_lt hsm
  · intro i hi hbi
    exact Bool.noConfusion hbi
  · intro i hi
    show (0 : Nat) < 40
    decide
  · intro pos o hpo
    exact Option.noConfusion hpo
  · intro i hi pos hpos
    exact absurd hpos (List.not_mem_nil _)
  · intro pos hb
    exact absurd hb (lt_irrefl 0)
  · intro pos hm
    exact Bool.noConfusion hm
  · intro c hc
    exact makeDeck_mem hc
  · intro c hc
    exact makeDeck_mem hc

/-- States reachable from a freshly constructed game (positive starting money)
by whole simulated rounds. -/
inductive Reachable : Game → Prop where
  | init (n : Nat) (sm : Int) (rng : Nat → Nat) (hsm : 0 < sm) :
      Reachable (initGame n sm rng)
  | step {g : Game} (hr : Reachable g) : Reachable (playRound g)

theorem inv_reachable {g : Game} (h : Reachable g) : Inv g := by
  induction h with
  | init n sm rng hsm => exact inv_initGame n sm rng hsm
  | step hr ih => exact inv_playRound ih

/-- C4: in every reachable game state every non-bankrupt player's cash is
non-negative, and each money-moving operation — charging with liquidation,
the jail turn (bail payment), the pay-each and receive-from-each card loops,
and house building — preserves this: starting from an invariant state none of
them leaves a solvent player with negative cash. -/
theorem claim_C4 :
    (∀ g : Game, Reachable g → ∀ i, i < g.numPlayers →
      (g.players i).bankrupt = false → 0 ≤ (g.players i).money) ∧
    (∀ (g : Game) (i : Nat) (amount : Int) (copt : Option Nat),
      Inv g → i < g.numPlayers → (g.players i).bankrupt = false → 0 ≤ amount →
      (∀ c, copt = some c → c < g.numPlayers) →
      ∀ j, j < g.numPlayers → ((chargeM g i amount copt).1.players j).bankrupt = false →
        0 ≤ ((chargeM g i amount copt).1.players j).money) ∧
    (∀ (g : Game) (i : Nat), Inv g → i < g.numPlayers →
      (g.players i).bankrupt = false →
      ∀ j, j < g.numPlayers → ((jailTurn g i).1.players j).bankrupt = false →
        0 ≤ ((jailTurn g i).1.players j).money) ∧
    (∀ (g : Game) (i : Nat) (v : Int), Inv g → i < g.numPlayers → 0 ≤ v →
      ∀ j, j < g.numPlayers →
        ((payEachLoop i v g (activeOthers g i)).players j).bankrupt = false →
        0 ≤ ((payEachLoop i v g (activeOthers g i)).players j).money) ∧
    (∀ (g : Game) (i : Nat) (v : Int), Inv g → i < g.numPlayers →
      (g.players i).bankrupt = false → 0 ≤ v →
      ∀ j, j < g.numPlayers →
        ((receiveFromEachLoop i v g (activeOthers g i)).players j).bankrupt = false →
        0 ≤ ((receiveFromEachLoop i v g (activeOthers g i)).players j).money) ∧
    (∀ (g : Game) (i : Nat), Inv g →
      ∀ j, j < g.numPlayers → ((tryBuild g i).players j).bankrupt = false →
        0 ≤ ((tryBuild g i).players j).money) := by
  refine ⟨?_, ?_, ?_, ?_, ?_, ?_⟩
  · intro g hr i hi hbk
    exact (inv_reachable hr).moneyOk i hi hbk
  · intro g i amount copt h hi hbk ha hcn j hj hbj
    exact (inv_chargeM h hi hbk ha hcn).moneyOk j (by simpa using hj) hbj
  · intro g i h hi hbk j hj hbj
    exact (inv_jailTurn h hi hbk).moneyOk j (by simpa using hj) hbj
  · intro g i v h hi hv j hj hbj
    have hL := inv_payEachLoop hv (activeOthers g i) g h hi (fun q hq => activeOthers_spec hq)
    refine hL.moneyOk j ?_ hbj
    rw [payEachLoop_numPlayers]
    exact hj
  · intro g i v h hi hbk hv j hj hbj
    have hL := inv_receiveFromEachLoop hv (activeOthers g i) g h hi hbk
      (fun q hq => activeOthers_spec hq)
    refine hL.moneyOk j ?_ hbj
    rw [receiveFromEachLoop_numPlayers]
    exact hj
  · intro g i h j hj hbj
    exact (inv_tryBuild h).moneyOk j (by simpa using hj) hbj

theorem claim_C4_witness :
    ((initGame 2 250000 rng0).players 0).bankrupt = false ∧
      0 ≤ ((initGame 2 250000 rng0).players 0).money :=
  ⟨rfl, claim_C4.1 _ (Reachable.init 2 250000 rng0 (by decide)) 0 (by decide) rfl⟩

/-- C8: every reachable state satisfies the ownership-record invariant —
buildings only on unmortgaged squares of kind property, and a mortgaged
square always has an owner — and the invariant is preserved by liquidation
(`raiseFunds`), bankruptcy resolution in both its transfer and its
return-to-bank form (`doBankrupt`), building (`tryBuild`) and the
purchase / rent branch (`resolveOwnable`). -/
theorem claim_C8 :
    (∀ g : Game, Reachable g → ∀ pos,
      (0 < (g.ownership pos).buildings →
        (g.ownership pos).mortgaged = false ∧ (board pos).type = SqType.property) ∧
      ((g.ownership pos).mortgaged = true → (g.ownership pos).owner ≠ none)) ∧
    (∀ (g : Game) (i : Nat) (needed : Int), Inv g → i < g.numPlayers →
      (g.players i).bankrupt = false → ∀ pos,
      (0 < ((raiseFunds g i needed).ownership pos).buildings →
        ((raiseFunds g i needed).ownership pos).mortgaged = false ∧
          (board pos).type = SqType.property) ∧
      (((raiseFunds g i needed).ownership pos).mortgaged = true →
        ((raiseFunds g i needed).ownership pos).owner ≠ none)) ∧
    (∀ (g : Game) (i : Nat) (copt : Option Nat), Inv g → i < g.numPlayers →
      (g.players i).bankrupt = false →
      (∀ pos ∈ (g.players i).properties, (g.ownership pos).buildings = 0) →
      (∀ c, copt = some c → c < g.numPlayers) → ∀ pos,
      (0 < ((doBankrupt g i copt).ownership pos).buildings →
        ((doBankrupt g i copt).ownership pos).mortgaged = false ∧
          (board pos).type = SqType.property) ∧
      (((doBankrupt g i copt).ownership pos).mortgaged = true →
        ((doBankrupt g i copt).ownership pos).owner ≠ none)) ∧
    (∀ (g : Game) (i : Nat), Inv g → ∀ pos,
      (0 < ((tryBuild g i).ownership pos).buildings →
        ((tryBuild g i).ownership pos).mortgaged = false ∧
          (board pos).type = SqType.property) ∧
      (((tryBuild g i).ownership pos).mortgaged = true →
        ((tryBuild g i).ownership pos).owner ≠ none)) ∧
    (∀ (g : Game) (i pos dice : Nat), Inv g → i < g.numPlayers →
      (g.players i).bankrupt = false → pos < 40 → Purchasable pos → ∀ q,
      (0 < ((resolveOwnable g i pos dice).ownership q).buildings →
        ((resolveOwnable g i pos dice).ownership q).mortgaged = false ∧
          (board q).type = SqType.property) ∧
      (((resolveOwnable g i pos dice).ownership q).mortgaged = true →
        ((resolveOwnable g i pos dice).ownership q).owner ≠ none)) := by
  refine ⟨?_, ?_, ?_, ?_, ?_⟩
  · intro g hr pos
    exact ⟨(inv_reachable hr).buildOk pos, (inv_reachable hr).mortOk pos⟩
  · intro g i needed h hi hbk pos
    exact ⟨(inv_raiseFunds h hi hbk).buildOk pos, (inv_raiseFunds h hi hbk).mortOk pos⟩
  · intro g i copt h hi hbk hbz hcn pos
    exact ⟨(inv_doBankrupt h hi hbk hbz hcn).buildOk pos,
           (inv_doBankrupt h hi hbk hbz hcn).mortOk pos⟩
  · intro g i h pos
    exact ⟨(inv_tryBuild h).buildOk pos, (inv_tryBuild h).mortOk pos⟩
  · intro g i pos dice h hi hbk hpos hpurch q
    exact ⟨(inv_resolveOwnable h hi hbk hpos hpurch).buildOk q,
           (inv_resolveOwnable h hi hbk hpos hpurch).mortOk q⟩

theorem claim_C8_witness :
    (0 < ((initGame 2 250000 rng0).ownership 1).buildings →
      ((initGame 2 250000 rng0).ownership 1).mortgaged = false ∧
        (board 1).type = SqType.property) ∧
    (((initGame 2 250000 rng0).ownership 1).mortgaged = true →
      ((initGame 2 250000 rng0).ownership 1).owner ≠ none) :=
  claim_C8.1 _ (Reachable.init 2 250000 rng0 (by decide)) 1

/-- C10: no reachable state records a bankrupt player as the owner of any
square, and each operation that installs or moves owners — the purchase /
rent branch, bankruptcy resolution, and card application (including the
nearest-station rent, which does not itself re-check the owner) — keeps every
recorded owner an in-range, solvent player. -/
theorem claim_C10 :
    (∀ g : Game, Reachable g → ∀ pos o, (g.ownership pos).owner = some o →
      o < g.numPlayers ∧ (g.players o).bankrupt = false) ∧
    (∀ (g : Game) (i pos dice : Nat), Inv g → i < g.numPlayers →
      (g.players i).bankrupt = false → pos < 40 → Purchasable pos →
      ∀ q o, ((resolveOwnable g i pos dice).ownership q).owner = some o →
        o < (resolveOwnable g i pos dice).numPlayers ∧
          ((resolveOwnable g i pos dice).players o).bankrupt = false) ∧
    (∀ (g : Game) (i : Nat) (copt : Option Nat), Inv g → i < g.numPlayers →
      (g.players i).bankrupt = false →
      (∀ pos ∈ (g.players i).properties, (g.ownership pos).buildings = 0) →
      (∀ c, copt = some c → c < g.numPlayers) →
      ∀ q o, ((doBankrupt g i copt).ownership q).owner = some o →
        o < (doBankrupt g i copt).numPlayers ∧
          ((doBankrupt g i copt).players o).bankrupt = false) ∧
    (∀ (g : Game) (i dice : Nat) (card : CardEff), Inv g → i < g.numPlayers →
      (g.players i).bankrupt = false → CardOk card →
      ∀ q o, ((applyCard g i card dice).ownership q).owner = some o →
        o < (applyCard g i card dice).numPlayers ∧
          ((applyCard g i card dice).players o).bankrupt = false) := by
  refine ⟨?_, ?_, ?_, ?_⟩
  · intro g hr pos o ho
    have h1 := (inv_reachable hr).ownerOk pos o ho
    exact ⟨h1.1, h1.2.1⟩
  · intro g i pos dice h hi hbk hpos hpurch q o ho
    have h1 := (inv_resolveOwnable h hi hbk hpos hpurch).ownerOk q o ho
    exact ⟨h1.1, h1.2.1⟩
  · intro g i copt h hi hbk hbz hcn q o ho
    have h1 := (inv_doBankrupt h hi hbk hbz hcn).ownerOk q o ho
    exact ⟨h1.1, h1.2.1⟩
  · intro g i dice card h hi hbk hcard q o ho
    have hA : Inv (applyCard g i card dice) := by
      unfold applyCard
      exact inv_applyCardWith (fun g' h' hi' => inv_applySquareF 4 g' i dice h' hi')
        h hi hbk hcard
    have h1 := hA.ownerOk q o ho
    exact ⟨h1.1, h1.2.1⟩

theorem claim_C10_witness :
    ((resolveOwnable (initGame 2 250000 rng0) 0 8 7).ownership 8).owner = some 0 ∧
      (0 < (resolveOwnable (initGame 2 250000 rng0) 0 8 7).numPlayers ∧
        ((resolveOwnable (initGame 2 250000 rng0) 0 8 7).players 0).bankrupt = false) :=
  ⟨by decide,
   claim_C10.2.1 _ 0 8 7 (inv_initGame 2 250000 rng0 (by decide)) (by decide) rfl
     (by decide) (by decide) 8 0 (by decide)⟩

def roundOneDie : Nat → Nat
  | 0 => 1 | 1 => 1 | 2 => 2 | 3 => 2 | _ => 0

/-- Oracle driving the round-ceiling counterexample: three forced double
rolls jail both players in round 1, non-double rolls stall them in jail for
rounds 2..9999, and a (6,6) releases player 1 in round 10000 onto the
community square, whose top card (pay 7500) bankrupts them — ending the game
by elimination exactly at round `MAX_ROUNDS` with `timedOut = false`. -/
def oracleC1 (n : Nat) : Nat :=
  if n < 30 then (if n = 15 then 9 else 0)
  else if n < 42 then roundOneDie ((n - 30) % 6)
  else if n < 40036 then n % 2
  else 5

def communityC1rest : List CardEff :=
  [.moveTo 0, .receive 10000, .pay 2500, .receive 2500, .goToJail,
   .receiveFromEach 500, .receive 1000, .receive 5000, .receive 5000, .pay 5000,
   .receive 500, .receive 12500, .repairs 2000 5750, .receive 1250, .getOutOfJail]

/-- The community deck as built by `initGame 2 1 oracleC1` (index-9 card
drawn first by the oracle, the rest in catalog order, jail card last). -/
def communityC1 : List CardEff := .pay 7500 :: communityC1rest

/-- Both players' state during the stalled-in-jail rounds. -/
def c1Player (t : Nat) : Player :=
  { money := 1, position := 10, inJail := true, jailTurns := t,
    getOutCards := 0, bankrupt := false, properties := [], consecDoubles := 0 }

theorem game_ext {a b : Game}
    (h1 : a.numPlayers = b.numPlayers) (h2 : a.startingMoney = b.startingMoney)
    (h3 : a.players = b.players) (h4 : a.ownership = b.ownership)
    (h5 : a.chanceDeck = b.chanceDeck) (h6 : a.communityDeck = b.communityDeck)
    (h7 : a.turnCount = b.turnCount) (h8 : a.rng = b.rng) (h9 : a.k = b.k)
    (h10 : a.bankruptOrder = b.bankruptOrder) (h11 : a.peakCash = b.peakCash)
    (h12 : a.propsBought = b.propsBought) (h13 : a.rentPaid = b.rentPaid)
    (h14 : a.rentReceived = b.rentReceived) (h15 : a.goRewards = b.goRewards)
    (h16 : a.totalTaxPaid = b.totalTaxPaid) : a = b := by
  cases a
  cases b
  simp_all

theorem oracleC1_even {n : Nat} (h1 : 42 ≤ n) (h2 : n < 40036) (he : n % 2 = 0) :
    oracleC1 n = 0 := by
  unfold oracleC1
  rw [if_neg (by omega), if_neg (by omega), if_pos h2, he]

theorem oracleC1_odd {n : Nat} (h1 : 42 ≤ n) (h2 : n < 40036) (he : n % 2 = 1) :
    oracleC1 n = 1 := by
  unfold oracleC1
  rw [if_neg (by omega), if_neg (by omega), if_pos h2, he]

theorem oracleC1_big {n : Nat} (h1 : 40036 ≤ n) : oracleC1 n = 5 := by
  unfold oracleC1
  rw [if_neg (by omega), if_neg (by omega), if_neg (by omega)]

theorem runAux_spec : ∀ (fuel rc : Nat) (g : Game), fuel + rc = MAX_ROUNDS → 1 ≤ fuel →
    (runAux fuel rc g).rounds ≤ MAX_ROUNDS ∧
    ((runAux fuel rc g).timedOut = true ↔
      ((runAux fuel rc g).rounds = MAX_ROUNDS ∧
        2 ≤ (activeIds (runAux fuel rc g).g).length)) := by
  intro fuel
  induction fuel with
  | zero => intro rc g hsum h1; omega
  | succ fuel ih =>
      intro rc g hsum h1
      unfold runAux
      dsimp only
      split
      · rename_i hact
        dsimp only
        refine ⟨by omega, ?_, ?_⟩
        · intro hto
          exact Bool.noConfusion hto
        · intro hx
          exfalso
          obtain ⟨hx1, hx2⟩ := hx
          omega
      · split
        · rename_i hact hrc
          dsimp only
          refine ⟨by omega, fun _ => ⟨by omega, by omega⟩, fun _ => rfl⟩
        · rename_i hact hrc
          exact ih (rc + 1) (playRound g) (by omega) (by omega)

/-- C1 (amended): the recorded round count never exceeds `MAX_ROUNDS`, and
the `timedOut` flag is true exactly when the count reached the ceiling AND at
least two players were still active at that point.  The original claim's
plain "iff round count reached the ceiling" is refuted by
`claim_C1_counterexample`: a game decided by elimination exactly in round
`MAX_ROUNDS` records `rounds = MAX_ROUNDS` with `timedOut = false`. -/
theorem claim_C1_amended (g : Game) :
    (run g).rounds ≤ MAX_ROUNDS ∧
    ((run g).timedOut = true ↔
      ((run g).rounds = MAX_ROUNDS ∧ 2 ≤ (activeIds (run g).g).length)) :=
  runAux_spec MAX_ROUNDS 0 g rfl (by decide)

/-- A turn of a jailed player with 1 in cash and no get-out card who rolls a
non-double: jail turn counter up, two oracle values consumed, turn counted,
nothing else. -/
theorem playTurn_jail_stall (g : Game) (i t : Nat)
    (hp : g.players i = c1Player t)
    (hd : g.rng g.k % 6 + 1 ≠ g.rng (g.k + 1) % 6 + 1) :
    playTurn g i = { g with
      players := fun j => if j = i then c1Player (t + 1) else g.players j,
      k := g.k + 2, turnCount := g.turnCount + 1 } := by
  have hp1 : (setP g i fun p => { p with consecDoubles := 0 }).players i = c1Player t := by
    rw [setP_players_self, hp]
    rfl
  have hjt : jailTurn (setP g i fun p => { p with consecDoubles := 0 }) i
      = ({ setP (setP g i fun p => { p with consecDoubles := 0 }) i
            (fun p => { p with jailTurns := p.jailTurns + 1 }) with k := g.k + 2 }, none) := by
    unfold jailTurn roll
    dsimp only
    rw [setP_players_self, hp1]
    norm_num [c1Player, JAIL_BAIL, setP_rng, setP_k]
    intro hcon
    exact absurd (congrArg (fun x => x + 1) hcon) hd
  have hloop : turnLoop 4 (setP g i fun p => { p with consecDoubles := 0 }) i
      = { setP (setP g i fun p => { p with consecDoubles := 0 }) i
            (fun p => { p with jailTurns := p.jailTurns + 1 }) with k := g.k + 2 } := by
    unfold turnLoop
    dsimp only
    have hj1 : (c1Player t).inJail = true := rfl
    rw [hp1, if_pos hj1, hjt]
  unfold playTurn
  dsimp only
  rw [hp]
  rw [if_neg (show ¬((c1Player t).bankrupt = true) by simp [c1Player])]
  rw [hloop]
  refine game_ext ?_ ?_ ?_ ?_ ?_ ?_ ?_ ?_ ?_ ?_ ?_ ?_ ?_ ?_ ?_ ?_
  · rfl
  · rfl
  · funext j
    by_cases hj : j = i
    · subst hj
      show (setP (setP g j fun p => { p with consecDoubles := 0 }) j
          (fun p => { p with jailTurns := p.jailTurns + 1 })).players j
        = if j = j then c1Player (t + 1) else g.players j
      rw [setP_players_self, setP_players_self, hp, if_pos rfl]
      rfl
    · show (setP (setP g i fun p => { p with consecDoubles := 0 }) i
          (fun p => { p with jailTurns := p.jailTurns + 1 })).players j
        = if j = i then c1Player (t + 1) else g.players j
      rw [setP_players_other _ _ _ _ hj, setP_players_other _ _ _ _ hj, if_neg hj]
  · rfl
  · rfl
  · rfl
  · rfl
  · rfl
  · rfl
  · rfl
  · rfl
  · rfl
  · rfl
  · rfl
  · rfl
  · rfl

/-- Shape of the counterexample game at the start of round `n` (`2 ≤ n`):
both players stalled in jail with `n - 2` jail turns served and the oracle
cursor at `42 + 4 * (n - 2)`. -/
structure IsCf (n : Nat) (g : Game) : Prop where
  np : g.numPlayers = 2
  p0 : g.players 0 = c1Player (n - 2)
  p1 : g.players 1 = c1Player (n - 2)
  cd : g.communityDeck = communityC1
  hr : g.rng = oracleC1
  hk : g.k = 42 + 4 * (n - 2)

theorem isCf_step {n : Nat} {g : Game} (h2 : 2 ≤ n) (h9 : n ≤ 9999) (h : IsCf n g) :
    IsCf (n + 1) (playRound g) := by
  have hd0 : g.rng g.k % 6 + 1 ≠ g.rng (g.k + 1) % 6 + 1 := by
    rw [h.hr, h.hk]
    rw [oracleC1_even (by omega) (by omega) (by omega),
        oracleC1_odd (by omega) (by omega) (by omega)]
    decide
  have hs0 := playTurn_jail_stall g 0 (n - 2) h.p0 hd0
  set g1 : Game := { g with
      players := fun j => if j = 0 then c1Player (n - 2 + 1) else g.players j,
      k := g.k + 2, turnCount := g.turnCount + 1 } with hg1
  have hd1 : g1.rng g1.k % 6 + 1 ≠ g1.rng (g1.k + 1) % 6 + 1 := by
    rw [hg1]
    show g.rng (g.k + 2) % 6 + 1 ≠ g.rng (g.k + 2 + 1) % 6 + 1
    rw [h.hr, h.hk]
    rw [oracleC1_even (by omega) (by omega) (by omega),
        oracleC1_odd (by omega) (by omega) (by omega)]
    decide
  have hp1' : g1.players 1 = c1Player (n - 2) := by
    rw [hg1]
    show (if (1 : Nat) = 0 then c1Player (n - 2 + 1) else g.players 1) = c1Player (n - 2)
    rw [if_neg (by decide)]
    exact h.p1
  have hs1 := playTurn_jail_stall g1 1 (n - 2) hp1' hd1
  have hpr : playRound g = playTurn g1 1 := by
    unfold playRound
    rw [h.np, (by decide : List.range 2 = [0, 1])]
    rw [List.foldl_cons, List.foldl_cons, List.foldl_nil]
    rw [h.p0]
    rw [if_pos (show (c1Player (n - 2)).bankrupt = false from rfl)]
    rw [hs0]
    rw [hp1']
    rw [if_pos (show (c1Player (n - 2)).bankrupt = false from rfl)]
  rw [hpr, hs1]
  have he : n - 2 + 1 = n + 1 - 2 := by omega
  refine ⟨h.np, ?_, ?_, h.cd, h.hr, ?_⟩
  · show (if (0 : Nat) = 1 then c1Player (n - 2 + 1) else g1.players 0) = c1Player (n + 1 - 2)
    rw [if_neg (by decide), hg1]
    show (if (0 : Nat) = 0 then c1Player (n - 2 + 1) else g.players 0) = c1Player (n + 1 - 2)
    rw [if_pos rfl, he]
  · show (if (1 : Nat) = 1 then c1Player (n - 2 + 1) else g1.players 1) = c1Player (n + 1 - 2)
    rw [if_pos rfl, he]
  · show g.k + 2 + 2 = 42 + 4 * (n + 1 - 2)
    rw [h.hk]
    omega

/-- The releasing turn: a jailed player with 1 in cash rolls (6,6), lands on
square 22 (community), draws the pay-7500 card and goes bankrupt; no other
player is touched. -/
theorem playTurn_jail_escape (g : Game) (t : Nat)
    (hp : g.players 1 = c1Player t)
    (hcd : g.communityDeck = communityC1)
    (hr1 : g.rng g.k = 5) (hr2 : g.rng (g.k + 1) = 5) :
    ((playTurn g 1).players 1).bankrupt = true ∧
    (∀ j, j ≠ 1 → (playTurn g 1).players j = g.players j) ∧
    (playTurn g 1).numPlayers = g.numPlayers := by
  have hpA : (setP g 1 fun p => { p with consecDoubles := 0 }).players 1 = c1Player t := by
    rw [setP_players_self, hp]
    rfl
  have hjtE : jailTurn (setP g 1 fun p => { p with consecDoubles := 0 }) 1
      = (setP { setP (setP g 1 fun p => { p with consecDoubles := 0 }) 1
            (fun p => { p with jailTurns := p.jailTurns + 1 }) with k := g.k + 2 } 1
            (fun q => { q with inJail := false, jailTurns := 0 }),
         some (6, 6)) := by
    unfold jailTurn roll
    dsimp only
    rw [setP_players_self, hpA]
    norm_num [c1Player, JAIL_BAIL, setP_rng, setP_k, hr1, hr2]
  set gD : Game := setP { setP (setP g 1 fun p => { p with consecDoubles := 0 }) 1
      (fun p => { p with jailTurns := p.jailTurns + 1 }) with k := g.k + 2 } 1
      (fun q => { q with inJail := false, jailTurns := 0 }) with hgD
  have hpD : gD.players 1 = ⟨1, 10, false, 0, 0, false, [], 0⟩ := by
    rw [hgD, setP_players_self]
    show (fun q : Player => { q with inJail := false, jailTurns := 0 })
        ((setP (setP g 1 fun p => { p with consecDoubles := 0 }) 1
          (fun p => { p with jailTurns := p.jailTurns + 1 })).players 1) = _
    rw [setP_players_self, hpA]
    rfl
  set gE : Game := setP gD 1 (fun p => { p with consecDoubles := p.consecDoubles + 1 })
    with hgE
  have hpE : gE.players 1 = ⟨1, 10, false, 0, 0, false, [], 1⟩ := by
    rw [hgE, setP_players_self, hpD]
  set gF : Game := setP gE 1 (fun p => { p with position := 22 }) with hgF
  have hpF : gF.players 1 = ⟨1, 22, false, 0, 0, false, [], 1⟩ := by
    rw [hgF, setP_players_self, hpE]
  have hmv : moveSteps gE 1 (6 + 6) = gF := by
    unfold moveSteps
    dsimp only
    rw [hpE]
    norm_num [BOARD_SIZE, GO_REWARD]
  have hcdF : gF.communityDeck = communityC1 := hcd
  have hdraw : drawCommunity gF = (.pay 7500, { gF with communityDeck := communityC1rest }) := by
    unfold drawCommunity
    rw [hcdF]
    rfl
  set gG : Game := { gF with communityDeck := communityC1rest } with hgG
  set gH : Game := addTaxPaid gG 1 7500 with hgH
  have hpH : gH.players 1 = ⟨1, 22, false, 0, 0, false, [], 1⟩ := hpF
  have hsell : sellBuildings 1 7500 gH (gH.players 1).properties = gH := by
    rw [hpH]
    rfl
  have hrf : raiseFunds gH 1 7500 = gH := by
    unfold raiseFunds
    dsimp only
    rw [hsell, hpH]
    rfl
  set gB1 : Game := setP gH 1 (fun p => { p with bankrupt := true }) with hgB1
  set gJ2 : Game := { gB1 with bankruptOrder := gB1.bankruptOrder ++ [1] } with hgJ2
  have hpJ2 : gJ2.players 1 = ⟨1, 22, false, 0, 0, true, [], 1⟩ := by
    show gB1.players 1 = _
    rw [hgB1, setP_players_self, hpH]
  have hbank : doBankrupt gH 1 none
      = setP (setP gJ2 1 (fun p => { p with properties := [] })) 1
          (fun p => { p with money := 0 }) := by
    show setP (setP (returnAll gJ2 ((gJ2.players 1).properties)) 1
        (fun p => { p with properties := [] })) 1 (fun p => { p with money := 0 }) = _
    rw [hpJ2]
    rfl
  have hcharge : chargeM gH 1 7500 none = (doBankrupt gH 1 none, false) := by
    unfold chargeM
    dsimp only
    rw [hpH]
    rw [if_pos (show ((⟨1, 22, false, 0, 0, false, [], 1⟩ : Player)).money < 7500 by norm_num)]
    rw [hrf]
    rw [hpH]
    rw [if_neg (show ¬((7500 : Int) ≤ ((⟨1, 22, false, 0, 0, false, [], 1⟩ : Player)).money)
      by norm_num)]
  set gK : Game := setP (setP gJ2 1 (fun p => { p with properties := [] })) 1
      (fun p => { p with money := 0 }) with hgK
  have hpK : gK.players 1 = ⟨0, 22, false, 0, 0, true, [], 1⟩ := by
    rw [hgK, setP_players_self]
    show (fun p : Player => { p with money := 0 })
        ((setP gJ2 1 fun p => { p with properties := [] }).players 1) = _
    rw [setP_players_self, hpJ2]
  have hsq : applySquareF 4 gF 1 (6 + 6) = gK := by
    unfold applySquareF
    dsimp only
    rw [hpF]
    rw [if_neg (show ¬(((⟨1, 22, false, 0, 0, false, [], 1⟩ : Player)).bankrupt = true)
      by decide)]
    show applyCardWith (applySquareF 3) (drawCommunity gF).2 1 (drawCommunity gF).1 (6 + 6) = gK
    rw [hdraw]
    show (chargeM gH 1 7500 none).1 = gK
    rw [hcharge]
    show doBankrupt gH 1 none = gK
    rw [hbank, hgK]
  have hrest : turnRest (turnLoop 3) gE 1 (6 + 6) true = gK := by
    unfold turnRest applySquare
    dsimp only
    rw [hpE]
    rw [if_pos (show ((⟨1, 10, false, 0, 0, false, [], 1⟩ : Player)).inJail = false from rfl)]
    rw [hmv, hsq]
    rw [hpK]
    rw [if_pos (show ((⟨0, 22, false, 0, 0, true, [], 1⟩ : Player)).bankrupt = true from rfl)]
  have hloopE : turnLoop 4 (setP g 1 fun p => { p with consecDoubles := 0 }) 1 = gK := by
    unfold turnLoop
    dsimp only
    rw [hpA, if_pos (show (c1Player t).inJail = true from rfl), hjtE]
    show turnBody (turnLoop 3) gD 1 6 6 = gK
    unfold turnBody
    dsimp only
    rw [hpD]
    rw [if_pos (show (6 = 6) ∧
      (((⟨1, 10, false, 0, 0, false, [], 0⟩ : Player)).inJail = false) from ⟨rfl, rfl⟩)]
    rw [setP_players_self]
    rw [hpD]
    norm_num
    exact hrest
  have hfin : playTurn g 1 = { gK with turnCount := gK.turnCount + 1 } := by
    unfold playTurn
    dsimp only
    rw [hp]
    rw [if_neg (show ¬((c1Player t).bankrupt = true) by simp [c1Player])]
    rw [hloopE]
  rw [hfin]
  refine ⟨?_, ?_, ?_⟩
  · show (gK.players 1).bankrupt = true
    rw [hpK]
  · intro j hj
    show gK.players j = g.players j
    rw [hgK, setP_players_other _ _ _ _ hj, setP_players_other _ _ _ _ hj]
    show gB1.players j = g.players j
    rw [hgB1, setP_players_other _ _ _ _ hj]
    show gF.players j = g.players j
    rw [hgF, setP_players_other _ _ _ _ hj]
    show gE.players j = g.players j
    rw [hgE, setP_players_other _ _ _ _ hj]
    show gD.players j = g.players j
    rw [hgD, setP_players_other _ _ _ _ hj]
    show (setP (setP g 1 fun p => { p with consecDoubles := 0 }) 1
        (fun p => { p with jailTurns := p.jailTurns + 1 })).players j = g.players j
    rw [setP_players_other _ _ _ _ hj, setP_players_other _ _ _ _ hj]
  · rfl

theorem isCf_active {n : Nat} {g : Game} (h : IsCf n g) : activeIds g = [0, 1] := by
  unfold activeIds
  rw [h.np, (by decide : List.range 2 = [0, 1])]
  simp [List.filter, h.p0, h.p1, c1Player]

/-- In round 10000 player 0 stalls once more and player 1 escapes on (6,6),
landing on the community square and going bankrupt on the pay-7500 card:
only player 0 stays active. -/
theorem cf_final {g : Game} (h : IsCf 10000 g) : activeIds (playRound g) = [0] := by
  have hd0 : g.rng g.k % 6 + 1 ≠ g.rng (g.k + 1) % 6 + 1 := by
    rw [h.hr, h.hk]
    rw [oracleC1_even (by omega) (by omega) (by omega),
        oracleC1_odd (by omega) (by omega) (by omega)]
    decide
  have hs0 := playTurn_jail_stall g 0 (10000 - 2) h.p0 hd0
  set g1 : Game := { g with
      players := fun j => if j = 0 then c1Player (10000 - 2 + 1) else g.players j,
      k := g.k + 2, turnCount := g.turnCount + 1 } with hg1
  have hp1' : g1.players 1 = c1Player (10000 - 2) := by
    rw [hg1]
    show (if (1 : Nat) = 0 then c1Player (10000 - 2 + 1) else g.players 1)
      = c1Player (10000 - 2)
    rw [if_neg (by decide)]
    exact h.p1
  have hcd1 : g1.communityDeck = communityC1 := h.cd
  have hr1' : g1.rng g1.k = 5 := by
    rw [hg1]
    show g.rng (g.k + 2) = 5
    rw [h.hr, h.hk]
    exact oracleC1_big (by omega)
  have hr2' : g1.rng (g1.k + 1) = 5 := by
    rw [hg1]
    show g.rng (g.k + 2 + 1) = 5
    rw [h.hr, h.hk]
    exact oracleC1_big (by omega)
  have hesc := playTurn_jail_escape g1 (10000 - 2) hp1' hcd1 hr1' hr2'
  have hpr : playRound g = playTurn g1 1 := by
    unfold playRound
    rw [h.np, (by decide : List.range 2 = [0, 1])]
    rw [List.foldl_cons, List.foldl_cons, List.foldl_nil]
    rw [h.p0]
    rw [if_pos (show (c1Player (10000 - 2)).bankrupt = false from rfl)]
    rw [hs0]
    rw [hp1']
    rw [if_pos (show (c1Player (10000 - 2)).bankrupt = false from rfl)]
  rw [hpr]
  obtain ⟨hb1, hoth, hnp⟩ := hesc
  have hb0 : ((playTurn g1 1).players 0).bankrupt = false := by
    rw [hoth 0 (by decide)]
    rw [hg1]
    show (if (0 : Nat) = 0 then c1Player (10000 - 2 + 1) else g.players 0).bankrupt = false
    rw [if_pos rfl]
    rfl
  have hnp2 : (playTurn g1 1).numPlayers = 2 := by
    rw [hnp, hg1]
    exact h.np
  unfold activeIds
  rw [hnp2, (by decide : List.range 2 = [0, 1])]
  simp [List.filter, hb0, hb1]

theorem runAux_cf : ∀ d : Nat, d ≤ 9998 → ∀ g : Game, IsCf (10000 - d) g →
    (runAux (d + 1) (10000 - d - 1) g).rounds = 10000 ∧
    (runAux (d + 1) (10000 - d - 1) g).timedOut = false := by
  intro d
  induction d with
  | zero =>
      intro hd g h
      have hact := cf_final h
      constructor
      · unfold runAux
        dsimp only
        rw [hact]
        norm_num
      · unfold runAux
        dsimp only
        rw [hact]
        norm_num
  | succ d ih =>
      intro hd g h
      have hstep := isCf_step (n := 10000 - (d + 1)) (by omega) (by omega) h
      have hstep' : IsCf (10000 - d) (playRound g) := by
        rw [show 10000 - (d + 1) + 1 = 10000 - d by omega] at hstep
        exact hstep
      have hih := ih (by omega) (playRound g) hstep'
      have hact := isCf_active hstep'
      unfold runAux
      dsimp only
      rw [hact]
      rw [if_neg (by norm_num)]
      rw [if_neg (show ¬(MAX_ROUNDS ≤ 10000 - (d + 1) - 1 + 1) by
        simp only [MAX_ROUNDS]; omega)]
      rw [show 10000 - (d + 1) - 1 + 1 = 10000 - d - 1 by omega]
      exact hih

theorem runAux_cons {f rc : Nat} {x : Game} (ha : 2 ≤ (activeIds (playRound x)).length)
    (hm : ¬ MAX_ROUNDS ≤ rc + 1) :
    runAux (f + 1) rc x = runAux f (rc + 1) (playRound x) := by
  conv_lhs => rw [runAux]
  rw [if_neg (by omega), if_neg hm]

/-- C1 is refuted in its "iff" direction: this concrete game, built by the
constructor from 2 players, starting money 1 and the stated dice oracle, is
decided by elimination exactly in round `MAX_ROUNDS`, so its recorded round
count reaches the ceiling while `timedOut` is `false`. -/
theorem claim_C1_counterexample :
    (run (initGame 2 1 oracleC1)).rounds = MAX_ROUNDS ∧
    (run (initGame 2 1 oracleC1)).timedOut = false := by
  have hcf2 : IsCf 2 (playRound (initGame 2 1 oracleC1)) :=
    ⟨by decide, by decide, by decide, by decide, rfl, by decide⟩
  have hact := isCf_active hcf2
  have hchain := runAux_cf 9998 (by omega) (playRound (initGame 2 1 oracleC1)) hcf2
  have hrun : run (initGame 2 1 oracleC1)
      = runAux 9999 1 (playRound (initGame 2 1 oracleC1)) := by
    show runAux (9999 + 1) 0 (initGame 2 1 oracleC1) = _
    rw [runAux_cons (by simp [hact]) (by simp only [MAX_ROUNDS]; omega)]
  rw [hrun]
  exact ⟨hchain.1, hchain.2⟩

end Babipoly
